import Mathlib

/-!
# NeighborFit: enrichment-and-ranking engine

A shallow embedding of `server.js` (`findBestMatches`, `POST /match`), of
`api-services.js` (the TTL cache and its sweeps, `makeApiRequest`, the four
source adapters and `updateNeighborhoodData`), of the limiters of `throttle.js`,
of the features block of `scripts/cache-to-neighborhoods.js` and of
`handleSubmit` of the frontend's `PreferenceForm.js`, followed by theorems about
them.

Numbers are exact: JSON numbers are rationals (`ℚ`); the results of `Math.sqrt`
and the product and quotient formed from them are kept as exact values
`coeff * √radicand` (`Surd`), so every definition can be run.  `Date.now()` is a
natural number of milliseconds.

The similarity of a candidate is embedded twice.  `similarity` is the expression
of `findBestMatches` in exact arithmetic; the theorems on the ranking, the order
and the contributions use it.  `similarityDouble` is the same expression in IEEE
754 binary64 arithmetic, the arithmetic of JavaScript numbers: every literal,
JSON number and operation is rounded to the nearest double (`Double.round`),
with overflow to an infinity, gradual underflow and `NaN`; the theorems on the
value of the similarity use it, and `similarityDouble_near` bounds its distance
to the exact value.
-/

set_option autoImplicit false

namespace NeighborFit

/-! ## JavaScript helpers -/

/-- JavaScript `x || d` for an optional numeric property: `undefined` and `0`
are falsy and give `d`. -/
def orElse (x : Option ℚ) (d : ℚ) : ℚ :=
  match x with
  | some v => if v = 0 then d else v
  | none => d

/-- Truthiness of an optional numeric property. -/
def truthyNum (x : Option ℚ) : Bool :=
  match x with
  | some v => decide (v ≠ 0)
  | none => false

/-- Truthiness of an optional string property (the empty string is falsy). -/
def truthyStr (x : Option String) : Bool :=
  match x with
  | some s => decide (s ≠ "")
  | none => false

/-- JavaScript `x > bound` for an optional numeric property (`undefined > b` is false). -/
def gtNum (x : Option ℚ) (bound : ℚ) : Bool :=
  match x with
  | some v => decide (bound < v)
  | none => false

/-! ## server.js: the ranking factors -/

/-- The eight ranking factors, in the key order of `factorWeights`. -/
inductive Factor
  | safety
  | walkability
  | healthcare
  | fastInternet
  | affordability
  | restaurants
  | publicTransport
  | parksGreenery
  deriving DecidableEq, Repr, Fintype

/-- `Object.keys(factorWeights)`. -/
def factors : List Factor :=
  [.safety, .walkability, .healthcare, .fastInternet, .affordability,
   .restaurants, .publicTransport, .parksGreenery]

/-- `factorWeights` of `findBestMatches`. -/
def factorWeights : Factor → ℚ
  | .safety => 22 / 100
  | .walkability => 18 / 100
  | .healthcare => 18 / 100
  | .fastInternet => 16 / 100
  | .affordability => 12 / 100
  | .restaurants => 6 / 100
  | .publicTransport => 4 / 100
  | .parksGreenery => 4 / 100

/-- The `userPrefs` object: a rating per factor, `none` when the field is absent. -/
abbrev UserPreferences := Factor → Option ℚ

/-- A feature object: the nine numeric attributes, and `usedDefaults` when the
object carries that key (the static literal does, `enriched.features` does not). -/
structure Features where
  safety : ℚ
  walkability : ℚ
  healthcare : ℚ
  fastInternet : ℚ
  affordability : ℚ
  restaurants : ℚ
  publicTransport : ℚ
  parksGreenery : ℚ
  airQuality : ℚ
  usedDefaults : Option Bool
  deriving DecidableEq, Repr

/-- Property access `features[factor]`. -/
def Features.get (ft : Features) : Factor → ℚ
  | .safety => ft.safety
  | .walkability => ft.walkability
  | .healthcare => ft.healthcare
  | .fastInternet => ft.fastInternet
  | .affordability => ft.affordability
  | .restaurants => ft.restaurants
  | .publicTransport => ft.publicTransport
  | .parksGreenery => ft.parksGreenery

/-- A candidate of the pool: the fields `loadAllNeighborhoods` gives (`name`,
`city`, `lat`, `lon`), the `lng` that `getNeighborhoodData` reads, and the
already-known attributes a static entry may carry. -/
structure Neighborhood where
  name : String
  city : String
  lat : Option ℚ
  lon : Option ℚ
  lng : Option ℚ
  attr : Factor → Option ℚ
  airQuality : Option ℚ

/-- `userScores`: `(userPreferences[factor] || 3) * 2` for each factor. -/
def userScores (userPreferences : UserPreferences) : List ℚ :=
  factors.map (fun factor => orElse (userPreferences factor) 3 * 2)

/-- The callback `(score, i) => score * factorWeights[factors[i]]` mapped over a score list. -/
def weighted (scores : List ℚ) : List ℚ :=
  List.zipWith (fun score factor => score * factorWeights factor) scores factors

/-- `weightedUserScores`. -/
def weightedUserScores (userPreferences : UserPreferences) : List ℚ :=
  weighted (userScores userPreferences)

/-- `neighborhoodScores`: `features[factor]` for each factor. -/
def neighborhoodScores (features : Features) : List ℚ :=
  factors.map (fun factor => features.get factor)

/-- `weightedNeighborhoodScores`. -/
def weightedNeighborhoodScores (features : Features) : List ℚ :=
  weighted (neighborhoodScores features)

/-- `weightedUserScores.reduce((sum, val, i) => sum + val * w[i], 0)`. -/
def dotProduct (u w : List ℚ) : ℚ :=
  (List.zipWith (fun val wi => val * wi) u w).foldl (fun sum p => sum + p) 0

/-- `xs.reduce((sum, val) => sum + val * val, 0)`, the argument of `Math.sqrt`. -/
def sumSquares (xs : List ℚ) : ℚ :=
  xs.foldl (fun sum val => sum + val * val) 0

/-! ## Exact numbers for `Math.sqrt` -/

/-- An exact number `coeff * √radicand`. `Math.sqrt` of a rational, and the
products and quotients `findBestMatches` forms from such roots, have this form.
A negative radicand stands for `NaN`. -/
structure Surd where
  coeff : ℚ
  radicand : ℚ
  deriving DecidableEq, Repr

/-- A rational number as an exact value. -/
def Surd.ofRat (q : ℚ) : Surd := { coeff := q, radicand := 1 }

/-- `Math.sqrt(x)`. -/
def Surd.sqrt (x : ℚ) : Surd := { coeff := 1, radicand := x }

/-- `a * b`: `(p√r)(q√s) = pq√(rs)`. -/
def Surd.mul (a b : Surd) : Surd :=
  { coeff := a.coeff * b.coeff, radicand := a.radicand * b.radicand }

/-- `a / b`: `(p√r)/(q√s) = (p/(qs))√(rs)`. -/
def Surd.div (a b : Surd) : Surd :=
  { coeff := a.coeff / (b.coeff * b.radicand), radicand := a.radicand * b.radicand }

/-- Truthiness of a number: neither `0` nor `NaN`. -/
def Surd.truthy (a : Surd) : Bool :=
  decide (a.coeff ≠ 0) && decide (0 < a.radicand)

/-- `Number(a.toFixed(3))`: the sign is split off and the absolute value is
rounded to the nearest multiple of 1/1000, the larger one on a tie. With
`c = 1000 * |coeff|` the number of thousandths is `⌊c√r + 1/2⌋`, which is
`(⌊√(4c²r)⌋ + 1) / 2` in whole numbers. -/
def Surd.toFixed3 (a : Surd) : ℚ :=
  let c : ℚ := |a.coeff| * 1000
  let n : ℕ := (Nat.sqrt ⌊4 * (c * c) * a.radicand⌋₊ + 1) / 2
  if a.coeff < 0 then -((n : ℚ) / 1000) else (n : ℚ) / 1000

/-! ## server.js: the similarity of one candidate -/

/-- `Math.sqrt(xs.reduce(...))`. -/
def magnitude (xs : List ℚ) : Surd :=
  Surd.sqrt (sumSquares xs)

/-- The local `similarity` of `findBestMatches`, in exact arithmetic:
`userMagnitude && neighborhoodMagnitude ? dotProduct / (userMagnitude * neighborhoodMagnitude) : 0`. -/
def similarity (userPreferences : UserPreferences) (features : Features) : Surd :=
  let dot := dotProduct (weightedUserScores userPreferences) (weightedNeighborhoodScores features)
  let userMagnitude := magnitude (weightedUserScores userPreferences)
  let neighborhoodMagnitude := magnitude (weightedNeighborhoodScores features)
  if userMagnitude.truthy && neighborhoodMagnitude.truthy then
    (Surd.ofRat dot).div (userMagnitude.mul neighborhoodMagnitude)
  else Surd.ofRat 0

/-- One entry of `contributions`. -/
structure Contribution where
  factor : Factor
  user : ℚ
  neighborhood : ℚ
  product : ℚ
  deriving DecidableEq, Repr

/-- `contributions`: one entry per factor, built from the two weighted vectors. -/
def contributions (wu wn : List ℚ) : List Contribution :=
  List.zipWith
    (fun factor (p : ℚ × ℚ) =>
      { factor := factor, user := p.1, neighborhood := p.2, product := p.1 * p.2 })
    factors (List.zip wu wn)

/-- The object `findBestMatches` returns for one candidate: the candidate `n`,
its `features`, the rounded `similarity` (and its copy `interpretability`) and
the `contributions`. -/
structure MatchResult where
  neighborhood : Neighborhood
  features : Features
  similarity : ℚ
  interpretability : ℚ
  contributions : List Contribution

/-! ## api-services.js: the TTL cache -/

/-- A cache entry `{ data, expiresAt, cachedAt }`; `expiresAt` may be missing in
an entry read from the cache file. `cachedAt` holds the time of the write. -/
structure CacheEntry (δ : Type) where
  data : δ
  expiresAt : Option ℤ
  cachedAt : ℕ

/-- The module-level `cache` object: keys with their entries, in insertion order. -/
abbrev Cache (δ : Type) := List (String × CacheEntry δ)

/-- Property read `cache[key]`. -/
def Cache.find {δ : Type} (cache : Cache δ) (key : String) : Option (CacheEntry δ) :=
  match cache with
  | [] => none
  | (k, e) :: rest => if k = key then some e else Cache.find rest key

/-- Property write `cache[key] = entry`: an existing key keeps its place, a new
key is appended. -/
def Cache.assign {δ : Type} (cache : Cache δ) (key : String) (entry : CacheEntry δ) : Cache δ :=
  match cache with
  | [] => [(key, entry)]
  | (k, e) :: rest =>
    if k = key then (key, entry) :: rest else (k, e) :: Cache.assign rest key entry

/-- `isCacheValid(key)` at time `now = Date.now()`:
`entry.expiresAt && entry.expiresAt > now`, false without an entry. -/
def isCacheValid {δ : Type} (cache : Cache δ) (now : ℕ) (key : String) : Bool :=
  match Cache.find cache key with
  | none => false
  | some entry =>
    match entry.expiresAt with
    | none => false
    | some expiresAt => decide (expiresAt ≠ 0) && decide ((now : ℤ) < expiresAt)

/-- `getCachedData(key)`: the entry's data when the entry is valid, `null` (`none`) otherwise. -/
def getCachedData {δ : Type} (cache : Cache δ) (now : ℕ) (key : String) : Option δ :=
  if isCacheValid cache now key then
    match Cache.find cache key with
    | some entry => some entry.data
    | none => none
  else none

/-- `setCacheData(key, data, duration)` at time `now = Date.now()`; the file
write of `saveCache` changes nothing in memory and swallows its own errors. -/
def setCacheData {δ : Type} (cache : Cache δ) (now : ℕ) (key : String) (data : δ)
    (duration : ℤ) : Cache δ :=
  Cache.assign cache key { data := data, expiresAt := some ((now : ℤ) + duration), cachedAt := now }

/-- `CACHE_CONFIG.demographics`: 48 hours. -/
def CACHE_CONFIG.demographics : ℤ := 48 * 60 * 60 * 1000

/-- `CACHE_CONFIG.infrastructure`: 24 hours. -/
def CACHE_CONFIG.infrastructure : ℤ := 24 * 60 * 60 * 1000

/-- `CACHE_CONFIG.walkability`: 12 hours. -/
def CACHE_CONFIG.walkability : ℤ := 12 * 60 * 60 * 1000

/-- `CACHE_CONFIG.poi`: 48 hours. -/
def CACHE_CONFIG.poi : ℤ := 48 * 60 * 60 * 1000

/-! ## api-services.js: adapter results and upstream payloads -/

/-- A result object of an adapter, which is also what the cache stores as
`data`: the fields the four adapters write and `updateNeighborhoodData` or
`extractNeighborhoodsFromCache` read, each `none` when the object lacks the key
(`type` and `importance` of a location, which nothing reads, are left out). -/
structure ApiObject where
  lat : Option ℚ := none
  lng : Option ℚ := none
  displayName : Option String := none
  restaurants : Option ℚ := none
  hospitals : Option ℚ := none
  parks : Option ℚ := none
  shopping : Option ℚ := none
  transport : Option ℚ := none
  totalPOIs : Option ℚ := none
  police : Option ℚ := none
  footways : Option ℚ := none
  busStops : Option ℚ := none
  temperature : Option ℚ := none
  humidity : Option ℚ := none
  airQuality : Option ℚ := none
  weatherDescription : Option String := none
  precipitation : Option ℚ := none
  totalPopulation : Option ℚ := none
  states : List (String × ℚ) := []
  category : Option String := none
  capital : Option String := none
  region : Option String := none
  error : Option String := none
  source : Option String := none
  updatedAt : Option ℕ := none
  deriving DecidableEq, Repr

/-- What `await limiter.schedule(() => makeApiRequest(...))` comes to: it throws
once the last attempt has failed, or yields `response.data` (`none` when the
body is `null`). -/
inductive Response (α : Type) where
  | threw
  | data (d : Option α)

/-- One element of a Nominatim search answer; `lat` and `lon` after `parseFloat`
(`none` for `NaN`). -/
structure RawLocation where
  lat : Option ℚ := none
  lon : Option ℚ := none
  display_name : Option String := none

/-- The `tags` of an Overpass element. -/
structure RawTags where
  amenity : Option String := none
  leisure : Option String := none
  shop : Option String := none
  highway : Option String := none

/-- An Overpass element. -/
structure RawElement where
  tags : Option RawTags := none

/-- An Overpass answer `{ elements }`. -/
structure RawOverpass where
  elements : Option (List RawElement) := none

/-- The `current` block of an Open-Meteo forecast. -/
structure RawCurrent where
  temperature_2m : Option ℚ := none
  relative_humidity_2m : Option ℚ := none
  precipitation : Option ℚ := none
  weather_code : Option ℕ := none

/-- An Open-Meteo forecast answer. -/
structure RawWeather where
  current : Option RawCurrent := none

/-- An Open-Meteo air-quality answer, reduced to `hourly.european_aqi[0]`
(`none` when any link of the optional chain is missing). -/
structure RawAirQuality where
  firstEuropeanAqi : Option ℚ := none

/-- One element of a REST Countries answer; `capital` is `capital[0]`. -/
structure RawCountry where
  population : Option ℚ := none
  capital : Option String := none
  region : Option String := none

/-- The upstream services as seen by one enrichment: what each request comes to. -/
structure Network where
  location : Neighborhood → Response (List RawLocation)
  poi : ℚ → ℚ → ℚ → Response RawOverpass
  weather : ℚ → ℚ → Response RawWeather
  airQuality : ℚ → ℚ → Response RawAirQuality
  indiaData : Response (List RawCountry)

/-- A number inside a template literal. Only its being a function of the number
is used. -/
def numberToString (q : ℚ) : String := toString q

/-! ## api-services.js: what the cache of the adapters holds -/

/-- What an entry of the adapters' cache holds as `data`: an object, or `none`
for a falsy value (`null`, `0`, `''`, `false`), which an entry read from the
cache file may hold and which fails the test `if (cached)` of the adapters. A
truthy value that is not an object is read as the object of its own properties. -/
abbrev CachedData := Option ApiObject

/-- The `cached` of an adapter when it passes the test of `const cached =
getCachedData(cacheKey); if (cached) { ... }`: the cached object, `none` when
`getCachedData` returned `null` or a falsy `data`. -/
def truthyCached (cached : Option CachedData) : Option ApiObject :=
  match cached with
  | some (some object) => some object
  | _ => none

/-! ## api-services.js: the four adapters

Each adapter takes the cache and the time, and returns its result with the
cache it leaves behind. -/

/-- The `cacheKey` of `getLocationData`. `toLower` lowers the letters A to Z. -/
def locationKey (neighborhood : Neighborhood) : String :=
  "location_" ++ neighborhood.name.toLower ++ "_" ++ neighborhood.city.toLower

/-- The `cacheKey` of `getPOI`. -/
def poiKey (lat lng radius : ℚ) : String :=
  "poi_" ++ numberToString lat ++ "_" ++ numberToString lng ++ "_" ++ numberToString radius

/-- The `cacheKey` of `getWeatherData`. -/
def weatherKey (lat lng : ℚ) : String :=
  "weather_" ++ numberToString lat ++ "_" ++ numberToString lng

/-- The `cacheKey` of `getIndiaData`. -/
def indiaDataKey (category : String) : String :=
  "india_data_" ++ category

/-- The fallback record of `getWeatherData`. -/
def weatherFallback (now : ℕ) : ApiObject :=
  { temperature := some 25, humidity := some 60, airQuality := some 50,
    weatherDescription := some "Partly cloudy", precipitation := some 0,
    source := some "fallback", updatedAt := some now }

/-- The fallback record of `getIndiaData`. -/
def indiaFallback (now : ℕ) (category : String) : ApiObject :=
  { totalPopulation := some 1380004385,
    states := [("Maharashtra", 112374333), ("Delhi", 16787941), ("Karnataka", 67562686),
      ("Tamil Nadu", 72147030), ("Gujarat", 60439692), ("Uttar Pradesh", 199812341),
      ("West Bengal", 91276115), ("Telangana", 35193978)],
    category := some category, capital := some "New Delhi", region := some "Asia",
    source := some "fallback", updatedAt := some now }

/-- `OpenStreetMapService.getLocationData(neighborhood)`. -/
def getLocationData (cache : Cache CachedData) (now : ℕ) (net : Network)
    (neighborhood : Neighborhood) : ApiObject × Cache CachedData :=
  let cacheKey := locationKey neighborhood
  match truthyCached (getCachedData cache now cacheKey) with
  | some cached => ({ cached with source := some "cache" }, cache)
  | none =>
    match net.location neighborhood with
    | .threw => ({ error := some "Location data unavailable", source := some "error" }, cache)
    | .data (some (location :: _)) =>
      let processedData : ApiObject :=
        { lat := location.lat, lng := location.lon, displayName := location.display_name,
          updatedAt := some now }
      ({ processedData with source := some "api" },
        setCacheData cache now cacheKey (some processedData) CACHE_CONFIG.infrastructure)
    | .data _ => ({ error := some "Location not found", source := some "error" }, cache)

/-- The number of elements of `pois` that pass the filter `keep`, as a JSON number. -/
def countWhere (pois : List RawElement) (keep : RawTags → Bool) : Option ℚ :=
  some ((pois.filter (fun poi =>
    match poi.tags with
    | some tags => keep tags
    | none => false)).length : ℚ)

/-- `OpenStreetMapService.getPOI(lat, lng, radius = 2000)`. -/
def getPOI (cache : Cache CachedData) (now : ℕ) (net : Network) (lat lng : ℚ)
    (radius : ℚ := 2000) : ApiObject × Cache CachedData :=
  let cacheKey := poiKey lat lng radius
  match truthyCached (getCachedData cache now cacheKey) with
  | some cached => ({ cached with source := some "cache" }, cache)
  | none =>
    match net.poi lat lng radius with
    | .threw => ({ error := some "POI data unavailable", source := some "error" }, cache)
    | .data none => ({ error := some "POI data unavailable", source := some "error" }, cache)
    | .data (some data) =>
      let pois := data.elements.getD []
      let processedData : ApiObject :=
        { restaurants := countWhere pois (fun tags => decide (tags.amenity = some "restaurant")),
          hospitals := countWhere pois (fun tags => decide (tags.amenity = some "hospital")),
          parks := countWhere pois (fun tags => decide (tags.leisure = some "park")),
          shopping := countWhere pois (fun tags => truthyStr tags.shop),
          transport := countWhere pois (fun tags => decide (tags.highway = some "bus_stop")),
          totalPOIs := some (pois.length : ℚ),
          updatedAt := some now }
      ({ processedData with source := some "api" },
        setCacheData cache now cacheKey (some processedData) CACHE_CONFIG.poi)

/-- `WeatherAPIService.getWeatherDescription(code)`. -/
def getWeatherDescription (code : Option ℕ) : String :=
  match code with
  | some 0 => "Clear sky"
  | some 1 => "Mainly clear"
  | some 2 => "Partly cloudy"
  | some 3 => "Overcast"
  | some 45 => "Foggy"
  | some 48 => "Depositing rime fog"
  | some 51 => "Light drizzle"
  | some 53 => "Moderate drizzle"
  | some 55 => "Dense drizzle"
  | some 61 => "Slight rain"
  | some 63 => "Moderate rain"
  | some 65 => "Heavy rain"
  | some 71 => "Slight snow"
  | some 73 => "Moderate snow"
  | some 75 => "Heavy snow"
  | some 95 => "Thunderstorm"
  | _ => "Partly cloudy"

/-- `WeatherAPIService.getWeatherData(lat, lng)`. -/
def getWeatherData (cache : Cache CachedData) (now : ℕ) (net : Network) (lat lng : ℚ) :
    ApiObject × Cache CachedData :=
  let cacheKey := weatherKey lat lng
  let fallback : ApiObject := weatherFallback now
  match truthyCached (getCachedData cache now cacheKey) with
  | some cached => ({ cached with source := some "cache" }, cache)
  | none =>
    match net.weather lat lng with
    | .threw => (fallback, cache)
    | .data none => (fallback, cache)
    | .data (some weatherData) =>
      let airQualityData : Option RawAirQuality :=
        match net.airQuality lat lng with
        | .threw => none
        | .data d => d
      let current := weatherData.current
      let processedData : ApiObject :=
        { temperature := some (orElse (current.bind (fun c => c.temperature_2m)) 25),
          humidity := some (orElse (current.bind (fun c => c.relative_humidity_2m)) 60),
          airQuality := some (orElse (airQualityData.bind (fun a => a.firstEuropeanAqi)) 50),
          weatherDescription :=
            some (getWeatherDescription (current.bind (fun c => c.weather_code))),
          precipitation := some (orElse (current.bind (fun c => c.precipitation)) 0),
          updatedAt := some now }
      ({ processedData with source := some "weather_api" },
        setCacheData cache now cacheKey (some processedData) CACHE_CONFIG.infrastructure)

/-- `IndiaDataService.getIndiaData(category)`. -/
def getIndiaData (cache : Cache CachedData) (now : ℕ) (net : Network) (category : String) :
    ApiObject × Cache CachedData :=
  let cacheKey := indiaDataKey category
  let fallback : ApiObject := indiaFallback now category
  match truthyCached (getCachedData cache now cacheKey) with
  | some cached => ({ cached with source := some "cache" }, cache)
  | none =>
    match net.indiaData with
    | .data (some (indiaData :: _)) =>
      let processedData : ApiObject :=
        { totalPopulation := some (orElse indiaData.population 1380004385),
          states := [("Maharashtra", 112374333), ("Delhi", 16787941), ("Karnataka", 67562686),
            ("Tamil Nadu", 72147030), ("Gujarat", 60439692)],
          category := some category,
          capital := some (match indiaData.capital with
            | some c => if c = "" then "New Delhi" else c
            | none => "New Delhi"),
          region := some (match indiaData.region with
            | some r => if r = "" then "Asia" else r
            | none => "Asia"),
          updatedAt := some now }
      ({ processedData with source := some "api" },
        setCacheData cache now cacheKey (some processedData) CACHE_CONFIG.demographics)
    | _ => (fallback, cache)

/-! ## api-services.js: NeighborFitAPIService -/

/-- The `results` object of `getNeighborhoodData`. -/
structure ApiData where
  location : Option ApiObject
  poi : Option ApiObject
  weather : Option ApiObject
  indiaData : Option ApiObject
  dataSources : List String
  lastUpdated : ℕ

/-- A `source` inside a template literal. -/
def sourceToString (source : Option String) : String :=
  source.getD "undefined"

/-- The literal `19.0760` of `getNeighborhoodData`. -/
def defaultLat : ℚ := 19076 / 1000

/-- The literal `72.8777` of `getNeighborhoodData`. -/
def defaultLng : ℚ := 728777 / 10000

/-- `NeighborFitAPIService.getNeighborhoodData(neighborhood)`: the four adapters
in turn, each seeing the cache the previous one left. -/
def getNeighborhoodData (cache : Cache CachedData) (now : ℕ) (net : Network)
    (neighborhood : Neighborhood) : ApiData × Cache CachedData :=
  let (locationResult, cache1) := getLocationData cache now net neighborhood
  let lat := orElse locationResult.lat (orElse neighborhood.lat defaultLat)
  let lng := orElse locationResult.lng (orElse neighborhood.lng defaultLng)
  let (poiResult, cache2) := getPOI cache1 now net lat lng
  let (weatherResult, cache3) := getWeatherData cache2 now net lat lng
  let (indiaDataResult, cache4) := getIndiaData cache3 now net "demographics"
  ({ location := some locationResult,
     poi := some poiResult,
     weather := some weatherResult,
     indiaData := some indiaDataResult,
     dataSources :=
       ["location:" ++ sourceToString locationResult.source,
        "poi:" ++ sourceToString poiResult.source,
        "weather:" ++ sourceToString weatherResult.source,
        "indiaData:" ++ sourceToString indiaDataResult.source],
     lastUpdated := now }, cache4)

/-- The guard `apiData.x && !apiData.x.error`: the result object when it is
there and carries no truthy `error`. -/
def usable (result : Option ApiObject) : Option ApiObject :=
  match result with
  | some r => if truthyStr r.error then none else some r
  | none => none

/-- What `updateNeighborhoodData` returns: `{ ...neighborhood, features,
usedDefaults, dataSources, enrichmentWarning }`. -/
structure Enriched where
  neighborhood : Neighborhood
  features : Features
  usedDefaults : Bool
  dataSources : List String
  enrichmentWarning : Bool

/-- A count `c` of `updateNeighborhoodData`: `let c = 0; if (apiData.poi &&
!apiData.poi.error) c += apiData.poi.field || 0`. -/
def poiCount (apiData : ApiData) (field : ApiObject → Option ℚ) : ℚ :=
  match usable apiData.poi with
  | some poi => 0 + orElse (field poi) 0
  | none => 0

/-- `policeCount`. -/
def policeCount (apiData : ApiData) : ℚ := poiCount apiData (fun poi => poi.police)

/-- `footwayCount`: `if (apiData.poi && !apiData.poi.error && apiData.poi.footways)
footwayCount += apiData.poi.footways`. -/
def footwayCount (apiData : ApiData) : ℚ :=
  match usable apiData.poi with
  | some poi => if truthyNum poi.footways then 0 + orElse poi.footways 0 else 0
  | none => 0

/-- `hospitalCount`. -/
def hospitalCount (apiData : ApiData) : ℚ := poiCount apiData (fun poi => poi.hospitals)

/-- `restaurantCount`. -/
def restaurantCount (apiData : ApiData) : ℚ := poiCount apiData (fun poi => poi.restaurants)

/-- `transportCount`. -/
def transportCount (apiData : ApiData) : ℚ := poiCount apiData (fun poi => poi.transport)

/-- `parkCount`. -/
def parkCount (apiData : ApiData) : ℚ := poiCount apiData (fun poi => poi.parks)

/-- The condition `apiData.weather && !apiData.weather.error &&
apiData.weather.precipitation > 30`. -/
def heavyRain (apiData : ApiData) : Bool :=
  match usable apiData.weather with
  | some weather => gtNum weather.precipitation 30
  | none => false

/-- The condition `apiData.indiaData && !apiData.indiaData.error && apiData.indiaData.region`. -/
def regionSeen (apiData : ApiData) : Bool :=
  match usable apiData.indiaData with
  | some indiaData => truthyStr indiaData.region
  | none => false

/-- The condition `apiData.indiaData && !apiData.indiaData.error &&
apiData.indiaData.totalPopulation`. -/
def populationSeen (apiData : ApiData) : Bool :=
  match usable apiData.indiaData with
  | some indiaData => truthyNum indiaData.totalPopulation
  | none => false

/-- The condition `apiData.weather && !apiData.weather.error && apiData.weather.airQuality`. -/
def aqiSeen (apiData : ApiData) : Bool :=
  match usable apiData.weather with
  | some weather => truthyNum weather.airQuality
  | none => false

/-- The final value of `safety`: 7, overridden by the police rule, then lowered
by the precipitation rule. -/
def safetyOf (apiData : ApiData) : ℚ :=
  let safety : ℚ := 7
  let safety : ℚ := if policeCount apiData > 0 then min 10 (5 + policeCount apiData) else safety
  if heavyRain apiData then max 2 (safety - 2) else safety

/-- The final value of `walkability`. -/
def walkabilityOf (apiData : ApiData) : ℚ :=
  if footwayCount apiData > 0 then min 10 (5 + footwayCount apiData) else 5

/-- The final value of `healthcare`. -/
def healthcareOf (apiData : ApiData) : ℚ :=
  if hospitalCount apiData > 0 then min 10 (5 + hospitalCount apiData) else 5

/-- The final value of `fastInternet`. -/
def fastInternetOf (apiData : ApiData) : ℚ :=
  if regionSeen apiData then
    (if apiData.indiaData.bind (fun d => d.region) = some "Asia" then 8 else 6)
  else 8

/-- The final value of `affordability`: `Math.min(10, 10 - totalPopulation / 1e8)`
when the population is seen. -/
def affordabilityOf (apiData : ApiData) : ℚ :=
  if populationSeen apiData then
    min 10 (10 - orElse (apiData.indiaData.bind (fun d => d.totalPopulation)) 0 / 100000000)
  else 5

/-- The final value of `restaurants` (assigned unconditionally). -/
def restaurantsOf (apiData : ApiData) : ℚ := min 10 (5 + restaurantCount apiData)

/-- The final value of `publicTransport` (assigned unconditionally). -/
def publicTransportOf (apiData : ApiData) : ℚ := min 10 (5 + transportCount apiData)

/-- The final value of `parksGreenery` (assigned unconditionally). -/
def parksGreeneryOf (apiData : ApiData) : ℚ := min 10 (5 + parkCount apiData)

/-- The final value of `airQuality`. -/
def airQualityOf (apiData : ApiData) : ℚ :=
  if aqiSeen apiData then
    max 2 (10 - orElse (apiData.weather.bind (fun w => w.airQuality)) 0 / 50)
  else 7

/-- The final value of `usedDefaults`: it starts `true` and each statement
`usedDefaults = false` of the source clears it, in source order. -/
def usedDefaultsOf (apiData : ApiData) : Bool :=
  let usedDefaults : Bool := true
  let usedDefaults : Bool := if policeCount apiData > 0 then false else usedDefaults
  let usedDefaults : Bool := if footwayCount apiData > 0 then false else usedDefaults
  let usedDefaults : Bool := if hospitalCount apiData > 0 then false else usedDefaults
  let usedDefaults : Bool := if regionSeen apiData then false else usedDefaults
  let usedDefaults : Bool := if populationSeen apiData then false else usedDefaults
  let usedDefaults : Bool := if restaurantCount apiData > 0 then false else usedDefaults
  let usedDefaults : Bool := if transportCount apiData > 0 then false else usedDefaults
  let usedDefaults : Bool := if parkCount apiData > 0 then false else usedDefaults
  if aqiSeen apiData then false else usedDefaults

/-- The body of `updateNeighborhoodData` after `apiData` has been awaited. -/
def deriveFromApiData (neighborhood : Neighborhood) (apiData : ApiData) : Enriched :=
  { neighborhood := neighborhood,
    features :=
      { safety := safetyOf apiData,
        walkability := walkabilityOf apiData,
        healthcare := healthcareOf apiData,
        fastInternet := fastInternetOf apiData,
        affordability := affordabilityOf apiData,
        restaurants := restaurantsOf apiData,
        publicTransport := publicTransportOf apiData,
        parksGreenery := parksGreeneryOf apiData,
        airQuality := airQualityOf apiData,
        usedDefaults := none },
    usedDefaults := usedDefaultsOf apiData,
    dataSources := apiData.dataSources,
    enrichmentWarning := usedDefaultsOf apiData }

/-- `NeighborFitAPIService.updateNeighborhoodData(neighborhood)`. -/
def updateNeighborhoodData (cache : Cache CachedData) (now : ℕ) (net : Network)
    (neighborhood : Neighborhood) : Enriched × Cache CachedData :=
  let (apiData, cache1) := getNeighborhoodData cache now net neighborhood
  (deriveFromApiData neighborhood apiData, cache1)

/-- The upstream when every request fails: each `makeApiRequest` throws. -/
def Network.allFail : Network :=
  { location := fun _ => .threw,
    poi := fun _ _ _ => .threw,
    weather := fun _ _ => .threw,
    airQuality := fun _ _ => .threw,
    indiaData := .threw }

/-! ## server.js: findBestMatches -/

/-- `enrichNeighborhoodFeatures(neighborhood)`: `apiHealth.OPENWEATHER` is never
set, so nothing runs before `updateNeighborhoodData`, whose result is returned
(with two empty lists attached). -/
def enrichNeighborhoodFeatures (cache : Cache CachedData) (now : ℕ) (net : Network)
    (neighborhood : Neighborhood) : Enriched × Cache CachedData :=
  updateNeighborhoodData cache now net neighborhood

/-- The object literal built for a candidate when `useRealTimeData` is false. -/
def staticFeatures (n : Neighborhood) : Features :=
  { safety := orElse (n.attr .safety) 7,
    walkability := orElse (n.attr .walkability) 5,
    healthcare := orElse (n.attr .healthcare) 5,
    fastInternet := orElse (n.attr .fastInternet) 8,
    affordability := orElse (n.attr .affordability) 5,
    restaurants := orElse (n.attr .restaurants) 5,
    publicTransport := orElse (n.attr .publicTransport) 5,
    parksGreenery := orElse (n.attr .parksGreenery) 5,
    airQuality := orElse n.airQuality 7,
    usedDefaults := some false }

/-- The swap `[shuffled[i], shuffled[j]] = [shuffled[j], shuffled[i]]`. -/
def swapAt {α : Type} (xs : List α) (i j : ℕ) : List α :=
  match xs[i]?, xs[j]? with
  | some a, some b => (xs.set i b).set j a
  | _, _ => xs

/-- The shuffle loop from index `i` down to 1; `rnd i` stands for the draw
`Math.floor(Math.random() * (i + 1))`, taken modulo `i + 1`. -/
def shuffleFrom {α : Type} (rnd : ℕ → ℕ) : ℕ → List α → List α
  | 0, xs => xs
  | i + 1, xs => shuffleFrom rnd i (swapAt xs (i + 1) (rnd (i + 1) % (i + 2)))

/-- The shuffle of `findBestMatches`: `for (let i = shuffled.length - 1; i > 0; i--)`. -/
def shuffle {α : Type} (rnd : ℕ → ℕ) (xs : List α) : List α :=
  shuffleFrom rnd (xs.length - 1) xs

/-- The object returned for one candidate by the callback of
`limitedNeighborhoods.map`, given the candidate's `features`. -/
def scoreNeighborhood (userPreferences : UserPreferences) (n : Neighborhood)
    (features : Features) : MatchResult :=
  { neighborhood := n,
    features := features,
    similarity := (similarity userPreferences features).toFixed3,
    interpretability := (similarity userPreferences features).toFixed3,
    contributions :=
      contributions (weightedUserScores userPreferences) (weightedNeighborhoodScores features) }

/-- The order the comparator `(a, b) => b.similarity - a.similarity` asks for:
`a` may stand before `b`. -/
def similarityDesc (a b : MatchResult) : Prop := b.similarity ≤ a.similarity

instance : DecidableRel similarityDesc := fun a b =>
  inferInstanceAs (Decidable (b.similarity ≤ a.similarity))

instance : IsTotal MatchResult similarityDesc := ⟨fun a b => le_total b.similarity a.similarity⟩

instance : IsTrans MatchResult similarityDesc :=
  ⟨fun _ _ _ hab hbc => le_trans hbc hab⟩

/-- `Array.prototype.sort` with that comparator. ECMAScript requires the sort to
be stable; insertion from the right end is such a sort. -/
def sortBySimilarity (xs : List MatchResult) : List MatchResult :=
  List.insertionSort similarityDesc xs

/-- `findBestMatches(userPreferences, neighborhoods, numResults, useRealTimeData)`.
`enrich n` is what `await enrichNeighborhoodFeatures(n)` yields and `rnd` the
draws of the shuffle. -/
def findBestMatches (enrich : Neighborhood → Enriched) (rnd : ℕ → ℕ)
    (userPreferences : UserPreferences) (neighborhoods : List Neighborhood)
    (numResults : ℕ) (useRealTimeData : Bool) : List MatchResult :=
  let shuffled := if useRealTimeData then shuffle rnd neighborhoods else neighborhoods
  let limitedNeighborhoods := shuffled.take 20
  let enrichedNeighborhoods := limitedNeighborhoods.map (fun n =>
    let features := if useRealTimeData then (enrich n).features else staticFeatures n
    scoreNeighborhood userPreferences n features)
  (sortBySimilarity enrichedNeighborhoods).take numResults

/-! ## server.js: POST /match -/

/-- The body of a `/match` request. -/
structure MatchRequest where
  userPrefs : UserPreferences
  useRealTimeData : Bool := false
  city : Option String := none

/-- The answer of `/match`: one of the two 400 answers, or the success object. -/
inductive MatchResponse where
  | missingFields (fields : List Factor)
  | invalidFields (fields : List Factor)
  | success (topMatches : List MatchResult) (totalNeighborhoods : ℕ) (dataSource : String)
      (weights : Factor → ℚ) (enrichmentWarning : Bool)

/-- The flag computed after `findBestMatches`:
`useRealTimeData && topMatches.every(n => n.features && n.features.usedDefaults)`. -/
def enrichmentWarningOf (useRealTimeData : Bool) (topMatches : List MatchResult) : Bool :=
  useRealTimeData && topMatches.all (fun n => n.features.usedDefaults = some true)

/-- The `weights` object written in the `/match` answer. -/
def responseWeights : Factor → ℚ
  | .safety => 22 / 100
  | .walkability => 18 / 100
  | .healthcare => 18 / 100
  | .fastInternet => 16 / 100
  | .affordability => 12 / 100
  | .restaurants => 6 / 100
  | .publicTransport => 4 / 100
  | .parksGreenery => 4 / 100

/-- The handler of `POST /match`, over the two module-level pools. -/
def postMatch (allNeighborhoods staticNeighborhoods : List Neighborhood)
    (enrich : Neighborhood → Enriched) (rnd : ℕ → ℕ) (req : MatchRequest) : MatchResponse :=
  let missingFields := factors.filter (fun field => (req.userPrefs field).isNone)
  if missingFields.length > 0 then .missingFields missingFields
  else
    let invalidFields := factors.filter (fun field =>
      match req.userPrefs field with
      | some value => decide (value < 1) || decide (value > 5)
      | none => true)
    if invalidFields.length > 0 then .invalidFields invalidFields
    else
      let neighborhoodsToUse := if req.useRealTimeData then allNeighborhoods else staticNeighborhoods
      let neighborhoodsToUse := match req.city with
        | some city =>
          if city ≠ "" then
            neighborhoodsToUse.filter (fun n =>
              decide (n.city ≠ "") && decide (n.city.toLower = city.toLower))
          else neighborhoodsToUse
        | none => neighborhoodsToUse
      let numResults := if req.useRealTimeData then 10 else 5
      let topMatches :=
        findBestMatches enrich rnd req.userPrefs neighborhoodsToUse numResults req.useRealTimeData
      .success topMatches neighborhoodsToUse.length
        (if req.useRealTimeData then "realtime" else "static") responseWeights
        (enrichmentWarningOf req.useRealTimeData topMatches)

/-- The `enrichmentWarning` of an answer; the 400 answers carry none. -/
def MatchResponse.enrichmentWarning : MatchResponse → Option Bool
  | .success _ _ _ _ w => some w
  | _ => none

/-- The `topMatches` of an answer; empty for the 400 answers. -/
def MatchResponse.topMatches : MatchResponse → List MatchResult
  | .success t _ _ _ _ => t
  | _ => []

/-! ## Vectors by factor, and the inputs used in examples -/

/-- The entry of `weightedUserScores` at a factor: weight × 2 × rating. -/
def userWeighted (userPreferences : UserPreferences) (factor : Factor) : ℚ :=
  orElse (userPreferences factor) 3 * 2 * factorWeights factor

/-- The entry of `weightedNeighborhoodScores` at a factor: weight × feature value. -/
def neighborhoodWeighted (features : Features) (factor : Factor) : ℚ :=
  features.get factor * factorWeights factor

/-- A user who rates every factor `r`. -/
def uniformPrefs (r : ℚ) : UserPreferences := fun _ => some r

/-- The user of the spec's scenario: safety 5, every other factor 1. -/
def safetyFirstPrefs : UserPreferences
  | .safety => some 5
  | _ => some 1

/-- A user who rates affordability 5 and every other factor 1. -/
def thriftyPrefs : UserPreferences
  | .affordability => some 5
  | _ => some 1

/-- A candidate with no coordinates and the given attributes. -/
def plainNeighborhood (name : String) (attr : Factor → Option ℚ) : Neighborhood :=
  { name := name, city := "Pune", lat := none, lon := none, lng := none, attr := attr,
    airQuality := none }

/-- A static entry whose only attribute is `affordability = -20`. -/
def debtNeighborhood : Neighborhood :=
  plainNeighborhood "Debt" (fun
    | .affordability => some (-20)
    | _ => none)

/-- The spec's scenario candidate: safety 10, every other attribute 2. -/
def scenarioNeighborhood : Neighborhood :=
  plainNeighborhood "Scenario" (fun
    | .safety => some 10
    | _ => some 2)

/-- What `await enrichNeighborhoodFeatures(n)` yields at time `now` when the
cache is empty and every request fails. -/
def offlineEnrich (now : ℕ) (n : Neighborhood) : Enriched :=
  (enrichNeighborhoodFeatures [] now Network.allFail n).1

/-- The ratings of the spec's scenario user. -/
def safetyFirstRatings : Factor → ℚ
  | .safety => 5
  | _ => 1

/-- A candidate as `loadAllNeighborhoods` builds it: name, city, `lat` and `lon`. -/
def osmNeighborhood : Neighborhood :=
  { name := "Kothrud", city := "Pune", lat := some (185074 / 10000), lon := some (738077 / 10000),
    lng := none, attr := fun _ => none, airQuality := none }

/-- What `getNeighborhoodData` collects when the cache is empty and every
request fails. -/
def offlineApiData (now : ℕ) : ApiData :=
  { location := some { error := some "Location data unavailable", source := some "error" },
    poi := some { error := some "POI data unavailable", source := some "error" },
    weather := some (weatherFallback now),
    indiaData := some (indiaFallback now "demographics"),
    dataSources := ["location:error", "poi:error", "weather:fallback", "indiaData:fallback"],
    lastUpdated := now }

/-- A request for a real-time match with every rating 3 and no city filter. -/
def realtimeRequest : MatchRequest :=
  { userPrefs := uniformPrefs 3, useRealTimeData := true, city := none }

/-- A cache as read from the cache file, with two entries that expire at 2000
and fit the candidate `osmNeighborhood`: a weather record with 40 mm of
precipitation and no `airQuality`, and a demographics record with neither
`region` nor `totalPopulation`. -/
def sparseCache : Cache CachedData :=
  [(weatherKey (185074 / 10000) defaultLng,
      { data := some { precipitation := some 40 }, expiresAt := some 2000, cachedAt := 0 }),
   (indiaDataKey "demographics",
      { data := some { category := some "demographics" }, expiresAt := some 2000, cachedAt := 0 })]

/-- What `getNeighborhoodData` collects for `osmNeighborhood` from `sparseCache`
at time 1000 when every request fails. -/
def sparseApiData : ApiData :=
  { location := some { error := some "Location data unavailable", source := some "error" },
    poi := some { error := some "POI data unavailable", source := some "error" },
    weather := some { precipitation := some 40, source := some "cache" },
    indiaData := some { category := some "demographics", source := some "cache" },
    dataSources := ["location:error", "poi:error", "weather:cache", "indiaData:cache"],
    lastUpdated := 1000 }

/-- What `await enrichNeighborhoodFeatures(n)` yields at time 1000 over
`sparseCache` when every request fails. -/
def sparseEnrich (n : Neighborhood) : Enriched :=
  (enrichNeighborhoodFeatures sparseCache 1000 Network.allFail n).1

/-- The first of two candidates with the attributes of the spec's scenario. -/
def twinFirst : Neighborhood :=
  plainNeighborhood "First" (fun
    | .safety => some 10
    | _ => some 2)

/-- The second of two candidates with the attributes of the spec's scenario. -/
def twinSecond : Neighborhood :=
  plainNeighborhood "Second" (fun
    | .safety => some 10
    | _ => some 2)

/-! ## The real-number reading of exact values -/

/-- The exact value `s` stands for the real number `x`. -/
def Surd.Denotes (s : Surd) (x : ℝ) : Prop :=
  x = (s.coeff : ℝ) * Real.sqrt (s.radicand : ℝ)

/-- The rational `y` is `Number(x.toFixed(3))` for the real number `x`: the
absolute value of `x` rounded to the nearest thousandth, the larger one on a
tie, under the sign of `x`. -/
def RoundsTo (x : ℝ) (y : ℚ) : Prop :=
  (0 ≤ x → (y : ℝ) = ((⌊x * 1000 + 1 / 2⌋₊ : ℕ) : ℝ) / 1000) ∧
  (x < 0 → (y : ℝ) = -(((⌊-x * 1000 + 1 / 2⌋₊ : ℕ) : ℝ) / 1000))

/-! ## api-services.js: the requests an adapter schedules -/

/-- A request handed to a limiter with `limiter.schedule(() => makeApiRequest(...))`:
the Nominatim search for a query, the Overpass query around a point, the
Open-Meteo forecast and air-quality requests, and the REST Countries request. -/
inductive Request where
  | location (q : String)
  | poi (lat lng radius : ℚ)
  | weather (lat lng : ℚ)
  | airQuality (lat lng : ℚ)
  | indiaData
  deriving DecidableEq, Repr

/-- The requests `getLocationData` schedules, in order: none on a cache hit, the
search for `${name}, ${city}, India` otherwise. -/
def getLocationDataRequests (cache : Cache CachedData) (now : ℕ) (neighborhood : Neighborhood) :
    List Request :=
  match truthyCached (getCachedData cache now (locationKey neighborhood)) with
  | some _ => []
  | none => [.location (neighborhood.name ++ ", " ++ neighborhood.city ++ ", India")]

/-- The requests `getPOI` schedules, in order. -/
def getPOIRequests (cache : Cache CachedData) (now : ℕ) (lat lng : ℚ) (radius : ℚ := 2000) :
    List Request :=
  match truthyCached (getCachedData cache now (poiKey lat lng radius)) with
  | some _ => []
  | none => [.poi lat lng radius]

/-- The requests `getWeatherData` schedules, in order: none on a cache hit;
otherwise the forecast request and, unless that one threw, the air-quality
request (which is scheduled before the forecast answer is read). -/
def getWeatherDataRequests (cache : Cache CachedData) (now : ℕ) (net : Network) (lat lng : ℚ) :
    List Request :=
  match truthyCached (getCachedData cache now (weatherKey lat lng)) with
  | some _ => []
  | none =>
    match net.weather lat lng with
    | .threw => [.weather lat lng]
    | .data _ => [.weather lat lng, .airQuality lat lng]

/-- The requests `getIndiaData` schedules, in order. -/
def getIndiaDataRequests (cache : Cache CachedData) (now : ℕ) (category : String) :
    List Request :=
  match truthyCached (getCachedData cache now (indiaDataKey category)) with
  | some _ => []
  | none => [.indiaData]

/-- The cache holds an unexpired entry under `key`: an entry whose `expiresAt`
lies after `now`. -/
def hasUnexpired {δ : Type} (cache : Cache δ) (now : ℕ) (key : String) : Bool :=
  match Cache.find cache key with
  | some entry =>
    match entry.expiresAt with
    | some expiresAt => decide ((now : ℤ) < expiresAt)
    | none => false
  | none => false

/-- The `processedData` of `getLocationData` for the first element of the answer. -/
def locationPayload (now : ℕ) (location : RawLocation) : ApiObject :=
  { lat := location.lat, lng := location.lon, displayName := location.display_name,
    updatedAt := some now }

/-- The `processedData` of `getPOI` for an answer. -/
def poiPayload (now : ℕ) (data : RawOverpass) : ApiObject :=
  { restaurants := countWhere (data.elements.getD [])
      (fun tags => decide (tags.amenity = some "restaurant")),
    hospitals := countWhere (data.elements.getD [])
      (fun tags => decide (tags.amenity = some "hospital")),
    parks := countWhere (data.elements.getD []) (fun tags => decide (tags.leisure = some "park")),
    shopping := countWhere (data.elements.getD []) (fun tags => truthyStr tags.shop),
    transport := countWhere (data.elements.getD [])
      (fun tags => decide (tags.highway = some "bus_stop")),
    totalPOIs := some ((data.elements.getD []).length : ℚ),
    updatedAt := some now }

/-- The `processedData` of `getWeatherData` for a forecast and what the
air-quality request left (`none` when it failed or was empty). -/
def weatherPayload (now : ℕ) (weatherData : RawWeather) (airQualityData : Option RawAirQuality) :
    ApiObject :=
  { temperature := some (orElse (weatherData.current.bind (fun c => c.temperature_2m)) 25),
    humidity := some (orElse (weatherData.current.bind (fun c => c.relative_humidity_2m)) 60),
    airQuality := some (orElse (airQualityData.bind (fun a => a.firstEuropeanAqi)) 50),
    weatherDescription :=
      some (getWeatherDescription (weatherData.current.bind (fun c => c.weather_code))),
    precipitation := some (orElse (weatherData.current.bind (fun c => c.precipitation)) 0),
    updatedAt := some now }

/-- The `processedData` of `getIndiaData` for the first element of the answer. -/
def indiaPayload (now : ℕ) (category : String) (indiaData : RawCountry) : ApiObject :=
  { totalPopulation := some (orElse indiaData.population 1380004385),
    states := [("Maharashtra", 112374333), ("Delhi", 16787941), ("Karnataka", 67562686),
      ("Tamil Nadu", 72147030), ("Gujarat", 60439692)],
    category := some category,
    capital := some (match indiaData.capital with
      | some c => if c = "" then "New Delhi" else c
      | none => "New Delhi"),
    region := some (match indiaData.region with
      | some r => if r = "" then "Asia" else r
      | none => "Asia"),
    updatedAt := some now }

/-! ## api-services.js: makeApiRequest -/

/-- What one `await axios({ url, timeout, ...options })` comes to: it rejects
with an error (a timeout included) or resolves with a response carrying `data`. -/
inductive AxiosResult (ε α : Type) where
  | rejected (error : ε)
  | resolved (data : α)

/-- What `makeApiRequest` does on its way: the `n`-th call of `axios`, and the
wait of `ms` milliseconds before the next one. -/
inductive RequestEvent where
  | attempt (n : ℕ)
  | wait (ms : ℕ)
  deriving DecidableEq, Repr

/-- How a call of `makeApiRequest` ends: it returns `response.data`, throws an
error, or leaves the loop without having entered it and returns `undefined`. -/
inductive RequestOutcome (ε α : Type) where
  | returned (data : α)
  | threw (error : ε)
  | returnedUndefined

/-- The loop `for (let attempt = 1; attempt <= retries; attempt++)` of
`makeApiRequest` from `attempt` on, with `remaining = retries + 1 - attempt`
rounds left; `axios n` is what the `n`-th call comes to. -/
def makeApiRequestLoop {ε α : Type} (axios : ℕ → AxiosResult ε α) (retries : ℕ) :
    ℕ → ℕ → RequestOutcome ε α × List RequestEvent
  | 0, _ => (.returnedUndefined, [])
  | remaining + 1, attempt =>
    match axios attempt with
    | .resolved data => (.returned data, [.attempt attempt])
    | .rejected error =>
      if attempt = retries then (.threw error, [.attempt attempt])
      else
        ((makeApiRequestLoop axios retries remaining (attempt + 1)).1,
          .attempt attempt :: .wait (1000 * attempt) ::
            (makeApiRequestLoop axios retries remaining (attempt + 1)).2)

/-- `makeApiRequest(url, options = {}, retries = 2)`: how it ends, and what it
did on its way. -/
def makeApiRequest {ε α : Type} (axios : ℕ → AxiosResult ε α) (retries : ℕ := 2) :
    RequestOutcome ε α × List RequestEvent :=
  makeApiRequestLoop axios retries retries 1

/-- The number of `axios` calls among the events. -/
def attemptsMade (events : List RequestEvent) : ℕ :=
  (events.filter (fun e =>
    match e with
    | .attempt _ => true
    | .wait _ => false)).length

/-! ## More inputs used in examples -/

/-- The `weights` of an answer; the 400 answers carry none. -/
def MatchResponse.weights : MatchResponse → Option (Factor → ℚ)
  | .success _ _ _ w _ => some w
  | _ => none

/-- A static entry without any attribute. -/
def bareNeighborhood : Neighborhood := plainNeighborhood "Bare" (fun _ => none)

/-- A static pool of 21 entries: twenty without attributes, then the spec's
scenario candidate. -/
def crowdedPool : List Neighborhood :=
  List.replicate 20 bareNeighborhood ++ [scenarioNeighborhood]

/-- A static entry whose only attribute is `safety = 0`. -/
def zeroSafetyNeighborhood : Neighborhood :=
  plainNeighborhood "Zero" (fun
    | .safety => some 0
    | _ => none)

/-- An upstream where every request succeeds with a small answer. -/
def Network.sample : Network :=
  { location := fun _ =>
      .data (some [{ lat := some (185 / 10), lon := some (738 / 10),
                     display_name := some "Kothrud, Pune" }]),
    poi := fun _ _ _ =>
      .data (some { elements := some [{ tags := some { amenity := some "restaurant" } },
                                      { tags := some { amenity := some "hospital" } }] }),
    weather := fun _ _ =>
      .data (some { current := some { temperature_2m := some 30, relative_humidity_2m := some 70,
                                      precipitation := some 2, weather_code := some 61 } }),
    airQuality := fun _ _ => .data (some { firstEuropeanAqi := some 42 }),
    indiaData :=
      .data (some [{ population := some 1400000000, capital := some "New Delhi",
                     region := some "Asia" }]) }

/-- A cache with one weather entry for the point (18.5, 72.8777), which expired
at 500. -/
def staleCache : Cache CachedData :=
  [(weatherKey (185 / 10) defaultLng,
      { data := some { temperature := some 10, airQuality := some 300 }, expiresAt := some 500,
        cachedAt := 0 })]

/-- The count the spec reads off a POI result for one field: the value of the
field, and 0 when the field is absent, when the result is an error, or when
there is no result. It follows the spec's words and is compared with `poiCount`
of the source. -/
def specCount (poi : Option ApiObject) (field : ApiObject → Option ℚ) : ℚ :=
  match poi with
  | some result => if truthyStr result.error then 0 else (field result).getD 0
  | none => 0

/-- Collected results where the POI result reports 10 police venues and the
weather result 40 mm of precipitation. -/
def policedRainyApiData : ApiData :=
  { location := none, poi := some { police := some 10 },
    weather := some { precipitation := some 40 }, indiaData := none, dataSources := [],
    lastUpdated := 0 }

/-- Collected results where the POI result is the empty object. -/
def emptyPoiApiData : ApiData :=
  { location := none, poi := some {}, weather := none, indiaData := none, dataSources := [],
    lastUpdated := 0 }

/-! ## throttle.js: the limiters -/

/-- The three limiters that throttle.js exports. -/
inductive Limiter where
  | overpassLimiter
  | aqiLimiter
  | indiaDataLimiter
  deriving DecidableEq, Repr

/-- The options object of `new Bottleneck({ minTime, maxConcurrent })`. -/
structure LimiterOptions where
  minTime : ℕ
  maxConcurrent : ℕ
  deriving DecidableEq, Repr

/-- The options each limiter is built with. -/
def Limiter.options : Limiter → LimiterOptions
  | .overpassLimiter => { minTime := 3000, maxConcurrent := 1 }
  | .aqiLimiter => { minTime := 3000, maxConcurrent := 1 }
  | .indiaDataLimiter => { minTime := 3000, maxConcurrent := 1 }

/-- The limiter on which an adapter schedules a request: `getLocationData` and
`getPOI` call `overpassLimiter.schedule`, `getWeatherData` calls
`aqiLimiter.schedule` for both of its requests, and `getIndiaData` calls
`indiaDataLimiter.schedule`. -/
def Request.limiter : Request → Limiter
  | .location _ => .overpassLimiter
  | .poi _ _ _ => .overpassLimiter
  | .weather _ _ => .aqiLimiter
  | .airQuality _ _ => .aqiLimiter
  | .indiaData => .indiaDataLimiter

/-! ## api-services.js: the requests of getNeighborhoodData -/

/-- The requests `getNeighborhoodData` schedules, in order: those of the four
adapters, each adapter seeing the cache the previous one left, with POI and
weather asked at the `lat` and `lng` that `getNeighborhoodData` computes. -/
def getNeighborhoodDataRequests (cache : Cache CachedData) (now : ℕ) (net : Network)
    (neighborhood : Neighborhood) : List Request :=
  let (locationResult, cache1) := getLocationData cache now net neighborhood
  let lat := orElse locationResult.lat (orElse neighborhood.lat defaultLat)
  let lng := orElse locationResult.lng (orElse neighborhood.lng defaultLng)
  let (_, cache2) := getPOI cache1 now net lat lng
  let (_, cache3) := getWeatherData cache2 now net lat lng
  getLocationDataRequests cache now neighborhood ++ getPOIRequests cache1 now lat lng ++
    getWeatherDataRequests cache2 now net lat lng ++ getIndiaDataRequests cache3 now "demographics"

/-! ## api-services.js: the two sweeps of the cache -/

/-- The test `cache[key].expiresAt && cache[key].expiresAt < now` of
`clearExpiredCache` and `loadCache`. -/
def isExpired {δ : Type} (entry : CacheEntry δ) (now : ℕ) : Bool :=
  match entry.expiresAt with
  | some expiresAt => decide (expiresAt ≠ 0) && decide (expiresAt < (now : ℤ))
  | none => false

/-- Property removal `delete cache[key]`. -/
def Cache.delete {δ : Type} (cache : Cache δ) (key : String) : Cache δ :=
  cache.filter (fun p => decide (p.1 ≠ key))

/-- The keys `Object.keys(cache)`, in insertion order. -/
def Cache.keys {δ : Type} (cache : Cache δ) : List String := cache.map Prod.fst

/-- The loop `Object.keys(cache).forEach(key => { if (...) { delete cache[key];
clearedCount++; } })` over the keys still to visit, from the current cache and
count. A key whose entry is gone is passed over (the loop only deletes the key
it visits, so this does not occur for a list of distinct keys). -/
def clearExpiredCacheLoop {δ : Type} (now : ℕ) : List String → Cache δ → ℕ → Cache δ × ℕ
  | [], cache, clearedCount => (cache, clearedCount)
  | key :: keys, cache, clearedCount =>
    match Cache.find cache key with
    | some entry =>
      if isExpired entry now then
        clearExpiredCacheLoop now keys (Cache.delete cache key) (clearedCount + 1)
      else clearExpiredCacheLoop now keys cache clearedCount
    | none => clearExpiredCacheLoop now keys cache clearedCount

/-- `NeighborFitAPIService.clearExpiredCache()` at time `now = Date.now()`: the
value returned (`clearedCount`) and the cache it leaves; the file write of
`saveCache` changes nothing in memory. -/
def clearExpiredCache {δ : Type} (cache : Cache δ) (now : ℕ) : ℕ × Cache δ :=
  ((clearExpiredCacheLoop now (Cache.keys cache) cache 0).2,
    (clearExpiredCacheLoop now (Cache.keys cache) cache 0).1)

/-- `loadCache()` at time `now`, by what the cache file holds: `none` when there
is no file (the module-level `cache = {}` stays), `some none` when reading or
parsing throws (`cache = {}`), `some (some parsed)` for a parsed object, which is
then swept by the same loop as in `clearExpiredCache`, without the count. -/
def loadCache {δ : Type} (cacheFile : Option (Option (Cache δ))) (now : ℕ) : Cache δ :=
  match cacheFile with
  | none => []
  | some none => []
  | some (some parsed) => (clearExpiredCacheLoop now (Cache.keys parsed) parsed 0).1

/-! ## scripts/cache-to-neighborhoods.js: the features block -/

/-- One rule `if (poi && poi.field) n.x = Math.min(10, 5 + poi.field)` of
`extractNeighborhoodsFromCache`, after the default `n.x = dflt`: `field` is
`poi.field` (`none` when there is no `poi` or it lacks the key). -/
def extractRule (field : Option ℚ) (dflt : ℚ) : ℚ :=
  match field with
  | some v => if v ≠ 0 then min 10 (5 + v) else dflt
  | none => dflt

/-- The `n.safety` that `extractNeighborhoodsFromCache` writes: 7, the police
rule, then `if (weather && weather.precipitation > 30) n.safety =
Math.max(2, n.safety - 2)`. -/
def extractSafety (poi weather : Option ApiObject) : ℚ :=
  let safety : ℚ := extractRule (poi.bind (fun r => r.police)) 7
  if gtNum (weather.bind (fun r => r.precipitation)) 30 then max 2 (safety - 2) else safety

/-- The attributes that the block `if (n.lat && n.lon) { ... }` of
`extractNeighborhoodsFromCache` writes on an entry, by factor. `poi` and
`weather` are the two records the block looks up under the entry's keys (`none`
when the cache has no such key). -/
def extractNeighborhoodsFromCacheFeatures (poi weather : Option ApiObject) : Factor → ℚ
  | .safety => extractSafety poi weather
  | .walkability => extractRule (poi.bind (fun r => r.footways)) 5
  | .healthcare => extractRule (poi.bind (fun r => r.hospitals)) 5
  | .fastInternet => 8
  | .affordability => 5
  | .restaurants => extractRule (poi.bind (fun r => r.restaurants)) 5
  | .publicTransport => extractRule (poi.bind (fun r => r.busStops)) 5
  | .parksGreenery => extractRule (poi.bind (fun r => r.parks)) 5

/-! ## frontend: PreferenceForm.js -/

/-- `handleSubmit` of PreferenceForm: the `finalRatings` it passes to `onSubmit`,
from the slider ratings and the two bonus toggles. -/
def handleSubmit (userRatings : Factor → ℚ) (isFamilyOriented isMixedQuietLively : Bool) :
    Factor → ℚ :=
  let finalRatings := userRatings
  let finalRatings :=
    if isFamilyOriented then
      let r1 := Function.update finalRatings .safety (min 5 (finalRatings .safety + 1 / 2))
      let r2 := Function.update r1 .healthcare (min 5 (r1 .healthcare + 1 / 2))
      Function.update r2 .parksGreenery (min 5 (r2 .parksGreenery + 1 / 2))
    else finalRatings
  if isMixedQuietLively then
    let r1 := Function.update finalRatings .restaurants (min 5 (finalRatings .restaurants + 3 / 10))
    Function.update r1 .walkability (min 5 (r1 .walkability + 3 / 10))
  else finalRatings

/-- The body that `handleUserPreferences` of App.js posts to `/match` for a
submitted form: `{ userPrefs, useRealTimeData, city }`. -/
def submittedRequest (userRatings : Factor → ℚ) (isFamilyOriented isMixedQuietLively : Bool)
    (useRealTimeData : Bool) (selectedCity : String) : MatchRequest :=
  { userPrefs := fun f => some (handleSubmit userRatings isFamilyOriented isMixedQuietLively f),
    useRealTimeData := useRealTimeData,
    city := some selectedCity }

/-! ## Inputs used in the examples of the later sections -/

/-- A static entry whose only attribute is `parksGreenery = 1`. -/
def lowParksNeighborhood : Neighborhood :=
  plainNeighborhood "LowParks" (fun
    | .parksGreenery => some 1
    | _ => none)

/-- A cache with one entry whose `expiresAt` is 0. -/
def zeroExpiryCache : Cache CachedData :=
  [("poi_19.076_72.8777_2000",
      { data := some { totalPOIs := some 0 }, expiresAt := some 0, cachedAt := 0 })]

/-- A cache of three entries: one expired at 500, one expiring at 2000, and one
without `expiresAt`. -/
def mixedCache : Cache CachedData :=
  [("weather_19.076_72.8777",
      { data := some { temperature := some 10 }, expiresAt := some 500, cachedAt := 0 }),
   ("poi_19.076_72.8777_2000",
      { data := some { totalPOIs := some 0 }, expiresAt := some 2000, cachedAt := 0 }),
   ("india_data_demographics",
      { data := some { region := some "Asia" }, expiresAt := none, cachedAt := 0 })]

/-- A POI record as `getPOI` writes it, for an answer with three bus stops. -/
def busStopsPoi : ApiObject :=
  { restaurants := some 0, hospitals := some 0, parks := some 0, shopping := some 0,
    transport := some 3, totalPOIs := some 3, updatedAt := some 0 }

/-- A weather record as `getWeatherData` writes it. -/
def mildWeather : ApiObject :=
  { temperature := some 30, humidity := some 70, airQuality := some 42,
    weatherDescription := some "Slight rain", precipitation := some 2, updatedAt := some 0 }

/-- Two candidates that differ in name (`East_Side` and `East`) and in city
(`Town` and `Side_Town`). -/
def eastSideOfTown : Neighborhood :=
  { name := "East_Side", city := "Town", lat := none, lon := none, lng := none,
    attr := fun _ => none, airQuality := none }

/-- See `eastSideOfTown`. -/
def eastOfSideTown : Neighborhood :=
  { name := "East", city := "Side_Town", lat := none, lon := none, lng := none,
    attr := fun _ => none, airQuality := none }

/-- Collected results whose POI and weather results are `busStopsPoi` and
`mildWeather`. -/
def busStopsApiData : ApiData :=
  { location := none, poi := some busStopsPoi, weather := some mildWeather, indiaData := none,
    dataSources := [], lastUpdated := 0 }

/-- Collected results whose POI result is a cached record with `hospitals = -3`. -/
def negativeHospitalsApiData : ApiData :=
  { location := none, poi := some { hospitals := some (-3), source := some "cache" },
    weather := none, indiaData := none, dataSources := [], lastUpdated := 0 }

/-- The cache holds an unexpired entry with truthy data under `key`: an entry
whose `expiresAt` lies after `now` and whose `data` passes `if (cached)`. -/
def hasCachedObject (cache : Cache CachedData) (now : ℕ) (key : String) : Bool :=
  hasUnexpired cache now key &&
    (match Cache.find cache key with
      | some entry => entry.data.isSome
      | none => false)

/-- A cache as read from a cache file whose weather entry for the point
(18.5, 72.8777) holds `data: null` and expires at 2000. -/
def nullDataCache : Cache CachedData :=
  [(weatherKey (185 / 10) defaultLng, { data := none, expiresAt := some 2000, cachedAt := 0 })]

/-! ## JavaScript numbers: IEEE 754 binary64 -/

/-- A JavaScript number, an IEEE 754 binary64 value: a finite value (a rational
`m * 2 ^ t` with `|m| ≤ 2 ^ 53` and `-1074 ≤ t`), an infinity or `NaN`. The two
zeros are one value: `findBestMatches` never divides by a negative zero, and the
two zeros compare and serialize alike. -/
inductive Double
  | finite (value : ℚ)
  | posInf
  | negInf
  | nan
  deriving DecidableEq, Repr

/-- The number of binary digits of `n`, by halving; `fuel` bounds the halvings. -/
def bitLengthAux : ℕ → ℕ → ℕ
  | 0, _ => 0
  | fuel + 1, n => if n = 0 then 0 else bitLengthAux fuel (n / 2) + 1

/-- The number of binary digits of `n`: 0 for 0, and `k` when `2 ^ (k - 1) ≤ n < 2 ^ k`. -/
def bitLength (n : ℕ) : ℕ := bitLengthAux n n

/-- The binary exponent of a non-zero rational: the `e` with `2 ^ e ≤ |x| < 2 ^ (e + 1)`. -/
def floorLog2 (x : ℚ) : ℤ :=
  let d : ℤ := (bitLength x.num.natAbs : ℤ) - (bitLength x.den : ℤ)
  if (2 : ℚ) ^ d ≤ |x| then d else d - 1

/-- The integer nearest to `x`, the even one of the two when `x` lies half-way. -/
def roundHalfEven (x : ℚ) : ℤ :=
  let n : ℤ := ⌊x⌋
  if x - n < 1 / 2 then n
  else if 1 / 2 < x - n then n + 1
  else if n % 2 = 0 then n else n + 1

/-- The exponent of the last binary place of the doubles around `x`: 52 places
below the binary exponent of `x`, and -1074 in the subnormal range. -/
def quantumExponent (x : ℚ) : ℤ := max (floorLog2 x) (-1022) - 52

/-- The double nearest to the rational `x` (round to nearest, ties to even): the
value of a decimal literal or JSON number, and the result of an arithmetic
operation whose exact result is `x`. A result of magnitude `2 ^ 1024` or more is
an infinity. -/
def Double.round (x : ℚ) : Double :=
  if x = 0 then .finite 0
  else
    let y : ℚ := roundHalfEven (x / 2 ^ quantumExponent x) * 2 ^ quantumExponent x
    if (2 : ℚ) ^ (1024 : ℕ) ≤ |y| then (if 0 < x then .posInf else .negInf) else .finite y

/-- The infinity of the given sign. -/
def Double.signedInf (positive : Bool) : Double := if positive then .posInf else .negInf

/-- JavaScript `a + b`. -/
def Double.add : Double → Double → Double
  | .finite x, .finite y => Double.round (x + y)
  | .nan, _ => .nan
  | _, .nan => .nan
  | .posInf, .negInf => .nan
  | .negInf, .posInf => .nan
  | .posInf, _ => .posInf
  | _, .posInf => .posInf
  | .negInf, _ => .negInf
  | _, .negInf => .negInf

/-- JavaScript `a * b`. -/
def Double.mul : Double → Double → Double
  | .finite x, .finite y => Double.round (x * y)
  | .nan, _ => .nan
  | _, .nan => .nan
  | .finite x, .posInf => if x = 0 then .nan else Double.signedInf (decide (0 < x))
  | .finite x, .negInf => if x = 0 then .nan else Double.signedInf (decide (x < 0))
  | .posInf, .finite y => if y = 0 then .nan else Double.signedInf (decide (0 < y))
  | .negInf, .finite y => if y = 0 then .nan else Double.signedInf (decide (y < 0))
  | .posInf, .posInf => .posInf
  | .negInf, .negInf => .posInf
  | .posInf, .negInf => .negInf
  | .negInf, .posInf => .negInf

/-- JavaScript `a / b`; a zero divisor counts as `+0`. -/
def Double.div : Double → Double → Double
  | .finite x, .finite y =>
    if y = 0 then (if x = 0 then .nan else Double.signedInf (decide (0 < x)))
    else Double.round (x / y)
  | .nan, _ => .nan
  | _, .nan => .nan
  | .finite _, _ => .finite 0
  | .posInf, .finite y => Double.signedInf (decide (0 ≤ y))
  | .negInf, .finite y => Double.signedInf (decide (y < 0))
  | _, _ => .nan

/-- The whole part of the square root of `n`, found bit by bit from bit `k - 1` down. -/
def sqrtAux (n : ℕ) : ℕ → ℕ → ℕ
  | 0, r => r
  | k + 1, r => if (r + 2 ^ k) * (r + 2 ^ k) ≤ n then sqrtAux n k (r + 2 ^ k) else sqrtAux n k r

/-- The whole part of the square root of `n`. -/
def isqrt (n : ℕ) : ℕ := sqrtAux n (bitLength n) 0

/-- The whole number nearest to `√z` (the even one of two on a tie), through the
whole part `s` of the root and a comparison of `z` with `(s + 1/2)²`. -/
def nearestSqrt (z : ℚ) : ℕ :=
  let s : ℕ := isqrt ⌊z⌋₊
  let m : ℚ := (s : ℚ) + 1 / 2
  if z < m * m then s else if m * m < z then s + 1 else if s % 2 = 0 then s else s + 1

/-- `Math.sqrt(a)`, correctly rounded: with `t` the exponent of the last place
of the result, it is the whole number nearest to `√x / 2 ^ t = √(x / 4 ^ t)`,
times `2 ^ t`. A root is never subnormal and never overflows. -/
def Double.sqrt : Double → Double
  | .finite x =>
    if x < 0 then .nan
    else if x = 0 then .finite 0
    else
      let t : ℤ := floorLog2 x / 2 - 52
      .finite ((nearestSqrt (x / 2 ^ (2 * t)) : ℚ) * 2 ^ t)
  | .posInf => .posInf
  | _ => .nan

/-- Truthiness of a number: neither `0` nor `NaN`. -/
def Double.truthy : Double → Bool
  | .finite x => decide (x ≠ 0)
  | .posInf => true
  | .negInf => true
  | .nan => false

/-- `Number(a.toFixed(3))`: below `10 ^ 21` in magnitude, `toFixed(3)` writes the
whole number `n` of thousandths nearest to `|a|` (the larger one on a tie) under
the sign of `a`, and `Number` reads that decimal as the nearest double; from
`10 ^ 21` on, and for an infinity or `NaN`, the number is written in full and
read back unchanged. -/
def Double.toFixed3 : Double → Double
  | .finite x =>
    if (10 : ℚ) ^ (21 : ℕ) ≤ |x| then .finite x
    else
      let n : ℤ := ⌊|x| * 1000 + 1 / 2⌋
      Double.round (if x < 0 then -((n : ℚ) / 1000) else (n : ℚ) / 1000)
  | d => d


/-- JavaScript `x || d` for an optional JSON number read as a double. -/
def orElseDouble (x : Option ℚ) (d : Double) : Double :=
  match x with
  | some v => if (Double.round v).truthy then Double.round v else d
  | none => d

/-- `userScores` in double arithmetic. -/
def userScoresDouble (userPreferences : UserPreferences) : List Double :=
  factors.map (fun factor => (orElseDouble (userPreferences factor) (.finite 3)).mul (.finite 2))

/-- The callback `(score, i) => score * factorWeights[factors[i]]` in double
arithmetic; a weight is the double nearest to its decimal literal. -/
def weightedDouble (scores : List Double) : List Double :=
  List.zipWith (fun score factor => score.mul (Double.round (factorWeights factor))) scores factors

/-- `neighborhoodScores` in double arithmetic: each feature is the double nearest to its value. -/
def neighborhoodScoresDouble (features : Features) : List Double :=
  factors.map (fun factor => Double.round (features.get factor))

/-- `weightedUserScores.reduce((sum, val, i) => sum + val * w[i], 0)` in double arithmetic. -/
def dotProductDouble (u w : List Double) : Double :=
  (List.zipWith (fun val wi => val.mul wi) u w).foldl (fun sum p => sum.add p) (.finite 0)

/-- `xs.reduce((sum, val) => sum + val * val, 0)` in double arithmetic. -/
def sumSquaresDouble (xs : List Double) : Double :=
  xs.foldl (fun sum val => sum.add (val.mul val)) (.finite 0)

/-- `Math.sqrt(xs.reduce(...))` in double arithmetic. -/
def magnitudeDouble (xs : List Double) : Double :=
  (sumSquaresDouble xs).sqrt

/-- The local `similarity` of `findBestMatches` in double arithmetic:
`userMagnitude && neighborhoodMagnitude ? dotProduct / (userMagnitude * neighborhoodMagnitude) : 0`. -/
def similarityDouble (userPreferences : UserPreferences) (features : Features) : Double :=
  let weightedUserScores := weightedDouble (userScoresDouble userPreferences)
  let weightedNeighborhoodScores := weightedDouble (neighborhoodScoresDouble features)
  let dot := dotProductDouble weightedUserScores weightedNeighborhoodScores
  let userMagnitude := magnitudeDouble weightedUserScores
  let neighborhoodMagnitude := magnitudeDouble weightedNeighborhoodScores
  if userMagnitude.truthy && neighborhoodMagnitude.truthy then
    dot.div (userMagnitude.mul neighborhoodMagnitude)
  else .finite 0

/-- The `similarity` field of a result, `Number(similarity.toFixed(3))`, in double arithmetic. -/
def roundedSimilarityDouble (userPreferences : UserPreferences) (features : Features) : Double :=
  (similarityDouble userPreferences features).toFixed3

/-! ## Error bounds of double arithmetic -/

/-- The unit roundoff of binary64, `2 ^ (-53)`: the largest relative error of
one correctly rounded operation on normal numbers. -/
def unitRoundoff : ℚ := 1 / 2 ^ (53 : ℕ)

/-- The value `y` approximates `x` with a relative error of at most `k` unit roundoffs. -/
def Near (k : ℕ) (y x : ℝ) : Prop := |y - x| ≤ (k : ℝ) * (unitRoundoff : ℝ) * |x|

/-- The value `x` is 0 or has a magnitude between `2 ^ (-a)` and `2 ^ a`. -/
def Mag (a : ℕ) (x : ℝ) : Prop := x = 0 ∨ (1 / 2 ^ a ≤ |x| ∧ |x| ≤ 2 ^ a)

/-- A JSON number far from the limits of binary64: 0, or of a magnitude
between `2 ^ (-100)` and `2 ^ 100`. -/
def InDoubleRange (x : ℚ) : Prop := x = 0 ∨ (1 / 2 ^ (100 : ℕ) ≤ |x| ∧ |x| ≤ 2 ^ (100 : ℕ))

/-- Half the smallest positive double, `2 ^ (-1075)`: the largest absolute error
of one correctly rounded operation with a subnormal result. -/
def tinyError : ℚ := 1 / 2 ^ (1075 : ℕ)

/-! ## Inputs used in the examples of double arithmetic -/

/-- A static entry with the attributes 1, 1, 3, 3, 3, 3, 7, 7 in the order of the factors. -/
def tieNeighborhood : Neighborhood :=
  plainNeighborhood "Tie" (fun
    | .safety => some 1
    | .walkability => some 1
    | .healthcare => some 3
    | .fastInternet => some 3
    | .affordability => some 3
    | .restaurants => some 3
    | .publicTransport => some 7
    | .parksGreenery => some 7)

/-- A static entry whose every attribute is `1.7e308`. -/
def hugeNeighborhood : Neighborhood :=
  plainNeighborhood "Huge" (fun _ => some (17 * 10 ^ 307))

/-- A static entry with `safety = 1.2e-161` and every other attribute `1e-170`. -/
def minuteNeighborhood : Neighborhood :=
  plainNeighborhood "Minute" (fun
    | .safety => some (12 / 10 ^ 162)
    | _ => some (1 / 10 ^ 170))

/-- A static entry whose every attribute is `2e-180`: `1e-180` times the scaled
rating 2 of a user who rates every factor 1. -/
def faintNeighborhood : Neighborhood :=
  plainNeighborhood "Faint" (fun _ => some (2 / 10 ^ 180))

/-! # Theorems -/

/-! ## Sums over the eight factors -/

theorem univ_factor : (Finset.univ : Finset Factor) =
    {.safety, .walkability, .healthcare, .fastInternet, .affordability,
     .restaurants, .publicTransport, .parksGreenery} := by
  decide

theorem sum_factor (g : Factor → ℚ) : ∑ f : Factor, g f =
    g .safety + g .walkability + g .healthcare + g .fastInternet + g .affordability +
      g .restaurants + g .publicTransport + g .parksGreenery := by
  rw [univ_factor]
  simp [Finset.sum_insert]
  ring

theorem weightedUserScores_eq (p : UserPreferences) :
    weightedUserScores p = factors.map (userWeighted p) := by
  simp [weightedUserScores, weighted, userScores, factors, userWeighted]

theorem weightedNeighborhoodScores_eq (ft : Features) :
    weightedNeighborhoodScores ft = factors.map (neighborhoodWeighted ft) := by
  simp [weightedNeighborhoodScores, weighted, neighborhoodScores, factors, neighborhoodWeighted]

theorem dotProduct_map (a b : Factor → ℚ) :
    dotProduct (factors.map a) (factors.map b) = ∑ f : Factor, a f * b f := by
  rw [sum_factor]
  simp [dotProduct, factors]

theorem sumSquares_map (a : Factor → ℚ) :
    sumSquares (factors.map a) = ∑ f : Factor, a f * a f := by
  rw [sum_factor]
  simp [sumSquares, factors]

theorem sumSquares_map_nonneg (a : Factor → ℚ) : 0 ≤ sumSquares (factors.map a) := by
  rw [sumSquares_map]
  exact Finset.sum_nonneg (fun f _ => mul_self_nonneg (a f))

/-- Cauchy–Schwarz for the two reduced sums. -/
theorem dotProduct_sq_le (a b : Factor → ℚ) :
    dotProduct (factors.map a) (factors.map b) ^ 2 ≤
      sumSquares (factors.map a) * sumSquares (factors.map b) := by
  rw [dotProduct_map, sumSquares_map, sumSquares_map]
  have h := Finset.sum_mul_sq_le_sq_mul_sq (Finset.univ : Finset Factor) a b
  simpa [sq] using h

/-! ## Exact values and their real numbers -/

theorem Surd.denotes_self (s : Surd) :
    s.Denotes ((s.coeff : ℝ) * Real.sqrt (s.radicand : ℝ)) := rfl

theorem Surd.denotes_ofRat (q : ℚ) : (Surd.ofRat q).Denotes (q : ℝ) := by
  simp [Surd.Denotes, Surd.ofRat]

theorem Surd.denotes_sqrt (x : ℚ) : (Surd.sqrt x).Denotes (Real.sqrt (x : ℝ)) := by
  simp [Surd.Denotes, Surd.sqrt]

theorem Surd.denotes_mul {a b : Surd} {x y : ℝ} (ha : a.Denotes x) (hb : b.Denotes y)
    (hr : 0 ≤ a.radicand) : (a.mul b).Denotes (x * y) := by
  unfold Surd.Denotes at *
  have hr' : (0 : ℝ) ≤ (a.radicand : ℝ) := by exact_mod_cast hr
  rw [ha, hb]
  simp only [Surd.mul]
  push_cast
  rw [Real.sqrt_mul hr']
  ring

theorem Surd.denotes_div {a b : Surd} {x y : ℝ} (ha : a.Denotes x) (hb : b.Denotes y)
    (hc : b.coeff ≠ 0) (hr : 0 < b.radicand) : (a.div b).Denotes (x / y) := by
  unfold Surd.Denotes at *
  have hr' : (0 : ℝ) < (b.radicand : ℝ) := by exact_mod_cast hr
  have hc' : (b.coeff : ℝ) ≠ 0 := by exact_mod_cast hc
  have hs : Real.sqrt (b.radicand : ℝ) * Real.sqrt (b.radicand : ℝ) = (b.radicand : ℝ) :=
    Real.mul_self_sqrt hr'.le
  have hs0 : Real.sqrt (b.radicand : ℝ) ≠ 0 := (Real.sqrt_pos.mpr hr').ne.symm
  rw [ha, hb]
  simp only [Surd.div]
  push_cast
  rw [Real.sqrt_mul' _ hr'.le]
  generalize Real.sqrt (b.radicand : ℝ) = t at hs hs0
  rw [← hs]
  field_simp
  ring

/-- The truthiness test agrees with the real number being non-zero. -/
theorem Surd.truthy_iff {a : Surd} {x : ℝ} (ha : a.Denotes x) (hr : 0 ≤ a.radicand) :
    a.truthy = true ↔ x ≠ 0 := by
  unfold Surd.Denotes at ha
  have hr' : (0 : ℝ) ≤ (a.radicand : ℝ) := by exact_mod_cast hr
  simp only [Surd.truthy, Bool.and_eq_true, decide_eq_true_eq]
  rw [ha, mul_ne_zero_iff, Real.sqrt_ne_zero hr']
  constructor
  · rintro ⟨h1, h2⟩
    exact ⟨by exact_mod_cast h1, by exact_mod_cast h2.ne.symm⟩
  · rintro ⟨h1, h2⟩
    refine ⟨by exact_mod_cast h1, lt_of_le_of_ne hr ?_⟩
    intro h
    apply h2
    rw [← h]
    norm_num

theorem natFloor_sqrt (y : ℚ) (hy : 0 ≤ y) : ⌊Real.sqrt (y : ℝ)⌋₊ = Nat.sqrt ⌊y⌋₊ := by
  have hy' : (0 : ℝ) ≤ (y : ℝ) := by exact_mod_cast hy
  rw [Nat.eq_sqrt]
  have h1 : ((⌊Real.sqrt (y : ℝ)⌋₊ : ℕ) : ℝ) ≤ Real.sqrt (y : ℝ) :=
    Nat.floor_le (Real.sqrt_nonneg _)
  have h2 : Real.sqrt (y : ℝ) < ((⌊Real.sqrt (y : ℝ)⌋₊ : ℕ) : ℝ) + 1 := Nat.lt_floor_add_one _
  have hs : Real.sqrt (y : ℝ) * Real.sqrt (y : ℝ) = (y : ℝ) := Real.mul_self_sqrt hy'
  have hs0 := Real.sqrt_nonneg (y : ℝ)
  generalize Real.sqrt (y : ℝ) = r at h1 h2 hs hs0
  generalize ⌊r⌋₊ = m at h1 h2
  have hm0 : (0 : ℝ) ≤ (m : ℝ) := Nat.cast_nonneg m
  constructor
  · apply Nat.le_floor
    have h : ((m : ℝ)) * (m : ℝ) ≤ (y : ℝ) := by nlinarith
    have h' : (((m * m : ℕ) : ℚ) : ℝ) ≤ (y : ℝ) := by
      push_cast
      exact h
    exact_mod_cast h'
  · rw [Nat.floor_lt hy]
    have h : (y : ℝ) < ((m : ℝ) + 1) * ((m : ℝ) + 1) := by nlinarith
    have h' : (y : ℝ) < ((((m + 1) * (m + 1) : ℕ) : ℚ) : ℝ) := by
      push_cast
      exact h
    exact_mod_cast h'

theorem natFloor_half (z : ℝ) (hz : 0 ≤ z) : ⌊(z + 1) / 2⌋₊ = (⌊z⌋₊ + 1) / 2 := by
  have h := Nat.floor_div_nat (z + 1) 2
  rw [Nat.floor_add_one hz] at h
  exact_mod_cast h

/-- The whole-number formula of `Surd.toFixed3` counts the thousandths of the
rounded absolute value. -/
theorem toFixed3_thousandths (s : Surd) (hr : 0 ≤ s.radicand) :
    (Nat.sqrt ⌊4 * (|s.coeff| * 1000 * (|s.coeff| * 1000)) * s.radicand⌋₊ + 1) / 2 =
      ⌊|(s.coeff : ℝ)| * Real.sqrt (s.radicand : ℝ) * 1000 + 1 / 2⌋₊ := by
  have hr' : (0 : ℝ) ≤ (s.radicand : ℝ) := by exact_mod_cast hr
  have hc : (0 : ℚ) ≤ |s.coeff| * 1000 := by positivity
  have hy : (0 : ℚ) ≤ 4 * (|s.coeff| * 1000 * (|s.coeff| * 1000)) * s.radicand := by positivity
  rw [← natFloor_sqrt _ hy, ← natFloor_half _ (Real.sqrt_nonneg _)]
  congr 1
  have hroot : Real.sqrt ((4 * (|s.coeff| * 1000 * (|s.coeff| * 1000)) * s.radicand : ℚ) : ℝ) =
      2 * (|(s.coeff : ℝ)| * 1000) * Real.sqrt (s.radicand : ℝ) := by
    have h4 : ((4 * (|s.coeff| * 1000 * (|s.coeff| * 1000)) * s.radicand : ℚ) : ℝ) =
        (2 * (|(s.coeff : ℝ)| * 1000)) * (2 * (|(s.coeff : ℝ)| * 1000)) * (s.radicand : ℝ) := by
      push_cast
      ring
    rw [h4, Real.sqrt_mul (mul_self_nonneg _), Real.sqrt_mul_self (by positivity)]
  rw [hroot]
  ring

/-- `Surd.toFixed3` is `Number(x.toFixed(3))` of the real number the value stands for. -/
theorem toFixed3_roundsTo {s : Surd} {x : ℝ} (hs : s.Denotes x) (hr : 0 ≤ s.radicand) :
    RoundsTo x s.toFixed3 := by
  unfold Surd.Denotes at hs
  have hsq := Real.sqrt_nonneg (s.radicand : ℝ)
  have hn := toFixed3_thousandths s hr
  constructor
  · intro hx
    by_cases hc : s.coeff < 0
    · have hc' : (s.coeff : ℝ) < 0 := by exact_mod_cast hc
      have hx0 : x = 0 := le_antisymm (by rw [hs]; exact mul_nonpos_of_nonpos_of_nonneg hc'.le hsq) hx
      have hprod : |(s.coeff : ℝ)| * Real.sqrt (s.radicand : ℝ) = 0 := by
        rw [abs_of_neg hc']
        linarith [hs.symm.trans hx0]
      have hhalf : ⌊(1 / 2 : ℝ)⌋₊ = 0 := by
        rw [Nat.floor_eq_zero]
        norm_num
      rw [hprod] at hn
      simp only [Surd.toFixed3, hc, if_true]
      rw [hn, hx0]
      norm_num [hhalf]
    · have hc' : (0 : ℝ) ≤ (s.coeff : ℝ) := by exact_mod_cast not_lt.mp hc
      rw [abs_of_nonneg hc', ← hs] at hn
      simp only [Surd.toFixed3, hc, if_false]
      rw [hn]
      push_cast
      rfl
  · intro hx
    have hc' : (s.coeff : ℝ) < 0 := by
      by_contra h
      rw [hs] at hx
      exact absurd hx (not_lt.mpr (mul_nonneg (not_lt.mp h) hsq))
    have hc : s.coeff < 0 := by exact_mod_cast hc'
    have hneg : |(s.coeff : ℝ)| * Real.sqrt (s.radicand : ℝ) = -x := by
      rw [abs_of_neg hc', hs]
      ring
    rw [hneg] at hn
    simp only [Surd.toFixed3, hc, if_true]
    rw [hn]
    push_cast
    rfl

/-- The thousandths of `Surd.toFixed3`, found from two rational comparisons. -/
theorem toFixed3_eq_of_bounds (s : Surd) (n : ℕ)
    (h1 : n = 0 ∨
      ((2 * n - 1 : ℚ)) * (2 * n - 1) ≤ 4 * (|s.coeff| * 1000 * (|s.coeff| * 1000)) * s.radicand)
    (h2 : 4 * (|s.coeff| * 1000 * (|s.coeff| * 1000)) * s.radicand <
      ((2 * n + 1 : ℚ)) * (2 * n + 1)) :
    s.toFixed3 = if s.coeff < 0 then -((n : ℚ) / 1000) else (n : ℚ) / 1000 := by
  have hlt : Nat.sqrt ⌊4 * (|s.coeff| * 1000 * (|s.coeff| * 1000)) * s.radicand⌋₊ < 2 * n + 1 := by
    rw [Nat.sqrt_lt]
    by_cases hy : 0 ≤ 4 * (|s.coeff| * 1000 * (|s.coeff| * 1000)) * s.radicand
    · rw [Nat.floor_lt hy]
      push_cast
      exact h2
    · rw [Nat.floor_of_nonpos (not_le.mp hy).le]
      positivity
  have hge : n = 0 ∨
      2 * n - 1 ≤ Nat.sqrt ⌊4 * (|s.coeff| * 1000 * (|s.coeff| * 1000)) * s.radicand⌋₊ := by
    rcases h1 with h1 | h1
    · exact Or.inl h1
    · by_cases hn : n = 0
      · exact Or.inl hn
      · right
        rw [Nat.le_sqrt]
        apply Nat.le_floor
        have hcast : (((2 * n - 1 : ℕ) : ℚ)) = 2 * (n : ℚ) - 1 := by
          have : 1 ≤ 2 * n := by omega
          push_cast [Nat.cast_sub this]
          ring
        push_cast
        rw [hcast]
        exact h1
  have hval : (Nat.sqrt ⌊4 * (|s.coeff| * 1000 * (|s.coeff| * 1000)) * s.radicand⌋₊ + 1) / 2 = n := by
    rcases hge with hge | hge <;> omega
  simp only [Surd.toFixed3, hval]

/-! ## Rounding to three decimals -/

theorem roundsTo_unique {x : ℝ} {y z : ℚ} (hy : RoundsTo x y) (hz : RoundsTo x z) : y = z := by
  have h : (y : ℝ) = (z : ℝ) := by
    by_cases hx : 0 ≤ x
    · rw [hy.1 hx, hz.1 hx]
    · rw [hy.2 (not_le.mp hx), hz.2 (not_le.mp hx)]
  exact_mod_cast h

/-- The rounded value is a whole number of thousandths. -/
theorem roundsTo_thousandths {x : ℝ} {y : ℚ} (h : RoundsTo x y) : ∃ n : ℤ, y = (n : ℚ) / 1000 := by
  by_cases hx : 0 ≤ x
  · refine ⟨((⌊x * 1000 + 1 / 2⌋₊ : ℕ) : ℤ), ?_⟩
    have h2 := h.1 hx
    have h3 : (y : ℝ) = (((((⌊x * 1000 + 1 / 2⌋₊ : ℕ) : ℤ) : ℚ) / 1000 : ℚ) : ℝ) := by
      rw [h2]
      push_cast
      ring
    exact_mod_cast h3
  · refine ⟨-((⌊-x * 1000 + 1 / 2⌋₊ : ℕ) : ℤ), ?_⟩
    have h2 := h.2 (not_le.mp hx)
    have h3 : (y : ℝ) = (((-((⌊-x * 1000 + 1 / 2⌋₊ : ℕ) : ℤ) : ℤ) : ℚ) / 1000 : ℚ) := by
      rw [h2]
      push_cast
      ring
    exact_mod_cast h3

/-- Rounding moves a value by at most half a thousandth. -/
theorem roundsTo_abs_sub_le {x : ℝ} {y : ℚ} (h : RoundsTo x y) : |(y : ℝ) - x| ≤ 1 / 2000 := by
  by_cases hx : 0 ≤ x
  · rw [h.1 hx, abs_le]
    have h1 := Nat.floor_le (show (0 : ℝ) ≤ x * 1000 + 1 / 2 by linarith)
    have h2 := Nat.lt_floor_add_one (x * 1000 + 1 / 2)
    constructor <;> linarith
  · have hx' := not_le.mp hx
    rw [h.2 hx', abs_le]
    have h1 := Nat.floor_le (show (0 : ℝ) ≤ -x * 1000 + 1 / 2 by linarith)
    have h2 := Nat.lt_floor_add_one (-x * 1000 + 1 / 2)
    constructor <;> linarith

theorem roundsTo_nonneg {x : ℝ} {y : ℚ} (h : RoundsTo x y) (hx : 0 ≤ x) : 0 ≤ y := by
  have h1 : (0 : ℝ) ≤ (y : ℝ) := by
    rw [h.1 hx]
    positivity
  exact_mod_cast h1

theorem roundsTo_nonpos {x : ℝ} {y : ℚ} (h : RoundsTo x y) (hx : x < 0) : y ≤ 0 := by
  have h1 : (y : ℝ) ≤ 0 := by
    rw [h.2 hx]
    have : (0 : ℝ) ≤ ((⌊-x * 1000 + 1 / 2⌋₊ : ℕ) : ℝ) / 1000 := by positivity
    linarith
  exact_mod_cast h1

theorem natFloor_le_thousand {t : ℝ} (ht : t ≤ 1) : ((⌊t * 1000 + 1 / 2⌋₊ : ℕ) : ℝ) ≤ 1000 := by
  have h : ⌊t * 1000 + 1 / 2⌋₊ < 1001 := by
    by_cases h0 : 0 ≤ t * 1000 + 1 / 2
    · rw [Nat.floor_lt h0]
      push_cast
      linarith
    · rw [Nat.floor_of_nonpos (not_le.mp h0).le]
      norm_num
  have h' : ⌊t * 1000 + 1 / 2⌋₊ ≤ 1000 := by omega
  exact_mod_cast h'

theorem roundsTo_le_one {x : ℝ} {y : ℚ} (h : RoundsTo x y) (hx : x ≤ 1) : y ≤ 1 := by
  by_cases h0 : 0 ≤ x
  · have h1 : (y : ℝ) ≤ 1 := by
      rw [h.1 h0]
      have := natFloor_le_thousand hx
      linarith
    exact_mod_cast h1
  · linarith [roundsTo_nonpos h (not_le.mp h0)]

theorem roundsTo_neg_one_le {x : ℝ} {y : ℚ} (h : RoundsTo x y) (hx : -1 ≤ x) : -1 ≤ y := by
  by_cases h0 : 0 ≤ x
  · linarith [roundsTo_nonneg h h0]
  · have h1 : (-1 : ℝ) ≤ (y : ℝ) := by
      rw [h.2 (not_le.mp h0)]
      have := natFloor_le_thousand (show -x ≤ 1 by linarith)
      linarith
    exact_mod_cast h1

theorem roundsTo_zero {y : ℚ} (h : RoundsTo 0 y) : y = 0 := by
  have h1 := h.1 le_rfl
  have hhalf : ⌊((0 : ℝ) * 1000 + 1 / 2)⌋₊ = 0 := by
    rw [Nat.floor_eq_zero]
    norm_num
  rw [hhalf] at h1
  have h2 : (y : ℝ) = ((0 : ℚ) : ℝ) := by
    rw [h1]
    norm_num
  exact_mod_cast h2

theorem roundsTo_one {y : ℚ} (h : RoundsTo 1 y) : y = 1 := by
  have h1 := h.1 zero_le_one
  have hfl : ⌊((1 : ℝ) * 1000 + 1 / 2)⌋₊ = 1000 := by
    rw [Nat.floor_eq_iff (by norm_num)]
    constructor <;> norm_num
  rw [hfl] at h1
  have h2 : (y : ℝ) = ((1 : ℚ) : ℝ) := by
    rw [h1]
    norm_num
  exact_mod_cast h2

/-! ## The cosine of the two weighted vectors -/

theorem magnitude_truthy_iff (xs : List ℚ) : (magnitude xs).truthy = true ↔ 0 < sumSquares xs := by
  simp [magnitude, Surd.sqrt, Surd.truthy]

theorem similarity_def (p : UserPreferences) (ft : Features) :
    similarity p ft =
      if 0 < sumSquares (factors.map (userWeighted p)) ∧
          0 < sumSquares (factors.map (neighborhoodWeighted ft)) then
        (Surd.ofRat (dotProduct (factors.map (userWeighted p))
            (factors.map (neighborhoodWeighted ft)))).div
          ((magnitude (factors.map (userWeighted p))).mul
            (magnitude (factors.map (neighborhoodWeighted ft))))
      else Surd.ofRat 0 := by
  unfold similarity
  rw [weightedUserScores_eq, weightedNeighborhoodScores_eq]
  simp only [← magnitude_truthy_iff, Bool.and_eq_true]

theorem similarity_radicand_nonneg (p : UserPreferences) (ft : Features) :
    0 ≤ (similarity p ft).radicand := by
  rw [similarity_def]
  split_ifs
  · simp only [Surd.div, Surd.ofRat, Surd.mul, magnitude, Surd.sqrt, one_mul]
    exact mul_nonneg (sumSquares_map_nonneg _) (sumSquares_map_nonneg _)
  · simp [Surd.ofRat]

/-- The real number behind `similarity`: the quotient when both sums of squares
are positive, 0 otherwise. -/
theorem similarity_denotes (p : UserPreferences) (ft : Features) :
    (similarity p ft).Denotes
      (if 0 < sumSquares (factors.map (userWeighted p)) ∧
          0 < sumSquares (factors.map (neighborhoodWeighted ft)) then
        ((dotProduct (factors.map (userWeighted p)) (factors.map (neighborhoodWeighted ft)) : ℚ) : ℝ) /
          (Real.sqrt ((sumSquares (factors.map (userWeighted p)) : ℚ) : ℝ) *
            Real.sqrt ((sumSquares (factors.map (neighborhoodWeighted ft)) : ℚ) : ℝ))
      else 0) := by
  rw [similarity_def]
  split_ifs with h
  · apply Surd.denotes_div (Surd.denotes_ofRat _)
    · exact Surd.denotes_mul (Surd.denotes_sqrt _) (Surd.denotes_sqrt _) h.1.le
    · simp [Surd.mul, magnitude, Surd.sqrt]
    · simp only [Surd.mul, magnitude, Surd.sqrt]
      exact mul_pos h.1 h.2
  · have h0 := Surd.denotes_ofRat 0
    simpa using h0

/-- The numerator is bounded by the product of the magnitudes. -/
theorem abs_dotProduct_le (a b : Factor → ℚ) :
    |((dotProduct (factors.map a) (factors.map b) : ℚ) : ℝ)| ≤
      Real.sqrt ((sumSquares (factors.map a) : ℚ) : ℝ) *
        Real.sqrt ((sumSquares (factors.map b) : ℚ) : ℝ) := by
  rw [← Real.sqrt_mul (by exact_mod_cast sumSquares_map_nonneg a)]
  apply Real.abs_le_sqrt
  exact_mod_cast dotProduct_sq_le a b

theorem abs_similarity_le_one (p : UserPreferences) (ft : Features) {x : ℝ}
    (hx : (similarity p ft).Denotes x) : |x| ≤ 1 := by
  rw [hx.trans (similarity_denotes p ft).symm]
  split_ifs with h
  · have hu : (0 : ℝ) < Real.sqrt ((sumSquares (factors.map (userWeighted p)) : ℚ) : ℝ) :=
      Real.sqrt_pos.mpr (by exact_mod_cast h.1)
    have hn : (0 : ℝ) < Real.sqrt ((sumSquares (factors.map (neighborhoodWeighted ft)) : ℚ) : ℝ) :=
      Real.sqrt_pos.mpr (by exact_mod_cast h.2)
    have hpos := mul_pos hu hn
    rw [abs_div, abs_of_pos hpos, div_le_one hpos]
    exact abs_dotProduct_le _ _
  · simp

theorem similarity_nonneg_of_dot (p : UserPreferences) (ft : Features) {x : ℝ}
    (hx : (similarity p ft).Denotes x)
    (h : 0 ≤ dotProduct (factors.map (userWeighted p)) (factors.map (neighborhoodWeighted ft))) :
    0 ≤ x := by
  rw [hx.trans (similarity_denotes p ft).symm]
  split_ifs
  · apply div_nonneg
    · exact_mod_cast h
    · exact mul_nonneg (Real.sqrt_nonneg _) (Real.sqrt_nonneg _)
  · exact le_rfl

theorem factorWeights_pos (f : Factor) : 0 < factorWeights f := by
  cases f <;> norm_num [factorWeights]

theorem dotProduct_nonneg_of_nonneg (p : UserPreferences) (ft : Features)
    (hp : ∀ f, 0 ≤ orElse (p f) 3) (hf : ∀ f, 0 ≤ ft.get f) :
    0 ≤ dotProduct (factors.map (userWeighted p)) (factors.map (neighborhoodWeighted ft)) := by
  rw [dotProduct_map]
  apply Finset.sum_nonneg
  intro f _
  unfold userWeighted neighborhoodWeighted
  have hw := (factorWeights_pos f).le
  exact mul_nonneg (mul_nonneg (mul_nonneg (hp f) (by norm_num)) hw) (mul_nonneg (hf f) hw)

/-- The returned similarity is the rounding of the real number behind `similarity`. -/
theorem similarity_roundsTo (p : UserPreferences) (ft : Features) :
    RoundsTo ((similarity p ft).coeff * Real.sqrt ((similarity p ft).radicand : ℝ))
      (similarity p ft).toFixed3 :=
  toFixed3_roundsTo (Surd.denotes_self _) (similarity_radicand_nonneg p ft)

/-! ## What findBestMatches returns for a candidate -/

theorem scoreNeighborhood_similarity (p : UserPreferences) (n : Neighborhood) (ft : Features) :
    (scoreNeighborhood p n ft).similarity = (similarity p ft).toFixed3 := rfl

theorem scoreNeighborhood_features (p : UserPreferences) (n : Neighborhood) (ft : Features) :
    (scoreNeighborhood p n ft).features = ft := rfl

/-- Every returned object was built by the callback from some candidate of the pool. -/
theorem exists_of_mem_findBestMatches {e : Neighborhood → Enriched} {rnd : ℕ → ℕ}
    {p : UserPreferences} {pool : List Neighborhood} {k : ℕ} {rt : Bool} {res : MatchResult}
    (h : res ∈ findBestMatches e rnd p pool k rt) :
    ∃ n ft, res = scoreNeighborhood p n ft := by
  unfold findBestMatches sortBySimilarity at h
  have h1 := List.mem_of_mem_take h
  rw [(List.perm_insertionSort _ _).mem_iff, List.mem_map] at h1
  obtain ⟨n, _, hn⟩ := h1
  exact ⟨n, _, hn.symm⟩

theorem similarity_of_mem_findBestMatches {e : Neighborhood → Enriched} {rnd : ℕ → ℕ}
    {p : UserPreferences} {pool : List Neighborhood} {k : ℕ} {rt : Bool} {res : MatchResult}
    (h : res ∈ findBestMatches e rnd p pool k rt) :
    res.similarity = (similarity p res.features).toFixed3 := by
  obtain ⟨n, ft, rfl⟩ := exists_of_mem_findBestMatches h
  rfl

/-- A static pool of one candidate gives that candidate's object. -/
theorem findBestMatches_static_single (e : Neighborhood → Enriched) (rnd : ℕ → ℕ)
    (p : UserPreferences) (n : Neighborhood) (k : ℕ) :
    findBestMatches e rnd p [n] (k + 1) false = [scoreNeighborhood p n (staticFeatures n)] := by
  simp [findBestMatches, sortBySimilarity]

/-! ## Proportional vectors in exact arithmetic -/

theorem userWeighted_of_rating {p : UserPreferences} {r : Factor → ℚ}
    (hp : ∀ f, p f = some (r f)) (hr : ∀ f, r f ≠ 0) (f : Factor) :
    userWeighted p f = r f * 2 * factorWeights f := by
  unfold userWeighted orElse
  rw [hp f]
  simp [hr f]

theorem sumSquares_userWeighted_pos {p : UserPreferences} {r : Factor → ℚ}
    (hp : ∀ f, p f = some (r f)) (hr : ∀ f, r f ≠ 0) :
    0 < sumSquares (factors.map (userWeighted p)) := by
  rw [sumSquares_map]
  apply Finset.sum_pos
  · intro f _
    rw [userWeighted_of_rating hp hr f]
    have h1 : r f * 2 * factorWeights f ≠ 0 :=
      mul_ne_zero (mul_ne_zero (hr f) (by norm_num)) (factorWeights_pos f).ne.symm
    exact mul_self_pos.mpr h1
  · exact ⟨Factor.safety, Finset.mem_univ _⟩

/-- The cosine of a vector with a positive multiple of itself is 1. -/
theorem similarity_proportional (p : UserPreferences) (ft : Features) (r : Factor → ℚ) (c : ℚ)
    (hp : ∀ f, p f = some (r f)) (hr : ∀ f, r f ≠ 0) (hc : 0 < c)
    (hft : ∀ f, ft.get f = c * (2 * r f)) : (similarity p ft).Denotes 1 := by
  have hv : neighborhoodWeighted ft = fun f => c * userWeighted p f := by
    funext f
    rw [userWeighted_of_rating hp hr f]
    unfold neighborhoodWeighted
    rw [hft f]
    ring
  have hU := sumSquares_userWeighted_pos hp hr
  have hd : dotProduct (factors.map (userWeighted p)) (factors.map (neighborhoodWeighted ft)) =
      c * sumSquares (factors.map (userWeighted p)) := by
    rw [dotProduct_map, sumSquares_map, hv, Finset.mul_sum]
    apply Finset.sum_congr rfl
    intro f _
    ring
  have hs : sumSquares (factors.map (neighborhoodWeighted ft)) =
      c * c * sumSquares (factors.map (userWeighted p)) := by
    rw [sumSquares_map, sumSquares_map, hv, Finset.mul_sum]
    apply Finset.sum_congr rfl
    intro f _
    ring
  have hV : 0 < sumSquares (factors.map (neighborhoodWeighted ft)) := by
    rw [hs]
    positivity
  have hcR : (0 : ℝ) < (c : ℝ) := by exact_mod_cast hc
  have hUR : (0 : ℝ) < ((sumSquares (factors.map (userWeighted p)) : ℚ) : ℝ) := by
    exact_mod_cast hU
  have hm : Real.sqrt ((sumSquares (factors.map (neighborhoodWeighted ft)) : ℚ) : ℝ) =
      (c : ℝ) * Real.sqrt ((sumSquares (factors.map (userWeighted p)) : ℚ) : ℝ) := by
    rw [hs]
    push_cast
    rw [Real.sqrt_mul (mul_self_nonneg _), Real.sqrt_mul_self hcR.le]
  have hu0 : 0 < Real.sqrt ((sumSquares (factors.map (userWeighted p)) : ℚ) : ℝ) :=
    Real.sqrt_pos.mpr hUR
  have hsq : Real.sqrt ((sumSquares (factors.map (userWeighted p)) : ℚ) : ℝ) *
      Real.sqrt ((sumSquares (factors.map (userWeighted p)) : ℚ) : ℝ) =
      ((sumSquares (factors.map (userWeighted p)) : ℚ) : ℝ) := Real.mul_self_sqrt hUR.le
  have hden := similarity_denotes p ft
  rw [if_pos ⟨hU, hV⟩, hm, hd] at hden
  have hone : ((c * sumSquares (factors.map (userWeighted p)) : ℚ) : ℝ) /
      (Real.sqrt ((sumSquares (factors.map (userWeighted p)) : ℚ) : ℝ) *
        ((c : ℝ) * Real.sqrt ((sumSquares (factors.map (userWeighted p)) : ℚ) : ℝ))) = 1 := by
    push_cast
    generalize Real.sqrt ((sumSquares (factors.map (userWeighted p)) : ℚ) : ℝ) = t at hsq hu0
    rw [← hsq]
    field_simp
    ring
  rw [hone] at hden
  exact hden

/-! ## The two reduced sums as real numbers -/

theorem dotProduct_map_real (a b : Factor → ℚ) :
    ((dotProduct (factors.map a) (factors.map b) : ℚ) : ℝ) =
      ∑ f : Factor, ((a f : ℚ) : ℝ) * ((b f : ℚ) : ℝ) := by
  rw [dotProduct_map]
  push_cast
  rfl

theorem sumSquares_map_real (a : Factor → ℚ) :
    ((sumSquares (factors.map a) : ℚ) : ℝ) = ∑ f : Factor, ((a f : ℚ) : ℝ) ^ 2 := by
  rw [sumSquares_map]
  push_cast
  simp only [sq]

/-! ## The shuffle and the size of the returned list -/

theorem length_swapAt {α : Type} (xs : List α) (i j : ℕ) : (swapAt xs i j).length = xs.length := by
  unfold swapAt
  split <;> simp

theorem length_shuffleFrom {α : Type} (rnd : ℕ → ℕ) (i : ℕ) (xs : List α) :
    (shuffleFrom rnd i xs).length = xs.length := by
  induction i generalizing xs with
  | zero => rfl
  | succ i ih => rw [shuffleFrom, ih, length_swapAt]

theorem length_shuffle {α : Type} (rnd : ℕ → ℕ) (xs : List α) :
    (shuffle rnd xs).length = xs.length := length_shuffleFrom rnd _ xs

theorem length_findBestMatches (e : Neighborhood → Enriched) (rnd : ℕ → ℕ) (p : UserPreferences)
    (pool : List Neighborhood) (k : ℕ) (rt : Bool) :
    (findBestMatches e rnd p pool k rt).length = min k (min 20 pool.length) := by
  unfold findBestMatches sortBySimilarity
  cases rt <;> simp [List.length_insertionSort, length_shuffle]

/-! ## C4: the order of the returned list -/

theorem filter_orderedInsert_of_eq (s : ℚ) (a : MatchResult) (l : List MatchResult)
    (ha : a.similarity = s) :
    (List.orderedInsert similarityDesc a l).filter (fun r => decide (r.similarity = s)) =
      a :: l.filter (fun r => decide (r.similarity = s)) := by
  induction l with
  | nil => simp [ha]
  | cons b l ih =>
    rw [List.orderedInsert]
    split_ifs with hab
    · rw [List.filter_cons_of_pos (by simpa using ha)]
    · have hb : b.similarity ≠ s := by
        intro hbs
        apply hab
        unfold similarityDesc
        rw [hbs, ha]
      rw [List.filter_cons_of_neg (by simpa using hb), ih,
        List.filter_cons_of_neg (by simpa using hb)]

theorem filter_orderedInsert_of_ne (s : ℚ) (a : MatchResult) (l : List MatchResult)
    (ha : a.similarity ≠ s) :
    (List.orderedInsert similarityDesc a l).filter (fun r => decide (r.similarity = s)) =
      l.filter (fun r => decide (r.similarity = s)) := by
  induction l with
  | nil => simp [ha]
  | cons b l ih =>
    rw [List.orderedInsert]
    split_ifs with hab
    · rw [List.filter_cons_of_neg (by simpa using ha)]
    · by_cases hb : b.similarity = s
      · rw [List.filter_cons_of_pos (by simpa using hb), ih,
          List.filter_cons_of_pos (by simpa using hb)]
      · rw [List.filter_cons_of_neg (by simpa using hb), ih,
          List.filter_cons_of_neg (by simpa using hb)]

/-- Sorting leaves the objects of any one similarity in their order. -/
theorem filter_sortBySimilarity (s : ℚ) (l : List MatchResult) :
    (sortBySimilarity l).filter (fun r => decide (r.similarity = s)) =
      l.filter (fun r => decide (r.similarity = s)) := by
  unfold sortBySimilarity
  induction l with
  | nil => rfl
  | cons a l ih =>
    rw [List.insertionSort]
    by_cases ha : a.similarity = s
    · rw [filter_orderedInsert_of_eq s a _ ha, ih, List.filter_cons_of_pos (by simpa using ha)]
    · rw [filter_orderedInsert_of_ne s a _ ha, ih, List.filter_cons_of_neg (by simpa using ha)]

/-- C4: with `useRealTimeData` false the returned list is in non-increasing order
of similarity; the returned objects of any one similarity are the first ones of
that similarity in the pool, in pool order; so two returned objects of equal
similarity, one before the other, stand in that order in the pool. -/
theorem findBestMatches_static_sorted_stable (e : Neighborhood → Enriched) (rnd : ℕ → ℕ)
    (p : UserPreferences) (pool : List Neighborhood) (k : ℕ) :
    (findBestMatches e rnd p pool k false).Pairwise (fun a b => b.similarity ≤ a.similarity) ∧
    (∀ s : ℚ, List.IsPrefix
      ((findBestMatches e rnd p pool k false).filter (fun r => decide (r.similarity = s)))
      ((pool.map (fun n => scoreNeighborhood p n (staticFeatures n))).filter
        (fun r => decide (r.similarity = s)))) ∧
    (∀ a b : MatchResult, List.Sublist [a, b] (findBestMatches e rnd p pool k false) →
      a.similarity = b.similarity →
      List.Sublist [a, b] (pool.map (fun n => scoreNeighborhood p n (staticFeatures n)))) := by
  have hstable : ∀ s : ℚ, List.IsPrefix
      ((findBestMatches e rnd p pool k false).filter (fun r => decide (r.similarity = s)))
      ((pool.map (fun n => scoreNeighborhood p n (staticFeatures n))).filter
        (fun r => decide (r.similarity = s))) := by
    intro s
    unfold findBestMatches
    simp only [Bool.false_eq_true, if_false]
    refine ((List.take_prefix k _).filter _).trans ?_
    rw [filter_sortBySimilarity]
    apply List.IsPrefix.filter
    exact (List.take_prefix 20 pool).map _
  refine ⟨?_, hstable, ?_⟩
  · unfold findBestMatches sortBySimilarity
    exact (List.sorted_insertionSort similarityDesc _).sublist (List.take_sublist k _)
  · intro a b hab heq
    have h1 := hab.filter (fun r => decide (r.similarity = b.similarity))
    rw [List.filter_cons_of_pos (by simpa using heq),
      List.filter_cons_of_pos (by simp), List.filter_nil] at h1
    exact (h1.trans (hstable b.similarity).sublist).trans (List.filter_sublist _)

theorem twin_similarity (n : Neighborhood)
    (hn : n.attr = fun f => match f with
      | .safety => some 10
      | _ => some 2) :
    (scoreNeighborhood safetyFirstPrefs n (staticFeatures n)).similarity = 1 := by
  rw [scoreNeighborhood_similarity]
  exact roundsTo_one
    (toFixed3_roundsTo
      (similarity_proportional safetyFirstPrefs (staticFeatures n) safetyFirstRatings 1
        (by intro f; cases f <;> rfl)
        (by intro f; cases f <;> norm_num [safetyFirstRatings])
        (by norm_num)
        (by
          intro f
          cases f <;> norm_num [staticFeatures, hn, orElse, Features.get, safetyFirstRatings]))
      (similarity_radicand_nonneg _ _))

/-- C4 at a pool of two candidates with identical attributes: both have
similarity 1 and are returned in pool order. -/
theorem twins_keep_pool_order :
    findBestMatches (offlineEnrich 0) (fun _ => 0) safetyFirstPrefs [twinFirst, twinSecond] 5
        false =
      [scoreNeighborhood safetyFirstPrefs twinFirst (staticFeatures twinFirst),
       scoreNeighborhood safetyFirstPrefs twinSecond (staticFeatures twinSecond)] := by
  have h := (findBestMatches_static_sorted_stable (offlineEnrich 0) (fun _ => 0) safetyFirstPrefs
    [twinFirst, twinSecond] 5).2.1 1
  have h1 := twin_similarity twinFirst rfl
  have h2 := twin_similarity twinSecond rfl
  have hall : ∀ r ∈ findBestMatches (offlineEnrich 0) (fun _ => 0) safetyFirstPrefs
      [twinFirst, twinSecond] 5 false, r.similarity = 1 := by
    intro r hr
    unfold findBestMatches sortBySimilarity at hr
    have hr1 := List.mem_of_mem_take hr
    rw [(List.perm_insertionSort _ _).mem_iff] at hr1
    simp only [Bool.false_eq_true, if_false, List.take, List.map, List.mem_cons,
      List.mem_singleton, List.not_mem_nil, or_false] at hr1
    rcases hr1 with hr1 | hr1
    · rw [hr1, h1]
    · rw [hr1, h2]
  rw [List.filter_eq_self.mpr (by intro r hr; simpa using hall r hr)] at h
  simp only [List.map] at h
  rw [List.filter_cons_of_pos (by simpa using h1), List.filter_cons_of_pos (by simpa using h2),
    List.filter_nil] at h
  exact h.eq_of_length (by rw [length_findBestMatches]; rfl)

/-! ## Enrichment with every request failing -/

theorem getNeighborhoodData_offline (now : ℕ) (n : Neighborhood) :
    getNeighborhoodData [] now Network.allFail n = (offlineApiData now, []) := rfl

theorem updateNeighborhoodData_offline_eq (now : ℕ) (n : Neighborhood) :
    updateNeighborhoodData [] now Network.allFail n =
      (deriveFromApiData n (offlineApiData now), []) := rfl

theorem usable_offline_poi (now : ℕ) : usable (offlineApiData now).poi = none := by
  simp [usable, offlineApiData, truthyStr]

theorem usable_offline_weather (now : ℕ) :
    usable (offlineApiData now).weather = some (weatherFallback now) := by
  simp [usable, offlineApiData, truthyStr, weatherFallback]

theorem usable_offline_indiaData (now : ℕ) :
    usable (offlineApiData now).indiaData = some (indiaFallback now "demographics") := by
  simp [usable, offlineApiData, truthyStr, indiaFallback]

theorem poiCount_offline (now : ℕ) (field : ApiObject → Option ℚ) :
    poiCount (offlineApiData now) field = 0 := by
  unfold poiCount
  rw [usable_offline_poi]

theorem footwayCount_offline (now : ℕ) : footwayCount (offlineApiData now) = 0 := by
  unfold footwayCount
  rw [usable_offline_poi]

theorem heavyRain_offline (now : ℕ) : heavyRain (offlineApiData now) = false := by
  unfold heavyRain
  rw [usable_offline_weather]
  simp [weatherFallback, gtNum]

theorem regionSeen_offline (now : ℕ) : regionSeen (offlineApiData now) = true := by
  unfold regionSeen
  rw [usable_offline_indiaData]
  simp [indiaFallback, truthyStr]

theorem populationSeen_offline (now : ℕ) : populationSeen (offlineApiData now) = true := by
  unfold populationSeen
  rw [usable_offline_indiaData]
  simp [indiaFallback, truthyNum]

theorem aqiSeen_offline (now : ℕ) : aqiSeen (offlineApiData now) = true := by
  unfold aqiSeen
  rw [usable_offline_weather]
  simp [weatherFallback, truthyNum]

theorem affordabilityOf_offline (now : ℕ) :
    affordabilityOf (offlineApiData now) = -(380004385 / 100000000) := by
  unfold affordabilityOf
  rw [populationSeen_offline]
  norm_num [offlineApiData, indiaFallback, orElse, min_def]

theorem airQualityOf_offline (now : ℕ) : airQualityOf (offlineApiData now) = 9 := by
  unfold airQualityOf
  rw [aqiSeen_offline]
  norm_num [offlineApiData, weatherFallback, orElse, max_def]

theorem usedDefaultsOf_offline (now : ℕ) : usedDefaultsOf (offlineApiData now) = false := by
  simp [usedDefaultsOf, aqiSeen_offline]

/-! ## C5: the range of the derived factors -/

/-- C5 fails on the code: with an empty cache and every request failing, the
demographics fallback (population 1380004385) makes `updateNeighborhoodData`
return `affordability = 10 - 13.80004385 = -3.80004385`, below the range [2,10]. -/
theorem updateNeighborhoodData_affordability_out_of_range :
    (updateNeighborhoodData [] 0 Network.allFail osmNeighborhood).1.features.get .affordability =
      -(380004385 / 100000000) ∧
    ¬ (2 ≤ (updateNeighborhoodData [] 0 Network.allFail osmNeighborhood).1.features.get
      .affordability) := by
  rw [updateNeighborhoodData_offline_eq]
  simp only [deriveFromApiData, Features.get, affordabilityOf_offline]
  norm_num

/-! ## C7: the feature vector when every request fails -/

/-- C7, as stated, fails: with an empty cache and every request failing,
`airQuality` is 9, not the baseline 7 (and `affordability` is not 5). -/
theorem offline_enrichment_not_baseline :
    (updateNeighborhoodData [] 0 Network.allFail osmNeighborhood).1.features.airQuality = 9 ∧
    (updateNeighborhoodData [] 0 Network.allFail osmNeighborhood).1.features.airQuality ≠ 7 ∧
    (updateNeighborhoodData [] 0 Network.allFail osmNeighborhood).1.features.affordability ≠ 5 := by
  rw [updateNeighborhoodData_offline_eq]
  simp only [deriveFromApiData, affordabilityOf_offline, airQualityOf_offline]
  norm_num

/-- C7 (amended): with an empty cache and every request failing,
`updateNeighborhoodData` returns (and leaves the cache empty); safety is 7,
walkability 5, healthcare 5, fastInternet 8, restaurants 5, publicTransport 5
and parksGreenery 5, their baselines, while airQuality is 9, derived from the
weather fallback record. -/
theorem offline_enrichment_features (now : ℕ) (n : Neighborhood) :
    ∃ r : Enriched, updateNeighborhoodData [] now Network.allFail n = (r, []) ∧
      r.neighborhood = n ∧
      r.features.safety = 7 ∧ r.features.walkability = 5 ∧ r.features.healthcare = 5 ∧
      r.features.fastInternet = 8 ∧ r.features.restaurants = 5 ∧
      r.features.publicTransport = 5 ∧ r.features.parksGreenery = 5 ∧
      r.features.airQuality = 9 := by
  refine ⟨deriveFromApiData n (offlineApiData now), rfl, rfl, ?_, ?_, ?_, ?_, ?_, ?_, ?_, ?_⟩
  · simp [deriveFromApiData, safetyOf, policeCount, poiCount_offline, heavyRain_offline]
  · simp [deriveFromApiData, walkabilityOf, footwayCount_offline]
  · simp [deriveFromApiData, healthcareOf, hospitalCount, poiCount_offline]
  · simp [deriveFromApiData, fastInternetOf, regionSeen_offline, offlineApiData, indiaFallback]
  · simp only [deriveFromApiData, restaurantsOf, restaurantCount, poiCount_offline]
    norm_num
  · simp only [deriveFromApiData, publicTransportOf, transportCount, poiCount_offline]
    norm_num
  · simp only [deriveFromApiData, parksGreeneryOf, parkCount, poiCount_offline]
    norm_num
  · simp only [deriveFromApiData, airQualityOf_offline]

/-! ## Enrichment from a cache with sparse records -/

theorem weatherKey_ne_locationKey (a b : ℚ) (n : Neighborhood) :
    weatherKey a b ≠ locationKey n := by
  intro h
  have h1 := congrArg (fun s => s.data.head?) h
  simp [weatherKey, locationKey, String.data_append] at h1

theorem indiaDataKey_ne_locationKey (c : String) (n : Neighborhood) :
    indiaDataKey c ≠ locationKey n := by
  intro h
  have h1 := congrArg (fun s => s.data.head?) h
  simp [indiaDataKey, locationKey, String.data_append] at h1

theorem weatherKey_ne_poiKey (a b x y r : ℚ) : weatherKey a b ≠ poiKey x y r := by
  intro h
  have h1 := congrArg (fun s => s.data.head?) h
  simp [weatherKey, poiKey, String.data_append] at h1

theorem indiaDataKey_ne_poiKey (c : String) (x y r : ℚ) : indiaDataKey c ≠ poiKey x y r := by
  intro h
  have h1 := congrArg (fun s => s.data.head?) h
  simp [indiaDataKey, poiKey, String.data_append] at h1

theorem weatherKey_ne_indiaDataKey (a b : ℚ) (c : String) : weatherKey a b ≠ indiaDataKey c := by
  intro h
  have h1 := congrArg (fun s => s.data.head?) h
  simp [weatherKey, indiaDataKey, String.data_append] at h1

theorem getLocationData_miss_allFail (cache : Cache CachedData) (now : ℕ) (n : Neighborhood)
    (h : getCachedData cache now (locationKey n) = none) :
    getLocationData cache now Network.allFail n =
      ({ error := some "Location data unavailable", source := some "error" }, cache) := by
  unfold getLocationData
  simp only [h, truthyCached]
  rfl

theorem getPOI_miss_allFail (cache : Cache CachedData) (now : ℕ) (lat lng : ℚ)
    (h : getCachedData cache now (poiKey lat lng 2000) = none) :
    getPOI cache now Network.allFail lat lng =
      ({ error := some "POI data unavailable", source := some "error" }, cache) := by
  unfold getPOI
  simp only [h, truthyCached]
  rfl

theorem getWeatherData_hit (cache : Cache CachedData) (now : ℕ) (net : Network) (lat lng : ℚ)
    (d : ApiObject) (h : getCachedData cache now (weatherKey lat lng) = some (some d)) :
    getWeatherData cache now net lat lng = ({ d with source := some "cache" }, cache) := by
  unfold getWeatherData
  simp only [h, truthyCached]

theorem getIndiaData_hit (cache : Cache CachedData) (now : ℕ) (net : Network) (category : String)
    (d : ApiObject) (h : getCachedData cache now (indiaDataKey category) = some (some d)) :
    getIndiaData cache now net category = ({ d with source := some "cache" }, cache) := by
  unfold getIndiaData
  simp only [h, truthyCached]

theorem getNeighborhoodData_sparse :
    getNeighborhoodData sparseCache 1000 Network.allFail osmNeighborhood =
      (sparseApiData, sparseCache) := by
  have hl : getCachedData sparseCache 1000 (locationKey osmNeighborhood) = none := by
    simp [getCachedData, isCacheValid, Cache.find, sparseCache, weatherKey_ne_locationKey,
      indiaDataKey_ne_locationKey]
  have hp : getCachedData sparseCache 1000 (poiKey (185074 / 10000) defaultLng 2000) = none := by
    simp [getCachedData, isCacheValid, Cache.find, sparseCache, weatherKey_ne_poiKey,
      indiaDataKey_ne_poiKey]
  have hw : getCachedData sparseCache 1000 (weatherKey (185074 / 10000) defaultLng) =
      some (some { precipitation := some 40 }) := by
    simp [getCachedData, isCacheValid, Cache.find, sparseCache]
  have hi : getCachedData sparseCache 1000 (indiaDataKey "demographics") =
      some (some { category := some "demographics" }) := by
    simp [getCachedData, isCacheValid, Cache.find, sparseCache, weatherKey_ne_indiaDataKey]
  have hlat : orElse none (orElse osmNeighborhood.lat defaultLat) = 185074 / 10000 := by
    norm_num [orElse, osmNeighborhood]
  have hlng : orElse none (orElse osmNeighborhood.lng defaultLng) = defaultLng := rfl
  unfold getNeighborhoodData
  rw [getLocationData_miss_allFail _ _ _ hl]
  simp only [hlat, hlng]
  rw [getPOI_miss_allFail _ _ _ _ hp, getWeatherData_hit _ _ _ _ _ _ hw]
  simp only []
  rw [getIndiaData_hit _ _ _ _ _ hi]
  rfl

theorem updateNeighborhoodData_sparse :
    updateNeighborhoodData sparseCache 1000 Network.allFail osmNeighborhood =
      (deriveFromApiData osmNeighborhood sparseApiData, sparseCache) := by
  unfold updateNeighborhoodData
  rw [getNeighborhoodData_sparse]

theorem usable_sparse_poi : usable sparseApiData.poi = none := by
  simp [usable, sparseApiData, truthyStr]

theorem usable_sparse_weather :
    usable sparseApiData.weather = some { precipitation := some 40, source := some "cache" } := by
  simp [usable, sparseApiData, truthyStr]

theorem usable_sparse_indiaData :
    usable sparseApiData.indiaData =
      some { category := some "demographics", source := some "cache" } := by
  simp [usable, sparseApiData, truthyStr]

theorem usedDefaultsOf_sparse : usedDefaultsOf sparseApiData = true := by
  simp [usedDefaultsOf, policeCount, hospitalCount, restaurantCount, transportCount, parkCount,
    poiCount, footwayCount, regionSeen, populationSeen, aqiSeen, usable_sparse_poi,
    usable_sparse_weather, usable_sparse_indiaData, truthyStr, truthyNum]

theorem safetyOf_sparse : safetyOf sparseApiData = 5 := by
  simp only [safetyOf, policeCount, poiCount, heavyRain, usable_sparse_poi, usable_sparse_weather,
    gtNum]
  norm_num [max_def]

/-- The final `usedDefaults` is true exactly when none of the nine statements
`usedDefaults = false` is reached. -/
theorem usedDefaultsOf_eq_true_iff (a : ApiData) :
    usedDefaultsOf a = true ↔
      ¬ policeCount a > 0 ∧ ¬ footwayCount a > 0 ∧ ¬ hospitalCount a > 0 ∧
      regionSeen a = false ∧ populationSeen a = false ∧ ¬ restaurantCount a > 0 ∧
      ¬ transportCount a > 0 ∧ ¬ parkCount a > 0 ∧ aqiSeen a = false := by
  unfold usedDefaultsOf
  by_cases h1 : policeCount a > 0 <;> by_cases h2 : footwayCount a > 0 <;>
    by_cases h3 : hospitalCount a > 0 <;> by_cases h4 : restaurantCount a > 0 <;>
    by_cases h5 : transportCount a > 0 <;> by_cases h6 : parkCount a > 0 <;>
    cases regionSeen a <;> cases populationSeen a <;> cases aqiSeen a <;> simp [*]

/-! ## C6: usedDefaults and the overrides -/

/-- C6 fails on the code: for `osmNeighborhood`, with the POI request failing and
a cached weather record of 40 mm precipitation without AQI and a cached
demographics record without region and population, the precipitation rule
fires and lowers safety from the baseline 7 to 5, yet `updateNeighborhoodData`
reports `usedDefaults = true`. -/
theorem usedDefaults_true_with_precipitation_rule :
    heavyRain sparseApiData = true ∧
    (updateNeighborhoodData sparseCache 1000 Network.allFail osmNeighborhood).1.usedDefaults = true ∧
    (updateNeighborhoodData sparseCache 1000 Network.allFail osmNeighborhood).1.features.safety = 5 := by
  rw [updateNeighborhoodData_sparse]
  refine ⟨?_, ?_, ?_⟩
  · simp only [heavyRain, usable_sparse_weather, gtNum]
    norm_num
  · simp only [deriveFromApiData, usedDefaultsOf_sparse]
  · simp only [deriveFromApiData, safetyOf_sparse]

/-! ## Real-time matches -/

/-- In a real-time match every returned object carries the `features` of an
enrichment result. -/
theorem features_of_mem_findBestMatches_realtime {e : Neighborhood → Enriched} {rnd : ℕ → ℕ}
    {p : UserPreferences} {pool : List Neighborhood} {k : ℕ} {res : MatchResult}
    (h : res ∈ findBestMatches e rnd p pool k true) :
    ∃ n, res.features = (e n).features := by
  unfold findBestMatches sortBySimilarity at h
  have h1 := List.mem_of_mem_take h
  rw [(List.perm_insertionSort _ _).mem_iff, List.mem_map] at h1
  obtain ⟨n, _, hn⟩ := h1
  exact ⟨n, by rw [← hn]; rfl⟩

theorem deriveFromApiData_usedDefaults_key (n : Neighborhood) (a : ApiData) :
    (deriveFromApiData n a).features.usedDefaults = none := rfl

/-- Whatever the cache and the upstream, a real-time match over a non-empty pool
that asks for at least one result answers `enrichmentWarning = false`: the
`features` of an enrichment result has no `usedDefaults` key. -/
theorem enrichmentWarningOf_realtime (cache : Cache CachedData) (now : ℕ) (net : Network)
    (rnd : ℕ → ℕ) (p : UserPreferences) (pool : List Neighborhood) (k : ℕ)
    (hpool : pool ≠ []) (hk : 0 < k) :
    enrichmentWarningOf true
      (findBestMatches (fun n => (enrichNeighborhoodFeatures cache now net n).1) rnd p pool k
        true) = false := by
  have hlen := length_findBestMatches (fun n => (enrichNeighborhoodFeatures cache now net n).1)
    rnd p pool k true
  have hpos : 0 < pool.length := List.length_pos.mpr hpool
  cases htop : findBestMatches (fun n => (enrichNeighborhoodFeatures cache now net n).1)
      rnd p pool k true with
  | nil =>
    rw [htop] at hlen
    simp only [List.length_nil] at hlen
    omega
  | cons r rest =>
    have hr : r ∈ findBestMatches (fun n => (enrichNeighborhoodFeatures cache now net n).1)
        rnd p pool k true := by
      rw [htop]
      exact List.mem_cons_self _ _
    obtain ⟨n, hn⟩ := features_of_mem_findBestMatches_realtime hr
    have hnone : r.features.usedDefaults = none := by
      rw [hn]
      rfl
    simp [enrichmentWarningOf, hnone]

theorem findBestMatches_realtime_single (e : Neighborhood → Enriched) (rnd : ℕ → ℕ)
    (p : UserPreferences) (n : Neighborhood) (k : ℕ) :
    findBestMatches e rnd p [n] (k + 1) true = [scoreNeighborhood p n (e n).features] := by
  simp [findBestMatches, sortBySimilarity, shuffle, shuffleFrom]

theorem postMatch_realtimeRequest_single (e : Neighborhood → Enriched) (rnd : ℕ → ℕ)
    (n : Neighborhood) (statics : List Neighborhood) :
    postMatch [n] statics e rnd realtimeRequest =
      .success [scoreNeighborhood (uniformPrefs 3) n (e n).features] 1 "realtime" responseWeights
        (enrichmentWarningOf true [scoreNeighborhood (uniformPrefs 3) n (e n).features]) := by
  have h := findBestMatches_realtime_single e rnd (uniformPrefs 3) n 9
  norm_num at h
  norm_num [postMatch, realtimeRequest, uniformPrefs, factors, h]

/-! ## C8 and C9: the enrichmentWarning of /match -/

/-- C8 fails on the code: a real-time match over the pool of one candidate, with
an empty cache and every request failing, answers `enrichmentWarning = false`;
the object read, `features`, has no `usedDefaults` key, and the enrichment
itself reports `usedDefaults = false` because the fallback records fire
overrides. -/
theorem postMatch_offline_no_warning :
    (postMatch [osmNeighborhood] [] (offlineEnrich 0) (fun _ => 0)
      realtimeRequest).enrichmentWarning = some false ∧
    (postMatch [osmNeighborhood] [] (offlineEnrich 0) (fun _ => 0)
      realtimeRequest).topMatches.map (fun r => r.features.usedDefaults) = [none] ∧
    (offlineEnrich 0 osmNeighborhood).usedDefaults = false := by
  rw [postMatch_realtimeRequest_single]
  refine ⟨?_, ?_, ?_⟩
  · simp [MatchResponse.enrichmentWarning, enrichmentWarningOf, scoreNeighborhood, offlineEnrich,
      enrichNeighborhoodFeatures, updateNeighborhoodData_offline_eq, deriveFromApiData]
  · simp [MatchResponse.topMatches, scoreNeighborhood, offlineEnrich,
      enrichNeighborhoodFeatures, updateNeighborhoodData_offline_eq, deriveFromApiData]
  · simp only [offlineEnrich, enrichNeighborhoodFeatures, updateNeighborhoodData_offline_eq,
      deriveFromApiData, usedDefaultsOf_offline]

/-- C9 fails on the code: in a real-time match over the pool of one candidate
whose enrichment reports `usedDefaults = true`, the candidate is returned and
`enrichmentWarning` is false. -/
theorem postMatch_all_defaults_no_warning :
    (postMatch [osmNeighborhood] [] sparseEnrich (fun _ => 0)
      realtimeRequest).topMatches.map (fun r => (sparseEnrich r.neighborhood).usedDefaults) =
      [true] ∧
    (postMatch [osmNeighborhood] [] sparseEnrich (fun _ => 0)
      realtimeRequest).enrichmentWarning = some false := by
  rw [postMatch_realtimeRequest_single]
  have hs : (sparseEnrich osmNeighborhood).usedDefaults = true := by
    simp only [sparseEnrich, enrichNeighborhoodFeatures, updateNeighborhoodData_sparse,
      deriveFromApiData, usedDefaultsOf_sparse]
  refine ⟨?_, ?_⟩
  · simp [MatchResponse.topMatches, scoreNeighborhood, hs]
  · simp [MatchResponse.enrichmentWarning, enrichmentWarningOf, scoreNeighborhood, sparseEnrich,
      enrichNeighborhoodFeatures, updateNeighborhoodData_sparse, deriveFromApiData]

/-! ## C10: the cache keeps a value for its time to live -/

theorem find_assign_self {δ : Type} (cache : Cache δ) (key : String) (entry : CacheEntry δ) :
    Cache.find (Cache.assign cache key entry) key = some entry := by
  induction cache with
  | nil => simp [Cache.assign, Cache.find]
  | cons kv rest ih =>
    obtain ⟨k, x⟩ := kv
    by_cases hk : k = key
    · simp [Cache.assign, Cache.find, hk]
    · simp [Cache.assign, Cache.find, hk, ih]

/-- C10: after `setCacheData(key, v, ttl)` at time `t0`, over any cache,
`getCachedData(key)` at time `now` is `v` while `now < t0 + ttl` and `null`
once `now ≥ t0 + ttl`. -/
theorem getCachedData_setCacheData {δ : Type} (cache : Cache δ) (key : String) (v : δ)
    (ttl : ℤ) (t0 now : ℕ) :
    getCachedData (setCacheData cache t0 key v ttl) now key =
      if (now : ℤ) < (t0 : ℤ) + ttl then some v else none := by
  unfold getCachedData isCacheValid setCacheData
  rw [find_assign_self]
  by_cases h : (now : ℤ) < (t0 : ℤ) + ttl
  · have h0 : (t0 : ℤ) + ttl ≠ 0 := by
      have hn : (0 : ℤ) ≤ (now : ℤ) := Int.ofNat_nonneg now
      omega
    simp [h, h0]
  · simp [h]

/-! ## Cache lookups of the adapters -/

/-- `getCachedData` yields the data of the entry exactly when the entry is
unexpired; the truthiness test on `expiresAt` adds nothing at a time `now ≥ 0`. -/
theorem getCachedData_eq {δ : Type} (cache : Cache δ) (now : ℕ) (key : String) :
    getCachedData cache now key =
      if hasUnexpired cache now key then (Cache.find cache key).map (fun e => e.data) else none := by
  unfold getCachedData isCacheValid hasUnexpired
  cases hf : Cache.find cache key with
  | none => simp
  | some entry =>
    cases he : entry.expiresAt with
    | none => simp [he]
    | some t =>
      by_cases ht : (now : ℤ) < t
      · have h0 : t ≠ 0 := by
          have hn : (0 : ℤ) ≤ (now : ℤ) := Int.ofNat_nonneg now
          omega
        simp [he, ht, h0]
      · simp [he, ht]

theorem getCachedData_of_expired {δ : Type} (cache : Cache δ) (now : ℕ) (key : String)
    (h : hasUnexpired cache now key = false) : getCachedData cache now key = none := by
  rw [getCachedData_eq, h]
  rfl

theorem getCachedData_of_unexpired {δ : Type} (cache : Cache δ) (now : ℕ) (key : String)
    (h : hasUnexpired cache now key = true) :
    ∃ entry, Cache.find cache key = some entry ∧ getCachedData cache now key = some entry.data := by
  rw [getCachedData_eq, h]
  unfold hasUnexpired at h
  cases hf : Cache.find cache key with
  | none => simp [hf] at h
  | some entry => exact ⟨entry, rfl, rfl⟩

theorem truthyCached_of_expired (cache : Cache CachedData) (now : ℕ) (key : String)
    (h : hasUnexpired cache now key = false) :
    truthyCached (getCachedData cache now key) = none := by
  rw [getCachedData_of_expired _ _ _ h]
  rfl

theorem hasCachedObject_of_expired (cache : Cache CachedData) (now : ℕ) (key : String)
    (h : hasUnexpired cache now key = false) : hasCachedObject cache now key = false := by
  simp [hasCachedObject, h]

theorem getCachedData_of_object (cache : Cache CachedData) (now : ℕ) (key : String)
    (h : hasCachedObject cache now key = true) :
    ∃ entry object, Cache.find cache key = some entry ∧ entry.data = some object ∧
      getCachedData cache now key = some (some object) := by
  unfold hasCachedObject at h
  rw [Bool.and_eq_true] at h
  obtain ⟨entry, hf, hg⟩ := getCachedData_of_unexpired _ _ _ h.1
  have h2 := h.2
  rw [hf] at h2
  obtain ⟨object, ho⟩ := Option.isSome_iff_exists.mp h2
  exact ⟨entry, object, hf, ho, by rw [hg, ho]⟩

theorem truthyCached_of_no_object (cache : Cache CachedData) (now : ℕ) (key : String)
    (h : hasCachedObject cache now key = false) :
    truthyCached (getCachedData cache now key) = none := by
  cases hu : hasUnexpired cache now key with
  | false => exact truthyCached_of_expired _ _ _ hu
  | true =>
    obtain ⟨entry, hf, hg⟩ := getCachedData_of_unexpired _ _ _ hu
    rw [hg]
    cases hd : entry.data with
    | none => rfl
    | some object => simp [hasCachedObject, hu, hf, hd] at h

theorem getLocationDataRequests_eq (cache : Cache CachedData) (now : ℕ) (n : Neighborhood) :
    getLocationDataRequests cache now n =
      if hasCachedObject cache now (locationKey n) then []
      else [.location (n.name ++ ", " ++ n.city ++ ", India")] := by
  unfold getLocationDataRequests
  cases h : hasCachedObject cache now (locationKey n) with
  | false => rw [truthyCached_of_no_object _ _ _ h]; rfl
  | true =>
    obtain ⟨entry, object, _, _, hg⟩ := getCachedData_of_object _ _ _ h
    rw [hg]
    rfl

theorem getPOIRequests_eq (cache : Cache CachedData) (now : ℕ) (lat lng radius : ℚ) :
    getPOIRequests cache now lat lng radius =
      if hasCachedObject cache now (poiKey lat lng radius) then [] else [.poi lat lng radius] := by
  unfold getPOIRequests
  cases h : hasCachedObject cache now (poiKey lat lng radius) with
  | false => rw [truthyCached_of_no_object _ _ _ h]; rfl
  | true =>
    obtain ⟨entry, object, _, _, hg⟩ := getCachedData_of_object _ _ _ h
    rw [hg]
    rfl

theorem getWeatherDataRequests_eq (cache : Cache CachedData) (now : ℕ) (net : Network)
    (lat lng : ℚ) :
    getWeatherDataRequests cache now net lat lng =
      if hasCachedObject cache now (weatherKey lat lng) then []
      else .weather lat lng ::
        (match net.weather lat lng with
          | .threw => []
          | .data _ => [.airQuality lat lng]) := by
  unfold getWeatherDataRequests
  cases h : hasCachedObject cache now (weatherKey lat lng) with
  | false =>
    rw [truthyCached_of_no_object _ _ _ h]
    cases hw : net.weather lat lng with
    | threw => simp
    | data d => simp
  | true =>
    obtain ⟨entry, object, _, _, hg⟩ := getCachedData_of_object _ _ _ h
    rw [hg]
    rfl

theorem getIndiaDataRequests_eq (cache : Cache CachedData) (now : ℕ) (category : String) :
    getIndiaDataRequests cache now category =
      if hasCachedObject cache now (indiaDataKey category) then [] else [.indiaData] := by
  unfold getIndiaDataRequests
  cases h : hasCachedObject cache now (indiaDataKey category) with
  | false => rw [truthyCached_of_no_object _ _ _ h]; rfl
  | true =>
    obtain ⟨entry, object, _, _, hg⟩ := getCachedData_of_object _ _ _ h
    rw [hg]
    rfl

theorem getLocationData_hit (cache : Cache CachedData) (now : ℕ) (net : Network)
    (n : Neighborhood) (d : ApiObject) (h : getCachedData cache now (locationKey n) = some (some d)) :
    getLocationData cache now net n = ({ d with source := some "cache" }, cache) := by
  unfold getLocationData
  simp only [h, truthyCached]

theorem getPOI_hit (cache : Cache CachedData) (now : ℕ) (net : Network) (lat lng radius : ℚ)
    (d : ApiObject) (h : getCachedData cache now (poiKey lat lng radius) = some (some d)) :
    getPOI cache now net lat lng radius = ({ d with source := some "cache" }, cache) := by
  unfold getPOI
  simp only [h, truthyCached]

/-- The result of `getLocationData` on a cache miss, by what the request comes to. -/
theorem getLocationData_miss (cache : Cache CachedData) (now : ℕ) (net : Network)
    (n : Neighborhood) (h : truthyCached (getCachedData cache now (locationKey n)) = none) :
    getLocationData cache now net n =
      match net.location n with
      | .threw => ({ error := some "Location data unavailable", source := some "error" }, cache)
      | .data (some (location :: _)) =>
        ({ locationPayload now location with source := some "api" },
          setCacheData cache now (locationKey n) (some (locationPayload now location))
            CACHE_CONFIG.infrastructure)
      | .data _ => ({ error := some "Location not found", source := some "error" }, cache) := by
  unfold getLocationData
  simp only [h]
  rfl

/-- The result of `getPOI` on a cache miss, by what the request comes to. -/
theorem getPOI_miss (cache : Cache CachedData) (now : ℕ) (net : Network) (lat lng radius : ℚ)
    (h : truthyCached (getCachedData cache now (poiKey lat lng radius)) = none) :
    getPOI cache now net lat lng radius =
      match net.poi lat lng radius with
      | .data (some data) =>
        ({ poiPayload now data with source := some "api" },
          setCacheData cache now (poiKey lat lng radius) (some (poiPayload now data)) CACHE_CONFIG.poi)
      | _ => ({ error := some "POI data unavailable", source := some "error" }, cache) := by
  unfold getPOI
  simp only [h]
  cases hp : net.poi lat lng radius with
  | threw => rfl
  | data d => cases d <;> rfl

/-- The result of `getWeatherData` on a cache miss, by what the requests come to. -/
theorem getWeatherData_miss (cache : Cache CachedData) (now : ℕ) (net : Network) (lat lng : ℚ)
    (h : truthyCached (getCachedData cache now (weatherKey lat lng)) = none) :
    getWeatherData cache now net lat lng =
      match net.weather lat lng with
      | .data (some weatherData) =>
        ({ weatherPayload now weatherData
              (match net.airQuality lat lng with
                | .threw => none
                | .data d => d) with source := some "weather_api" },
          setCacheData cache now (weatherKey lat lng)
            (some (weatherPayload now weatherData
              (match net.airQuality lat lng with
                | .threw => none
                | .data d => d))) CACHE_CONFIG.infrastructure)
      | _ => (weatherFallback now, cache) := by
  unfold getWeatherData
  simp only [h]
  cases hw : net.weather lat lng with
  | threw => rfl
  | data d => cases d <;> rfl

/-- The result of `getIndiaData` on a cache miss, by what the request comes to. -/
theorem getIndiaData_miss (cache : Cache CachedData) (now : ℕ) (net : Network)
    (category : String) (h : truthyCached (getCachedData cache now (indiaDataKey category)) = none) :
    getIndiaData cache now net category =
      match net.indiaData with
      | .data (some (indiaData :: _)) =>
        ({ indiaPayload now category indiaData with source := some "api" },
          setCacheData cache now (indiaDataKey category) (some (indiaPayload now category indiaData))
            CACHE_CONFIG.demographics)
      | _ => (indiaFallback now category, cache) := by
  unfold getIndiaData
  simp only [h]
  cases hi : net.indiaData with
  | threw => rfl
  | data d =>
    cases d with
    | none => rfl
    | some l => cases l <;> rfl

theorem miss_of_getLocationDataRequests (cache : Cache CachedData) (now : ℕ) (n : Neighborhood)
    (h : getLocationDataRequests cache now n ≠ []) :
    truthyCached (getCachedData cache now (locationKey n)) = none := by
  cases hg : truthyCached (getCachedData cache now (locationKey n)) with
  | none => rfl
  | some d => exact absurd (by simp [getLocationDataRequests, hg]) h

theorem miss_of_getPOIRequests (cache : Cache CachedData) (now : ℕ) (lat lng radius : ℚ)
    (h : getPOIRequests cache now lat lng radius ≠ []) :
    truthyCached (getCachedData cache now (poiKey lat lng radius)) = none := by
  cases hg : truthyCached (getCachedData cache now (poiKey lat lng radius)) with
  | none => rfl
  | some d => exact absurd (by simp [getPOIRequests, hg]) h

theorem miss_of_getWeatherDataRequests (cache : Cache CachedData) (now : ℕ) (net : Network)
    (lat lng : ℚ) (h : getWeatherDataRequests cache now net lat lng ≠ []) :
    truthyCached (getCachedData cache now (weatherKey lat lng)) = none := by
  cases hg : truthyCached (getCachedData cache now (weatherKey lat lng)) with
  | none => rfl
  | some d => exact absurd (by simp [getWeatherDataRequests, hg]) h

theorem miss_of_getIndiaDataRequests (cache : Cache CachedData) (now : ℕ) (category : String)
    (h : getIndiaDataRequests cache now category ≠ []) :
    truthyCached (getCachedData cache now (indiaDataKey category)) = none := by
  cases hg : truthyCached (getCachedData cache now (indiaDataKey category)) with
  | none => rfl
  | some d => exact absurd (by simp [getIndiaDataRequests, hg]) h

/-! ## Failing requests (C11) -/

/-- C11: an adapter whose request fails does not raise and returns its
fallback, leaving the cache as it was: `getLocationData` and `getPOI` return an
error marker tagged `source = error`, `getWeatherData` returns the record
temperature 25, humidity 60, airQuality 50, Partly cloudy, precipitation 0 tagged
`source = fallback`, and `getIndiaData` returns the fixed population and state
table tagged `source = fallback`. -/
theorem adapters_fall_back_when_request_fails (cache : Cache CachedData) (now : ℕ)
    (net : Network) (n : Neighborhood) (lat lng radius : ℚ) (category : String) :
    (getLocationDataRequests cache now n ≠ [] → net.location n = .threw →
      getLocationData cache now net n =
        ({ error := some "Location data unavailable", source := some "error" }, cache)) ∧
    (getPOIRequests cache now lat lng radius ≠ [] → net.poi lat lng radius = .threw →
      getPOI cache now net lat lng radius =
        ({ error := some "POI data unavailable", source := some "error" }, cache)) ∧
    (getWeatherDataRequests cache now net lat lng ≠ [] → net.weather lat lng = .threw →
      getWeatherData cache now net lat lng =
        ({ temperature := some 25, humidity := some 60, airQuality := some 50,
           weatherDescription := some "Partly cloudy", precipitation := some 0,
           source := some "fallback", updatedAt := some now }, cache)) ∧
    (getIndiaDataRequests cache now category ≠ [] → net.indiaData = .threw →
      getIndiaData cache now net category =
        ({ totalPopulation := some 1380004385,
           states := [("Maharashtra", 112374333), ("Delhi", 16787941), ("Karnataka", 67562686),
             ("Tamil Nadu", 72147030), ("Gujarat", 60439692), ("Uttar Pradesh", 199812341),
             ("West Bengal", 91276115), ("Telangana", 35193978)],
           category := some category, capital := some "New Delhi", region := some "Asia",
           source := some "fallback", updatedAt := some now }, cache)) := by
  refine ⟨fun h hn => ?_, fun h hn => ?_, fun h hn => ?_, fun h hn => ?_⟩
  · rw [getLocationData_miss _ _ _ _ (miss_of_getLocationDataRequests _ _ _ h), hn]
  · rw [getPOI_miss _ _ _ _ _ _ (miss_of_getPOIRequests _ _ _ _ _ h), hn]
  · rw [getWeatherData_miss _ _ _ _ _ (miss_of_getWeatherDataRequests _ _ _ _ _ h), hn]
    rfl
  · rw [getIndiaData_miss _ _ _ _ (miss_of_getIndiaDataRequests _ _ _ h), hn]
    rfl

/-- With an empty cache and every request failing, the four adapters return
their fallbacks. -/
theorem adapters_fall_back_when_request_fails_witness :
    getLocationData [] 0 Network.allFail osmNeighborhood =
        ({ error := some "Location data unavailable", source := some "error" }, []) ∧
    getPOI [] 0 Network.allFail defaultLat defaultLng 2000 =
        ({ error := some "POI data unavailable", source := some "error" }, []) ∧
    getWeatherData [] 0 Network.allFail defaultLat defaultLng =
        ({ temperature := some 25, humidity := some 60, airQuality := some 50,
           weatherDescription := some "Partly cloudy", precipitation := some 0,
           source := some "fallback", updatedAt := some 0 }, []) ∧
    getIndiaData [] 0 Network.allFail "demographics" =
        ({ totalPopulation := some 1380004385,
           states := [("Maharashtra", 112374333), ("Delhi", 16787941), ("Karnataka", 67562686),
             ("Tamil Nadu", 72147030), ("Gujarat", 60439692), ("Uttar Pradesh", 199812341),
             ("West Bengal", 91276115), ("Telangana", 35193978)],
           category := some "demographics", capital := some "New Delhi", region := some "Asia",
           source := some "fallback", updatedAt := some 0 }, []) :=
  ⟨(adapters_fall_back_when_request_fails [] 0 Network.allFail osmNeighborhood
      defaultLat defaultLng 2000 "demographics").1
      (by simp [getLocationDataRequests, getCachedData, isCacheValid, Cache.find, truthyCached]) rfl,
   (adapters_fall_back_when_request_fails [] 0 Network.allFail osmNeighborhood
      defaultLat defaultLng 2000 "demographics").2.1
      (by simp [getPOIRequests, getCachedData, isCacheValid, Cache.find, truthyCached]) rfl,
   (adapters_fall_back_when_request_fails [] 0 Network.allFail osmNeighborhood
      defaultLat defaultLng 2000 "demographics").2.2.1
      (by simp [getWeatherDataRequests, getCachedData, isCacheValid, Cache.find, Network.allFail,
        truthyCached])
      rfl,
   (adapters_fall_back_when_request_fails [] 0 Network.allFail osmNeighborhood
      defaultLat defaultLng 2000 "demographics").2.2.2
      (by simp [getIndiaDataRequests, getCachedData, isCacheValid, Cache.find, truthyCached]) rfl⟩

/-! ## Cache hits (C12) -/

theorem getLocationData_nil_fst (cache : Cache CachedData) (now : ℕ) (net : Network)
    (n : Neighborhood) (h : truthyCached (getCachedData cache now (locationKey n)) = none) :
    (getLocationData cache now net n).1 = (getLocationData [] now net n).1 ∧
      (getLocationData cache now net n).1.source ≠ some "cache" := by
  rw [getLocationData_miss _ _ _ _ h, getLocationData_miss [] now net n rfl]
  cases hn : net.location n with
  | threw => simp
  | data d =>
    cases d with
    | none => simp
    | some l => cases l <;> simp

theorem getPOI_nil_fst (cache : Cache CachedData) (now : ℕ) (net : Network) (lat lng radius : ℚ)
    (h : truthyCached (getCachedData cache now (poiKey lat lng radius)) = none) :
    (getPOI cache now net lat lng radius).1 = (getPOI [] now net lat lng radius).1 ∧
      (getPOI cache now net lat lng radius).1.source ≠ some "cache" := by
  rw [getPOI_miss _ _ _ _ _ _ h, getPOI_miss [] now net lat lng radius rfl]
  cases hn : net.poi lat lng radius with
  | threw => simp
  | data d => cases d <;> simp

theorem getWeatherData_nil_fst (cache : Cache CachedData) (now : ℕ) (net : Network) (lat lng : ℚ)
    (h : truthyCached (getCachedData cache now (weatherKey lat lng)) = none) :
    (getWeatherData cache now net lat lng).1 = (getWeatherData [] now net lat lng).1 ∧
      (getWeatherData cache now net lat lng).1.source ≠ some "cache" := by
  rw [getWeatherData_miss _ _ _ _ _ h, getWeatherData_miss [] now net lat lng rfl]
  cases hn : net.weather lat lng with
  | threw => simp [weatherFallback]
  | data d => cases d <;> simp [weatherFallback]

theorem getIndiaData_nil_fst (cache : Cache CachedData) (now : ℕ) (net : Network)
    (category : String) (h : truthyCached (getCachedData cache now (indiaDataKey category)) = none) :
    (getIndiaData cache now net category).1 = (getIndiaData [] now net category).1 ∧
      (getIndiaData cache now net category).1.source ≠ some "cache" := by
  rw [getIndiaData_miss _ _ _ _ h, getIndiaData_miss [] now net category rfl]
  cases hn : net.indiaData with
  | threw => simp [indiaFallback]
  | data d =>
    cases d with
    | none => simp [indiaFallback]
    | some l => cases l <;> simp [indiaFallback]

/-- C12 fails for an unexpired entry whose data is `null`: with the weather
entry of `nullDataCache` (expiring at 2000) at time 1000 the cache holds an
unexpired entry under the key of the adapter, yet `getWeatherData` does not
return it tagged `cache`: the test `if (cached)` fails, the adapter schedules
its two requests and answers with the fetched record tagged `weather_api`. -/
theorem getWeatherData_null_entry_is_miss :
    hasUnexpired nullDataCache 1000 (weatherKey (185 / 10) defaultLng) = true ∧
    getWeatherDataRequests nullDataCache 1000 Network.sample (185 / 10) defaultLng =
      [.weather (185 / 10) defaultLng, .airQuality (185 / 10) defaultLng] ∧
    (getWeatherData nullDataCache 1000 Network.sample (185 / 10) defaultLng).1.source =
      some "weather_api" ∧
    (getWeatherData nullDataCache 1000 Network.sample (185 / 10) defaultLng).1.source ≠
      some "cache" ∧
    ¬ (getWeatherDataRequests nullDataCache 1000 Network.sample (185 / 10) defaultLng = [] ↔
        hasUnexpired nullDataCache 1000 (weatherKey (185 / 10) defaultLng) = true) := by
  have hu : hasUnexpired nullDataCache 1000 (weatherKey (185 / 10) defaultLng) = true := by
    simp [hasUnexpired, nullDataCache, Cache.find]
  have hm : truthyCached
      (getCachedData nullDataCache 1000 (weatherKey (185 / 10) defaultLng)) = none := by
    simp [getCachedData, isCacheValid, nullDataCache, Cache.find, truthyCached]
  have hr : getWeatherDataRequests nullDataCache 1000 Network.sample (185 / 10) defaultLng =
      [.weather (185 / 10) defaultLng, .airQuality (185 / 10) defaultLng] := by
    simp [getWeatherDataRequests, hm, Network.sample]
  have hsrc : (getWeatherData nullDataCache 1000 Network.sample (185 / 10) defaultLng).1.source =
      some "weather_api" := by
    rw [getWeatherData_miss _ _ _ _ _ hm]
    simp [Network.sample]
  refine ⟨hu, hr, hsrc, ?_, ?_⟩
  · rw [hsrc]
    simp
  · rw [hr, hu]
    simp

/-- C12 (amended): for each of the four adapters, every cache, time and
upstream: the adapter schedules no request and returns the data of the entry
under its key tagged `source = cache` (leaving the cache as it was) if and only
if the cache holds under that key an unexpired entry whose data is truthy.
Without one (no entry, an entry whose `expiresAt` is not after the current time,
or an entry whose data is `null` or another falsy value) the adapter schedules
its request, and its result is the one it gives with an empty cache, never
tagged `cache`. -/
theorem adapters_cache_hit_iff_cached_object (cache : Cache CachedData) (now : ℕ)
    (net : Network) (n : Neighborhood) (lat lng radius : ℚ) (category : String) :
    ((getLocationDataRequests cache now n = [] ∧
        ∃ entry object, Cache.find cache (locationKey n) = some entry ∧
          entry.data = some object ∧
          getLocationData cache now net n = ({ object with source := some "cache" }, cache)) ↔
      hasCachedObject cache now (locationKey n) = true) ∧
    ((getPOIRequests cache now lat lng radius = [] ∧
        ∃ entry object, Cache.find cache (poiKey lat lng radius) = some entry ∧
          entry.data = some object ∧
          getPOI cache now net lat lng radius =
            ({ object with source := some "cache" }, cache)) ↔
      hasCachedObject cache now (poiKey lat lng radius) = true) ∧
    ((getWeatherDataRequests cache now net lat lng = [] ∧
        ∃ entry object, Cache.find cache (weatherKey lat lng) = some entry ∧
          entry.data = some object ∧
          getWeatherData cache now net lat lng =
            ({ object with source := some "cache" }, cache)) ↔
      hasCachedObject cache now (weatherKey lat lng) = true) ∧
    ((getIndiaDataRequests cache now category = [] ∧
        ∃ entry object, Cache.find cache (indiaDataKey category) = some entry ∧
          entry.data = some object ∧
          getIndiaData cache now net category =
            ({ object with source := some "cache" }, cache)) ↔
      hasCachedObject cache now (indiaDataKey category) = true) ∧
    (hasCachedObject cache now (locationKey n) = false →
      getLocationDataRequests cache now n = [.location (n.name ++ ", " ++ n.city ++ ", India")] ∧
      (getLocationData cache now net n).1 = (getLocationData [] now net n).1 ∧
      (getLocationData cache now net n).1.source ≠ some "cache") ∧
    (hasCachedObject cache now (poiKey lat lng radius) = false →
      getPOIRequests cache now lat lng radius = [.poi lat lng radius] ∧
      (getPOI cache now net lat lng radius).1 = (getPOI [] now net lat lng radius).1 ∧
      (getPOI cache now net lat lng radius).1.source ≠ some "cache") ∧
    (hasCachedObject cache now (weatherKey lat lng) = false →
      (getWeatherDataRequests cache now net lat lng).head? = some (.weather lat lng) ∧
      (getWeatherData cache now net lat lng).1 = (getWeatherData [] now net lat lng).1 ∧
      (getWeatherData cache now net lat lng).1.source ≠ some "cache") ∧
    (hasCachedObject cache now (indiaDataKey category) = false →
      getIndiaDataRequests cache now category = [.indiaData] ∧
      (getIndiaData cache now net category).1 = (getIndiaData [] now net category).1 ∧
      (getIndiaData cache now net category).1.source ≠ some "cache") := by
  refine ⟨⟨fun h => ?_, fun h => ?_⟩, ⟨fun h => ?_, fun h => ?_⟩, ⟨fun h => ?_, fun h => ?_⟩,
    ⟨fun h => ?_, fun h => ?_⟩, fun h => ?_, fun h => ?_, fun h => ?_, fun h => ?_⟩
  · have h1 := h.1
    rw [getLocationDataRequests_eq] at h1
    cases hu : hasCachedObject cache now (locationKey n) with
    | true => rfl
    | false => simp [hu] at h1
  · obtain ⟨entry, object, hf, hd, hg⟩ := getCachedData_of_object _ _ _ h
    exact ⟨by simp [getLocationDataRequests_eq, h], entry, object, hf, hd,
      getLocationData_hit _ _ _ _ _ hg⟩
  · have h1 := h.1
    rw [getPOIRequests_eq] at h1
    cases hu : hasCachedObject cache now (poiKey lat lng radius) with
    | true => rfl
    | false => simp [hu] at h1
  · obtain ⟨entry, object, hf, hd, hg⟩ := getCachedData_of_object _ _ _ h
    exact ⟨by simp [getPOIRequests_eq, h], entry, object, hf, hd,
      getPOI_hit _ _ _ _ _ _ _ hg⟩
  · have h1 := h.1
    rw [getWeatherDataRequests_eq] at h1
    cases hu : hasCachedObject cache now (weatherKey lat lng) with
    | true => rfl
    | false => simp [hu] at h1
  · obtain ⟨entry, object, hf, hd, hg⟩ := getCachedData_of_object _ _ _ h
    exact ⟨by simp [getWeatherDataRequests_eq, h], entry, object, hf, hd,
      getWeatherData_hit _ _ _ _ _ _ hg⟩
  · have h1 := h.1
    rw [getIndiaDataRequests_eq] at h1
    cases hu : hasCachedObject cache now (indiaDataKey category) with
    | true => rfl
    | false => simp [hu] at h1
  · obtain ⟨entry, object, hf, hd, hg⟩ := getCachedData_of_object _ _ _ h
    exact ⟨by simp [getIndiaDataRequests_eq, h], entry, object, hf, hd,
      getIndiaData_hit _ _ _ _ _ hg⟩
  · exact ⟨by simp [getLocationDataRequests_eq, h],
      getLocationData_nil_fst _ _ _ _ (truthyCached_of_no_object _ _ _ h)⟩
  · exact ⟨by simp [getPOIRequests_eq, h],
      getPOI_nil_fst _ _ _ _ _ _ (truthyCached_of_no_object _ _ _ h)⟩
  · exact ⟨by simp [getWeatherDataRequests_eq, h],
      getWeatherData_nil_fst _ _ _ _ _ (truthyCached_of_no_object _ _ _ h)⟩
  · exact ⟨by simp [getIndiaDataRequests_eq, h],
      getIndiaData_nil_fst _ _ _ _ (truthyCached_of_no_object _ _ _ h)⟩

/-- The weather entry of `staleCache` expired at 500 and holds an object: at time
1000 the adapter schedules the forecast request and answers as with an empty
cache, at time 100 it schedules nothing and returns the entry tagged `cache`. -/
theorem adapters_cache_hit_iff_cached_object_witness :
    (hasCachedObject staleCache 1000 (weatherKey (185 / 10) defaultLng) = false ∧
      (getWeatherDataRequests staleCache 1000 Network.sample (185 / 10) defaultLng).head? =
        some (.weather (185 / 10) defaultLng) ∧
      (getWeatherData staleCache 1000 Network.sample (185 / 10) defaultLng).1 =
        (getWeatherData [] 1000 Network.sample (185 / 10) defaultLng).1 ∧
      (getWeatherData staleCache 1000 Network.sample (185 / 10) defaultLng).1.source ≠
        some "cache") ∧
    (hasCachedObject staleCache 100 (weatherKey (185 / 10) defaultLng) = true ∧
      getWeatherDataRequests staleCache 100 Network.sample (185 / 10) defaultLng = [] ∧
      ∃ entry object, Cache.find staleCache (weatherKey (185 / 10) defaultLng) = some entry ∧
        entry.data = some object ∧
        getWeatherData staleCache 100 Network.sample (185 / 10) defaultLng =
          ({ object with source := some "cache" }, staleCache)) :=
  have hs : hasCachedObject staleCache 1000 (weatherKey (185 / 10) defaultLng) = false := by
    simp [hasCachedObject, hasUnexpired, staleCache, Cache.find]
  have ht : hasCachedObject staleCache 100 (weatherKey (185 / 10) defaultLng) = true := by
    simp [hasCachedObject, hasUnexpired, staleCache, Cache.find]
  ⟨⟨hs, (adapters_cache_hit_iff_cached_object staleCache 1000 Network.sample osmNeighborhood
      (185 / 10) defaultLng 2000 "demographics").2.2.2.2.2.2.1 hs⟩,
   ⟨ht, (adapters_cache_hit_iff_cached_object staleCache 100 Network.sample osmNeighborhood
      (185 / 10) defaultLng 2000 "demographics").2.2.1.mpr ht⟩⟩

/-! ## Successful fetches (C19) -/

theorem getWeatherDescription_slight_rain : getWeatherDescription (some 61) = "Slight rain" :=
  rfl

/-- C19 fails for the weather adapter: on an empty cache, with an upstream where
every request succeeds, `getWeatherData` schedules its two requests and returns
the normalized record tagged `source = weather_api`, not `api`. -/
theorem getWeatherData_fetch_not_tagged_api :
    getWeatherDataRequests [] 0 Network.sample (185 / 10) defaultLng =
      [.weather (185 / 10) defaultLng, .airQuality (185 / 10) defaultLng] ∧
    (getWeatherData [] 0 Network.sample (185 / 10) defaultLng).1 =
      { temperature := some 30, humidity := some 70, airQuality := some 42,
        weatherDescription := some "Slight rain", precipitation := some 2,
        source := some "weather_api", updatedAt := some 0 } ∧
    (getWeatherData [] 0 Network.sample (185 / 10) defaultLng).1.source ≠ some "api" := by
  have hm : truthyCached
      (getCachedData ([] : Cache CachedData) 0 (weatherKey (185 / 10) defaultLng)) = none := by
    simp [getCachedData, isCacheValid, Cache.find, truthyCached]
  refine ⟨?_, ?_, ?_⟩
  · simp [getWeatherDataRequests, hm, Network.sample]
  · rw [getWeatherData_miss _ _ _ _ _ hm]
    norm_num [Network.sample, weatherPayload, orElse, getWeatherDescription_slight_rain]
  · rw [getWeatherData_miss _ _ _ _ _ hm]
    simp [Network.sample]

/-- C19 (amended): on a cache miss, a fetch that yields an answer returns the
normalized payload and writes it to the cache under the adapter's key with the
adapter's lifetime. `getLocationData` (first element of a non-empty answer),
`getPOI` and `getIndiaData` (first element of a non-empty answer) tag the result
`source = api`; `getWeatherData` tags it `source = weather_api`, whatever came of
the air-quality request. -/
theorem adapters_fetch_success (cache : Cache CachedData) (now : ℕ) (net : Network)
    (n : Neighborhood) (lat lng radius : ℚ) (category : String) :
    (hasCachedObject cache now (locationKey n) = false →
      ∀ location rest, net.location n = .data (some (location :: rest)) →
        getLocationData cache now net n =
          ({ locationPayload now location with source := some "api" },
            setCacheData cache now (locationKey n) (some (locationPayload now location))
              CACHE_CONFIG.infrastructure)) ∧
    (hasCachedObject cache now (poiKey lat lng radius) = false →
      ∀ data, net.poi lat lng radius = .data (some data) →
        getPOI cache now net lat lng radius =
          ({ poiPayload now data with source := some "api" },
            setCacheData cache now (poiKey lat lng radius) (some (poiPayload now data))
              CACHE_CONFIG.poi)) ∧
    (hasCachedObject cache now (weatherKey lat lng) = false →
      ∀ weatherData, net.weather lat lng = .data (some weatherData) →
        ∃ airQualityData,
          airQualityData =
            (match net.airQuality lat lng with
              | .threw => none
              | .data d => d) ∧
          getWeatherData cache now net lat lng =
            ({ weatherPayload now weatherData airQualityData with source := some "weather_api" },
              setCacheData cache now (weatherKey lat lng)
                (some (weatherPayload now weatherData airQualityData))
                CACHE_CONFIG.infrastructure)) ∧
    (hasCachedObject cache now (indiaDataKey category) = false →
      ∀ indiaData rest, net.indiaData = .data (some (indiaData :: rest)) →
        getIndiaData cache now net category =
          ({ indiaPayload now category indiaData with source := some "api" },
            setCacheData cache now (indiaDataKey category)
              (some (indiaPayload now category indiaData)) CACHE_CONFIG.demographics)) := by
  refine ⟨fun h location rest hn => ?_, fun h data hn => ?_, fun h weatherData hn => ?_,
    fun h indiaData rest hn => ?_⟩
  · rw [getLocationData_miss _ _ _ _ (truthyCached_of_no_object _ _ _ h), hn]
  · rw [getPOI_miss _ _ _ _ _ _ (truthyCached_of_no_object _ _ _ h), hn]
  · refine ⟨_, rfl, ?_⟩
    rw [getWeatherData_miss _ _ _ _ _ (truthyCached_of_no_object _ _ _ h), hn]
  · rw [getIndiaData_miss _ _ _ _ (truthyCached_of_no_object _ _ _ h), hn]

/-- With an empty cache and an upstream where every request succeeds, the
location and demographics adapters return the payload of the first element
tagged `api` and cache it. -/
theorem adapters_fetch_success_witness :
    getLocationData [] 0 Network.sample osmNeighborhood =
      ({ locationPayload 0 { lat := some (185 / 10), lon := some (738 / 10),
                             display_name := some "Kothrud, Pune" } with source := some "api" },
        setCacheData [] 0 (locationKey osmNeighborhood)
          (some (locationPayload 0 { lat := some (185 / 10), lon := some (738 / 10),
                                     display_name := some "Kothrud, Pune" }))
          CACHE_CONFIG.infrastructure) ∧
    getIndiaData [] 0 Network.sample "demographics" =
      ({ indiaPayload 0 "demographics" { population := some 1400000000,
                                         capital := some "New Delhi", region := some "Asia" } with
           source := some "api" },
        setCacheData [] 0 (indiaDataKey "demographics")
          (some (indiaPayload 0 "demographics" { population := some 1400000000,
                                                 capital := some "New Delhi",
                                                 region := some "Asia" }))
          CACHE_CONFIG.demographics) :=
  ⟨(adapters_fetch_success [] 0 Network.sample osmNeighborhood (185 / 10) defaultLng 2000
      "demographics").1 (by simp [hasCachedObject, hasUnexpired, Cache.find]) _ [] rfl,
   (adapters_fetch_success [] 0 Network.sample osmNeighborhood (185 / 10) defaultLng 2000
      "demographics").2.2.2 (by simp [hasCachedObject, hasUnexpired, Cache.find]) _ [] rfl⟩

/-! ## makeApiRequest (C20) -/

/-- The run of `makeApiRequest` with the default `retries = 2`, by what the
first and the second call of `axios` come to. -/
theorem makeApiRequest_eq {ε α : Type} (axios : ℕ → AxiosResult ε α) :
    makeApiRequest axios =
      match axios 1 with
      | .resolved data => (.returned data, [.attempt 1])
      | .rejected _ =>
        match axios 2 with
        | .resolved data => (.returned data, [.attempt 1, .wait 1000, .attempt 2])
        | .rejected error => (.threw error, [.attempt 1, .wait 1000, .attempt 2]) := by
  unfold makeApiRequest
  cases h1 : axios 1 with
  | resolved d => simp [makeApiRequestLoop, h1]
  | rejected e1 =>
    cases h2 : axios 2 with
    | resolved d => simp [makeApiRequestLoop, h1, h2]
    | rejected e2 => simp [makeApiRequestLoop, h1, h2]

/-- C20: `makeApiRequest` with its default retry count calls `axios` at most
twice. It returns the data of the first call when that one resolves; otherwise it
waits 1000 ms (1000 times the attempt number 1), calls again, and returns the data
of the second call when that one resolves. It throws exactly when both calls
reject, and the error thrown is the one of the second call. -/
theorem makeApiRequest_default_two_attempts {ε α : Type} (axios : ℕ → AxiosResult ε α) :
    (makeApiRequest axios =
      match axios 1 with
      | .resolved data => (.returned data, [.attempt 1])
      | .rejected _ =>
        match axios 2 with
        | .resolved data => (.returned data, [.attempt 1, .wait 1000, .attempt 2])
        | .rejected error => (.threw error, [.attempt 1, .wait 1000, .attempt 2])) ∧
    attemptsMade (makeApiRequest axios).2 ≤ 2 ∧
    (∀ error, (makeApiRequest axios).1 = .threw error ↔
      (∃ first, axios 1 = .rejected first) ∧ axios 2 = .rejected error) ∧
    (makeApiRequest axios).1 ≠ .returnedUndefined := by
  refine ⟨makeApiRequest_eq axios, ?_, ?_, ?_⟩
  · rw [makeApiRequest_eq]
    cases h1 : axios 1 with
    | resolved d => simp [attemptsMade]
    | rejected e1 => cases h2 : axios 2 <;> simp [attemptsMade]
  · intro error
    rw [makeApiRequest_eq]
    cases h1 : axios 1 with
    | resolved d => simp
    | rejected e1 => cases h2 : axios 2 <;> simp
  · rw [makeApiRequest_eq]
    cases h1 : axios 1 with
    | resolved d => simp
    | rejected e1 => cases h2 : axios 2 <;> simp

/-! ## The contributions (C15) -/

theorem contributions_map (u v : Factor → ℚ) :
    contributions (factors.map u) (factors.map v) =
      factors.map (fun f =>
        { factor := f, user := u f, neighborhood := v f, product := u f * v f }) := by
  simp [contributions, factors]

theorem sum_products_contributions (u v : Factor → ℚ) :
    ((contributions (factors.map u) (factors.map v)).map (fun c => c.product)).sum =
      dotProduct (factors.map u) (factors.map v) := by
  rw [contributions_map, dotProduct_map, sum_factor]
  simp [factors]
  ring

/-- C15: for a user who rates every factor (with a non-zero rating `r f`), every
object `findBestMatches` returns carries a `contributions` list with exactly one
entry per factor, in the order safety, walkability, healthcare, fastInternet,
affordability, restaurants, publicTransport, parksGreenery, where
`user = weight * 2 * rating`, `neighborhood = weight * feature value` and
`product = user * neighborhood`; the products sum to the dot product of the two
weighted vectors, which is the numerator of the similarity. -/
theorem findBestMatches_contributions (e : Neighborhood → Enriched) (rnd : ℕ → ℕ)
    (p : UserPreferences) (pool : List Neighborhood) (k : ℕ) (rt : Bool) (res : MatchResult)
    (r : Factor → ℚ) (hp : ∀ f, p f = some (r f)) (hr : ∀ f, r f ≠ 0)
    (hres : res ∈ findBestMatches e rnd p pool k rt) :
    res.contributions =
      [.safety, .walkability, .healthcare, .fastInternet, .affordability, .restaurants,
        .publicTransport, .parksGreenery].map (fun f =>
          { factor := f,
            user := factorWeights f * 2 * r f,
            neighborhood := factorWeights f * res.features.get f,
            product := (factorWeights f * 2 * r f) * (factorWeights f * res.features.get f) }) ∧
    (res.contributions.map (fun c => c.product)).sum =
      dotProduct (weightedUserScores p) (weightedNeighborhoodScores res.features) ∧
    ((magnitude (weightedUserScores p)).truthy = true →
      (magnitude (weightedNeighborhoodScores res.features)).truthy = true →
      similarity p res.features =
        (Surd.ofRat ((res.contributions.map (fun c => c.product)).sum)).div
          ((magnitude (weightedUserScores p)).mul
            (magnitude (weightedNeighborhoodScores res.features)))) := by
  obtain ⟨n, ft, rfl⟩ := exists_of_mem_findBestMatches hres
  have hc : (scoreNeighborhood p n ft).contributions =
      contributions (factors.map (userWeighted p)) (factors.map (neighborhoodWeighted ft)) := by
    rw [← weightedUserScores_eq, ← weightedNeighborhoodScores_eq]
    rfl
  have hsum : ((scoreNeighborhood p n ft).contributions.map (fun c => c.product)).sum =
      dotProduct (weightedUserScores p) (weightedNeighborhoodScores ft) := by
    rw [hc, sum_products_contributions, weightedUserScores_eq, weightedNeighborhoodScores_eq]
  refine ⟨?_, hsum, fun h1 h2 => ?_⟩
  · rw [hc, contributions_map, scoreNeighborhood_features]
    apply List.map_congr_left
    intro f _
    rw [userWeighted_of_rating hp hr]
    unfold neighborhoodWeighted
    congr 1 <;> ring
  · rw [scoreNeighborhood_features] at h2
    rw [hsum, scoreNeighborhood_features]
    unfold similarity
    simp [h1, h2]

/-- The contributions of the spec's scenario candidate for the spec's scenario
user, in a static match over the pool of that one candidate. -/
theorem findBestMatches_contributions_witness :
    (scoreNeighborhood safetyFirstPrefs scenarioNeighborhood
        (staticFeatures scenarioNeighborhood)).contributions =
      [.safety, .walkability, .healthcare, .fastInternet, .affordability, .restaurants,
        .publicTransport, .parksGreenery].map (fun f =>
          { factor := f,
            user := factorWeights f * 2 * safetyFirstRatings f,
            neighborhood := factorWeights f *
              (scoreNeighborhood safetyFirstPrefs scenarioNeighborhood
                (staticFeatures scenarioNeighborhood)).features.get f,
            product := (factorWeights f * 2 * safetyFirstRatings f) *
              (factorWeights f *
                (scoreNeighborhood safetyFirstPrefs scenarioNeighborhood
                  (staticFeatures scenarioNeighborhood)).features.get f) }) ∧
    ((scoreNeighborhood safetyFirstPrefs scenarioNeighborhood
        (staticFeatures scenarioNeighborhood)).contributions.map (fun c => c.product)).sum =
      dotProduct (weightedUserScores safetyFirstPrefs)
        (weightedNeighborhoodScores
          (scoreNeighborhood safetyFirstPrefs scenarioNeighborhood
            (staticFeatures scenarioNeighborhood)).features) :=
  have h := findBestMatches_contributions (offlineEnrich 0) (fun _ => 0) safetyFirstPrefs
    [scenarioNeighborhood] 5 false
    (scoreNeighborhood safetyFirstPrefs scenarioNeighborhood (staticFeatures scenarioNeighborhood))
    safetyFirstRatings (by intro f; cases f <;> rfl)
    (by intro f; cases f <;> norm_num [safetyFirstRatings])
    (by rw [findBestMatches_static_single]; exact List.mem_singleton_self _)
  ⟨h.1, h.2.1⟩

/-! ## The weights (C16) -/

theorem responseWeights_eq : responseWeights = factorWeights := by
  funext f
  cases f <;> rfl

theorem postMatch_weights (allNeighborhoods staticNeighborhoods : List Neighborhood)
    (e : Neighborhood → Enriched) (rnd : ℕ → ℕ) (req : MatchRequest) :
    (postMatch allNeighborhoods staticNeighborhoods e rnd req).weights = none ∨
      (postMatch allNeighborhoods staticNeighborhoods e rnd req).weights = some responseWeights := by
  unfold postMatch
  dsimp only
  split
  · left; rfl
  · split
    · left; rfl
    · right; rfl

/-- C16: the weights `findBestMatches` uses are safety .22, walkability .18,
healthcare .18, fastInternet .16, affordability .12, restaurants .06,
publicTransport .04, parksGreenery .04; they sum to exactly 1; and the `weights`
of every `/match` answer that carries them are these same weights. -/
theorem factorWeights_values_sum_reported (allNeighborhoods staticNeighborhoods : List Neighborhood)
    (e : Neighborhood → Enriched) (rnd : ℕ → ℕ) (req : MatchRequest) :
    (factorWeights .safety = 22 / 100 ∧ factorWeights .walkability = 18 / 100 ∧
      factorWeights .healthcare = 18 / 100 ∧ factorWeights .fastInternet = 16 / 100 ∧
      factorWeights .affordability = 12 / 100 ∧ factorWeights .restaurants = 6 / 100 ∧
      factorWeights .publicTransport = 4 / 100 ∧ factorWeights .parksGreenery = 4 / 100) ∧
    ∑ f : Factor, factorWeights f = 1 ∧
    (weightedUserScores req.userPrefs =
        factors.map (fun f => orElse (req.userPrefs f) 3 * 2 * factorWeights f) ∧
      ∀ features, weightedNeighborhoodScores features =
        factors.map (fun f => features.get f * factorWeights f)) ∧
    (∀ w, (postMatch allNeighborhoods staticNeighborhoods e rnd req).weights = some w →
      w = factorWeights) := by
  refine ⟨⟨rfl, rfl, rfl, rfl, rfl, rfl, rfl, rfl⟩, ?_, ⟨?_, fun features => ?_⟩, fun w hw => ?_⟩
  · rw [sum_factor]
    norm_num [factorWeights]
  · exact weightedUserScores_eq req.userPrefs
  · exact weightedNeighborhoodScores_eq features
  · rcases postMatch_weights allNeighborhoods staticNeighborhoods e rnd req with h | h
    · rw [h] at hw
      exact absurd hw (by simp)
    · rw [h, Option.some.injEq] at hw
      rw [← hw, responseWeights_eq]

/-- The answer to `realtimeRequest` over a pool of one candidate reports
`responseWeights`, which are the weights of `findBestMatches`. -/
theorem factorWeights_values_sum_reported_witness :
    (postMatch [osmNeighborhood] [] (offlineEnrich 0) (fun _ => 0) realtimeRequest).weights =
        some responseWeights ∧
      responseWeights = factorWeights :=
  have hw : (postMatch [osmNeighborhood] [] (offlineEnrich 0) (fun _ => 0)
      realtimeRequest).weights = some responseWeights := by
    rw [postMatch_realtimeRequest_single]
    rfl
  ⟨hw, (factorWeights_values_sum_reported [osmNeighborhood] [] (offlineEnrich 0) (fun _ => 0)
    realtimeRequest).2.2.2 responseWeights hw⟩

/-! ## The safety rule (C17) -/

theorem poiCount_eq_specCount (apiData : ApiData) (field : ApiObject → Option ℚ) :
    poiCount apiData field = specCount apiData.poi field := by
  unfold poiCount specCount usable
  cases apiData.poi with
  | none => rfl
  | some result =>
    by_cases he : truthyStr result.error = true
    · simp [he]
    · simp only [he]
      cases hf : field result with
      | none => simp [orElse, hf]
      | some v =>
        by_cases hv : v = 0
        · simp [orElse, hf, hv]
        · simp [orElse, hf, hv]

theorem heavyRain_iff (apiData : ApiData) :
    heavyRain apiData = true ↔
      ∃ weather x, apiData.weather = some weather ∧ truthyStr weather.error = false ∧
        weather.precipitation = some x ∧ 30 < x := by
  unfold heavyRain usable
  cases apiData.weather with
  | none => simp
  | some weather =>
    by_cases he : truthyStr weather.error = true
    · simp [he]
    · cases hx : weather.precipitation with
      | none => simp [he, gtNum, hx]
      | some x => simp [he, gtNum, hx]

/-- C17: for all collected results, with `p` the police count of the POI result
(0 when the field is absent, the result is an error or missing) and the
precipitation rule firing exactly when a weather result without error reports a
precipitation above 30: the safety of `updateNeighborhoodData` is 7 when `p` is
not positive and `min(10, 5 + p)` when it is, and the precipitation rule is
applied to that value afterwards, giving `max(2, safety - 2)`. -/
theorem safety_police_override_then_precipitation (n : Neighborhood) (apiData : ApiData) :
    (heavyRain apiData = true ↔
      ∃ weather x, apiData.weather = some weather ∧ truthyStr weather.error = false ∧
        weather.precipitation = some x ∧ 30 < x) ∧
    (¬ 0 < specCount apiData.poi (fun poi => poi.police) → heavyRain apiData = false →
      (deriveFromApiData n apiData).features.safety = 7) ∧
    (0 < specCount apiData.poi (fun poi => poi.police) → heavyRain apiData = false →
      (deriveFromApiData n apiData).features.safety =
        min 10 (5 + specCount apiData.poi (fun poi => poi.police))) ∧
    (¬ 0 < specCount apiData.poi (fun poi => poi.police) → heavyRain apiData = true →
      (deriveFromApiData n apiData).features.safety = max 2 (7 - 2)) ∧
    (0 < specCount apiData.poi (fun poi => poi.police) → heavyRain apiData = true →
      (deriveFromApiData n apiData).features.safety =
        max 2 (min 10 (5 + specCount apiData.poi (fun poi => poi.police)) - 2)) := by
  have hs : (deriveFromApiData n apiData).features.safety = safetyOf apiData := rfl
  have hc : policeCount apiData = specCount apiData.poi (fun poi => poi.police) :=
    poiCount_eq_specCount apiData _
  rw [hs, ← hc]
  unfold safetyOf
  refine ⟨heavyRain_iff apiData, fun hp hr => ?_, fun hp hr => ?_, fun hp hr => ?_,
    fun hp hr => ?_⟩
  · simp [hp, hr]
  · simp [hp, hr]
  · simp [hp, hr]
  · simp [hp, hr]

/-- With 10 police venues and 40 mm of precipitation the safety is 8: the
override gives min(10, 15) = 10 and the precipitation rule then lowers it by 2. -/
theorem safety_police_override_then_precipitation_witness :
    (deriveFromApiData osmNeighborhood policedRainyApiData).features.safety =
        max 2 (min 10 (5 + specCount policedRainyApiData.poi (fun poi => poi.police)) - 2) ∧
      max 2 (min 10 (5 + specCount policedRainyApiData.poi (fun poi => poi.police)) - 2) =
        (8 : ℚ) :=
  ⟨(safety_police_override_then_precipitation osmNeighborhood policedRainyApiData).2.2.2.2
      (by norm_num [specCount, policedRainyApiData, truthyStr])
      (by norm_num [heavyRain, usable, policedRainyApiData, truthyStr, gtNum]),
    by norm_num [specCount, policedRainyApiData, truthyStr]⟩

/-! ## The count rules (C18) -/

/-- C18 fails for a negative count: for a POI record with `hospitals = -3` the
count is -3 and `min(10, 5 + count)` is 2, but `updateNeighborhoodData` keeps
healthcare at 5, because the healthcare rule only fires for a positive count. -/
theorem healthcare_negative_count_keeps_five :
    specCount negativeHospitalsApiData.poi (fun poi => poi.hospitals) = -3 ∧
    (deriveFromApiData osmNeighborhood negativeHospitalsApiData).features.healthcare = 5 ∧
    min 10 (5 + specCount negativeHospitalsApiData.poi (fun poi => poi.hospitals)) = (2 : ℚ) ∧
    (deriveFromApiData osmNeighborhood negativeHospitalsApiData).features.healthcare ≠
      min 10 (5 + specCount negativeHospitalsApiData.poi (fun poi => poi.hospitals)) := by
  have hc : specCount negativeHospitalsApiData.poi (fun poi => poi.hospitals) = -3 := by
    norm_num [specCount, negativeHospitalsApiData, truthyStr]
  have hh : (deriveFromApiData osmNeighborhood negativeHospitalsApiData).features.healthcare =
      5 := by
    show healthcareOf negativeHospitalsApiData = 5
    norm_num [healthcareOf, hospitalCount, poiCount, usable, negativeHospitalsApiData, truthyStr,
      orElse]
  refine ⟨hc, hh, ?_, ?_⟩
  · rw [hc]
    norm_num
  · rw [hc, hh]
    norm_num

/-- C18 (amended): for all collected results, with the count of a field read off
the POI result (0 when the field is absent, the result is an error or missing):
restaurants, publicTransport and parksGreenery equal `min(10, 5 + count)` for the
fields restaurants, transport and parks; healthcare is `min(10, 5 + count)` when
the hospitals count is positive and 5 otherwise, so it equals `min(10, 5 + count)`
for every count that is not negative; and a POI result `{}` leaves walkability,
healthcare, restaurants, publicTransport and parksGreenery at 5.
`deriveFromApiData` is total: no input makes it fail. -/
theorem count_rules_of_poi (n : Neighborhood) (apiData : ApiData) :
    (0 ≤ specCount apiData.poi (fun poi => poi.hospitals) →
      (deriveFromApiData n apiData).features.healthcare =
        min 10 (5 + specCount apiData.poi (fun poi => poi.hospitals))) ∧
    (deriveFromApiData n apiData).features.healthcare =
      (if 0 < specCount apiData.poi (fun poi => poi.hospitals) then
        min 10 (5 + specCount apiData.poi (fun poi => poi.hospitals)) else 5) ∧
    (deriveFromApiData n apiData).features.restaurants =
      min 10 (5 + specCount apiData.poi (fun poi => poi.restaurants)) ∧
    (deriveFromApiData n apiData).features.publicTransport =
      min 10 (5 + specCount apiData.poi (fun poi => poi.transport)) ∧
    (deriveFromApiData n apiData).features.parksGreenery =
      min 10 (5 + specCount apiData.poi (fun poi => poi.parks)) ∧
    (apiData.poi = some {} →
      (deriveFromApiData n apiData).features.walkability = 5 ∧
      (deriveFromApiData n apiData).features.healthcare = 5 ∧
      (deriveFromApiData n apiData).features.restaurants = 5 ∧
      (deriveFromApiData n apiData).features.publicTransport = 5 ∧
      (deriveFromApiData n apiData).features.parksGreenery = 5) := by
  have hh : hospitalCount apiData = specCount apiData.poi (fun poi => poi.hospitals) :=
    poiCount_eq_specCount apiData _
  have hr : restaurantCount apiData = specCount apiData.poi (fun poi => poi.restaurants) :=
    poiCount_eq_specCount apiData _
  have ht : transportCount apiData = specCount apiData.poi (fun poi => poi.transport) :=
    poiCount_eq_specCount apiData _
  have hk : parkCount apiData = specCount apiData.poi (fun poi => poi.parks) :=
    poiCount_eq_specCount apiData _
  have e1 : (deriveFromApiData n apiData).features.healthcare = healthcareOf apiData := rfl
  have e2 : (deriveFromApiData n apiData).features.restaurants = restaurantsOf apiData := rfl
  have e3 : (deriveFromApiData n apiData).features.publicTransport =
      publicTransportOf apiData := rfl
  have e4 : (deriveFromApiData n apiData).features.parksGreenery = parksGreeneryOf apiData := rfl
  have e5 : (deriveFromApiData n apiData).features.walkability = walkabilityOf apiData := rfl
  rw [e1, e2, e3, e4, e5]
  unfold healthcareOf restaurantsOf publicTransportOf parksGreeneryOf
  rw [hh, hr, ht, hk]
  refine ⟨fun h0 => ?_, rfl, rfl, rfl, rfl, fun hp => ?_⟩
  · rcases lt_or_eq_of_le h0 with h | h
    · simp [h]
    · norm_num [← h]
  · rw [hp]
    norm_num [specCount, truthyStr, walkabilityOf, footwayCount, usable, hp, truthyNum]

/-- A POI result `{}` leaves the five count-based features at 5, and its
hospitals count 0 gives healthcare min(10, 5 + 0). -/
theorem count_rules_of_poi_witness :
    ((deriveFromApiData osmNeighborhood emptyPoiApiData).features.walkability = 5 ∧
      (deriveFromApiData osmNeighborhood emptyPoiApiData).features.healthcare = 5 ∧
      (deriveFromApiData osmNeighborhood emptyPoiApiData).features.restaurants = 5 ∧
      (deriveFromApiData osmNeighborhood emptyPoiApiData).features.publicTransport = 5 ∧
      (deriveFromApiData osmNeighborhood emptyPoiApiData).features.parksGreenery = 5) ∧
    (deriveFromApiData osmNeighborhood emptyPoiApiData).features.healthcare =
      min 10 (5 + specCount emptyPoiApiData.poi (fun poi => poi.hospitals)) :=
  ⟨(count_rules_of_poi osmNeighborhood emptyPoiApiData).2.2.2.2.2 rfl,
   (count_rules_of_poi osmNeighborhood emptyPoiApiData).1
     (by norm_num [specCount, emptyPoiApiData, truthyStr])⟩

/-! ## The pool of a static match (C13) -/

/-- In both modes only the first 20 entries of the (shuffled) pool are scored;
with `useRealTimeData` false the rest of the pool has no effect on the result. -/
theorem findBestMatches_static_take (e : Neighborhood → Enriched) (rnd : ℕ → ℕ)
    (p : UserPreferences) (pool : List Neighborhood) (k : ℕ) :
    findBestMatches e rnd p pool k false = findBestMatches e rnd p (pool.take 20) k false := by
  simp [findBestMatches, List.take_take]

theorem safetyFirst_bare_similarity :
    similarity safetyFirstPrefs (staticFeatures bareNeighborhood) =
      { coeff := 72775 / 508816, radicand := 508816 / 15625 } := by
  norm_num [similarity, magnitude, Surd.sqrt, Surd.mul, Surd.div, Surd.ofRat, Surd.truthy,
    dotProduct, sumSquares, weightedUserScores, weightedNeighborhoodScores, weighted, userScores,
    neighborhoodScores, factors, factorWeights, staticFeatures, bareNeighborhood, safetyFirstPrefs,
    plainNeighborhood, orElse, Features.get]

theorem safetyFirst_bare_rounded :
    (similarity safetyFirstPrefs (staticFeatures bareNeighborhood)).toFixed3 = 102 / 125 := by
  rw [safetyFirst_bare_similarity,
    toFixed3_eq_of_bounds _ 816 (Or.inr (by norm_num [abs_of_pos])) (by norm_num [abs_of_pos])]
  norm_num

theorem sortBySimilarity_replicate (m : ℕ) (x : MatchResult) :
    sortBySimilarity (List.replicate m x) = List.replicate m x := by
  unfold sortBySimilarity
  apply List.Sorted.insertionSort_eq
  unfold List.Sorted
  rw [List.pairwise_replicate]
  exact Or.inr (le_refl x.similarity)

/-- C13 fails on the code: in a static match over a pool of 21 candidates, the
21st candidate (similarity 1, the highest of the pool) is dropped before ranking,
and the answer is five copies of a candidate of similarity 0.816. -/
theorem findBestMatches_static_drops_beyond_twenty :
    crowdedPool.length = 21 ∧
    scenarioNeighborhood ∈ crowdedPool ∧
    (scoreNeighborhood safetyFirstPrefs scenarioNeighborhood
      (staticFeatures scenarioNeighborhood)).similarity = 1 ∧
    (scoreNeighborhood safetyFirstPrefs bareNeighborhood
      (staticFeatures bareNeighborhood)).similarity = 816 / 1000 ∧
    findBestMatches (offlineEnrich 0) (fun _ => 0) safetyFirstPrefs crowdedPool 5 false =
      List.replicate 5
        (scoreNeighborhood safetyFirstPrefs bareNeighborhood (staticFeatures bareNeighborhood)) ∧
    (findBestMatches (offlineEnrich 0) (fun _ => 0) safetyFirstPrefs crowdedPool 5 false).map
      (fun r => r.neighborhood.name) = ["Bare", "Bare", "Bare", "Bare", "Bare"] := by
  have hfind : findBestMatches (offlineEnrich 0) (fun _ => 0) safetyFirstPrefs crowdedPool 5 false =
      List.replicate 5
        (scoreNeighborhood safetyFirstPrefs bareNeighborhood (staticFeatures bareNeighborhood)) := by
    unfold findBestMatches crowdedPool
    simp only [Bool.false_eq_true, if_false]
    rw [List.take_left' (List.length_replicate 20 bareNeighborhood), List.map_replicate,
      sortBySimilarity_replicate, List.take_replicate]
    rfl
  refine ⟨by simp [crowdedPool], by simp [crowdedPool], twin_similarity _ rfl, ?_, hfind, ?_⟩
  · rw [scoreNeighborhood_similarity, safetyFirst_bare_rounded]
    norm_num
  · rw [hfind]
    rfl

/-! ## The features of a static match (C14) -/

/-- The static feature value of a factor: the candidate's own attribute when it
is there and not 0; otherwise 7 for safety, 8 for fastInternet and 5 for the
other factors. -/
theorem staticFeatures_get (n : Neighborhood) (f : Factor) :
    (staticFeatures n).get f =
      match n.attr f with
      | some v =>
        if v = 0 then
          (match f with
            | .safety => 7
            | .fastInternet => 8
            | _ => 5)
        else v
      | none =>
        match f with
        | .safety => 7
        | .fastInternet => 8
        | _ => 5 := by
  cases f <;> simp only [staticFeatures, Features.get, orElse]

/-- C14 fails on the code: a static candidate whose own safety attribute is 0 is
ranked with the safety value 7, the baseline, and not with its own value. -/
theorem findBestMatches_static_zero_attribute_replaced :
    zeroSafetyNeighborhood.attr .safety = some 0 ∧
    (findBestMatches (offlineEnrich 0) (fun _ => 0) safetyFirstPrefs [zeroSafetyNeighborhood] 5
      false).map (fun r => r.features.get .safety) = [7] ∧
    (findBestMatches (offlineEnrich 0) (fun _ => 0) safetyFirstPrefs [zeroSafetyNeighborhood] 5
      false).map (fun r => (r.contributions.map (fun c => c.neighborhood)).head?) =
        [some (7 * (22 / 100))] := by
  refine ⟨rfl, ?_, ?_⟩
  · rw [findBestMatches_static_single]
    norm_num [scoreNeighborhood, staticFeatures, Features.get, zeroSafetyNeighborhood,
      plainNeighborhood, orElse]
  · rw [findBestMatches_static_single]
    norm_num [scoreNeighborhood, staticFeatures, Features.get, zeroSafetyNeighborhood,
      plainNeighborhood, orElse, contributions, factors, weightedNeighborhoodScores, weighted,
      neighborhoodScores, weightedUserScores, userScores, factorWeights]

/-! ## The requests of a cache miss (C21) -/

/-- C21 fails for the weather adapter: on an empty cache, with an upstream where
every request succeeds, `getWeatherData` schedules two requests before it
returns, the forecast request and the air-quality request. -/
theorem getWeatherData_miss_two_requests :
    hasUnexpired ([] : Cache CachedData) 0 (weatherKey (185 / 10) defaultLng) = false ∧
    getWeatherDataRequests [] 0 Network.sample (185 / 10) defaultLng =
      [.weather (185 / 10) defaultLng, .airQuality (185 / 10) defaultLng] ∧
    (getWeatherDataRequests [] 0 Network.sample (185 / 10) defaultLng).length = 2 := by
  have hu : hasUnexpired ([] : Cache CachedData) 0 (weatherKey (185 / 10) defaultLng) = false := by
    simp [hasUnexpired, Cache.find]
  have hr : getWeatherDataRequests [] 0 Network.sample (185 / 10) defaultLng =
      [.weather (185 / 10) defaultLng, .airQuality (185 / 10) defaultLng] := by
    rw [getWeatherDataRequests_eq, hasCachedObject_of_expired _ _ _ hu]
    simp [Network.sample]
  exact ⟨hu, hr, by rw [hr]; rfl⟩

/-- C21 (amended): on a cache miss, `getLocationData`, `getPOI` and
`getIndiaData` each schedule exactly one request before returning, whatever the
upstream answers; `getWeatherData` schedules exactly two when its forecast
request does not throw, the forecast request and then the air-quality request,
and only the forecast request when that one throws. -/
theorem adapters_requests_on_miss (cache : Cache CachedData) (now : ℕ) (net : Network)
    (n : Neighborhood) (lat lng radius : ℚ) (category : String) :
    (hasCachedObject cache now (locationKey n) = false →
      getLocationDataRequests cache now n =
        [.location (n.name ++ ", " ++ n.city ++ ", India")]) ∧
    (hasCachedObject cache now (poiKey lat lng radius) = false →
      getPOIRequests cache now lat lng radius = [.poi lat lng radius]) ∧
    (hasCachedObject cache now (indiaDataKey category) = false →
      getIndiaDataRequests cache now category = [.indiaData]) ∧
    (hasCachedObject cache now (weatherKey lat lng) = false → net.weather lat lng ≠ .threw →
      getWeatherDataRequests cache now net lat lng = [.weather lat lng, .airQuality lat lng]) ∧
    (hasCachedObject cache now (weatherKey lat lng) = false → net.weather lat lng = .threw →
      getWeatherDataRequests cache now net lat lng = [.weather lat lng]) := by
  refine ⟨fun h => ?_, fun h => ?_, fun h => ?_, fun h hw => ?_, fun h hw => ?_⟩
  · simp [getLocationDataRequests_eq, h]
  · simp [getPOIRequests_eq, h]
  · simp [getIndiaDataRequests_eq, h]
  · rw [getWeatherDataRequests_eq, h]
    cases hn : net.weather lat lng with
    | threw => exact absurd hn hw
    | data d => simp
  · rw [getWeatherDataRequests_eq, h, hw]
    simp

/-- With an empty cache and an upstream where every request succeeds: one
request for the location, two for the weather. -/
theorem adapters_requests_on_miss_witness :
    getLocationDataRequests [] 0 osmNeighborhood = [.location "Kothrud, Pune, India"] ∧
    getWeatherDataRequests [] 0 Network.sample (185 / 10) defaultLng =
      [.weather (185 / 10) defaultLng, .airQuality (185 / 10) defaultLng] :=
  ⟨(adapters_requests_on_miss [] 0 Network.sample osmNeighborhood (185 / 10) defaultLng 2000
      "demographics").1 (by simp [hasCachedObject, hasUnexpired, Cache.find]),
   (adapters_requests_on_miss [] 0 Network.sample osmNeighborhood (185 / 10) defaultLng 2000
      "demographics").2.2.2.1 (by simp [hasCachedObject, hasUnexpired, Cache.find])
      (by simp [Network.sample])⟩

/-! ## The limiter of each source (C24) -/

/-- C24 fails: on a cache miss the location adapter and the POI adapter schedule
their requests on the same limiter, `overpassLimiter`. -/
theorem location_and_poi_share_limiter :
    (getLocationDataRequests [] 0 osmNeighborhood).map Request.limiter = [.overpassLimiter] ∧
    (getPOIRequests [] 0 defaultLat defaultLng).map Request.limiter = [.overpassLimiter] := by
  constructor
  · simp [getLocationDataRequests, getCachedData, isCacheValid, Cache.find, Request.limiter,
      truthyCached]
  · simp [getPOIRequests, getCachedData, isCacheValid, Cache.find, Request.limiter,
      truthyCached]

/-- C24 (amended): the four sources are scheduled on three limiters: every
request of the location adapter and of the POI adapter goes to `overpassLimiter`,
every request of the weather adapter (forecast and air quality) to `aqiLimiter`,
and every request of the demographics adapter to `indiaDataLimiter`; the three
limiters are distinct, so the only two sources that share one are location and
POI. -/
theorem sources_on_three_limiters (cache : Cache CachedData) (now : ℕ) (net : Network)
    (n : Neighborhood) (lat lng radius : ℚ) (category : String) :
    (∀ r ∈ getLocationDataRequests cache now n, r.limiter = .overpassLimiter) ∧
    (∀ r ∈ getPOIRequests cache now lat lng radius, r.limiter = .overpassLimiter) ∧
    (∀ r ∈ getWeatherDataRequests cache now net lat lng, r.limiter = .aqiLimiter) ∧
    (∀ r ∈ getIndiaDataRequests cache now category, r.limiter = .indiaDataLimiter) ∧
    Limiter.overpassLimiter ≠ Limiter.aqiLimiter ∧
    Limiter.overpassLimiter ≠ Limiter.indiaDataLimiter ∧
    Limiter.aqiLimiter ≠ Limiter.indiaDataLimiter := by
  refine ⟨fun r hr => ?_, fun r hr => ?_, fun r hr => ?_, fun r hr => ?_, by decide, by decide,
    by decide⟩
  · rw [getLocationDataRequests_eq] at hr
    split_ifs at hr
    · simp at hr
    · simp at hr
      rw [hr]
      rfl
  · rw [getPOIRequests_eq] at hr
    split_ifs at hr
    · simp at hr
    · simp at hr
      rw [hr]
      rfl
  · rw [getWeatherDataRequests_eq] at hr
    split_ifs at hr
    · simp at hr
    · cases hn : net.weather lat lng with
      | threw =>
        simp [hn] at hr
        rw [hr]
        rfl
      | data d =>
        simp [hn] at hr
        rcases hr with hr | hr <;> rw [hr] <;> rfl
  · rw [getIndiaDataRequests_eq] at hr
    split_ifs at hr
    · simp at hr
    · simp at hr
      rw [hr]
      rfl

/-- On an empty cache, the request of the location adapter is on
`overpassLimiter` and the forecast request of the weather adapter on `aqiLimiter`. -/
theorem sources_on_three_limiters_witness :
    (Request.location "Kothrud, Pune, India").limiter = .overpassLimiter ∧
    (Request.weather (185 / 10) defaultLng).limiter = .aqiLimiter :=
  ⟨(sources_on_three_limiters [] 0 Network.sample osmNeighborhood (185 / 10) defaultLng 2000
      "demographics").1 _
      (by simp [getLocationDataRequests, getCachedData, isCacheValid, Cache.find, osmNeighborhood,
        truthyCached]),
   (sources_on_three_limiters [] 0 Network.sample osmNeighborhood (185 / 10) defaultLng 2000
      "demographics").2.2.1 _
      (by simp [getWeatherDataRequests, getCachedData, isCacheValid, Cache.find, Network.sample,
        truthyCached])⟩

/-! ## The sweeps of the cache (C22) -/

theorem mem_of_find {δ : Type} (cache : Cache δ) (key : String) (entry : CacheEntry δ)
    (h : Cache.find cache key = some entry) : (key, entry) ∈ cache := by
  induction cache with
  | nil => simp [Cache.find] at h
  | cons p rest ih =>
    obtain ⟨k, e⟩ := p
    unfold Cache.find at h
    by_cases hk : k = key
    · simp only [hk, if_true, Option.some.injEq] at h
      rw [hk, h]
      exact List.mem_cons_self _ _
    · simp only [hk, if_false] at h
      exact List.mem_cons_of_mem _ (ih h)

theorem find_of_mem {δ : Type} (cache : Cache δ) (key : String) (entry : CacheEntry δ)
    (hd : (Cache.keys cache).Nodup) (h : (key, entry) ∈ cache) :
    Cache.find cache key = some entry := by
  induction cache with
  | nil => simp at h
  | cons p rest ih =>
    obtain ⟨k, e⟩ := p
    simp only [Cache.keys, List.map_cons, List.nodup_cons] at hd
    unfold Cache.find
    rcases List.mem_cons.mp h with h1 | h1
    · simp only [Prod.mk.injEq] at h1
      simp [h1.1, h1.2]
    · have hk : k ≠ key := by
        intro hk
        apply hd.1
        rw [hk]
        exact List.mem_map.mpr ⟨(key, entry), h1, rfl⟩
      simp only [hk, if_false]
      exact ih hd.2 h1

theorem find_eq_none {δ : Type} (cache : Cache δ) (key : String)
    (h : Cache.find cache key = none) : ∀ p ∈ cache, p.1 ≠ key := by
  induction cache with
  | nil => simp
  | cons q rest ih =>
    obtain ⟨k, e⟩ := q
    unfold Cache.find at h
    by_cases hk : k = key
    · simp [hk] at h
    · simp only [hk, if_false] at h
      intro p hp
      rcases List.mem_cons.mp hp with h1 | h1
      · rw [h1]
        exact hk
      · exact ih h p h1

theorem nodup_keys_delete {δ : Type} (cache : Cache δ) (key : String)
    (hd : (Cache.keys cache).Nodup) : (Cache.keys (Cache.delete cache key)).Nodup := by
  unfold Cache.keys Cache.delete
  exact hd.sublist (List.Sublist.map _ (List.filter_sublist _))

theorem length_delete {δ : Type} (cache : Cache δ) (key : String) (entry : CacheEntry δ)
    (hd : (Cache.keys cache).Nodup) (h : Cache.find cache key = some entry) :
    (Cache.delete cache key).length + 1 = cache.length := by
  induction cache with
  | nil => simp [Cache.find] at h
  | cons p rest ih =>
    obtain ⟨k, e⟩ := p
    simp only [Cache.keys, List.map_cons, List.nodup_cons] at hd
    unfold Cache.find at h
    by_cases hk : k = key
    · have hrest : ∀ q ∈ rest, q.1 ≠ key := by
        intro q hq hq1
        apply hd.1
        rw [hk, ← hq1]
        exact List.mem_map.mpr ⟨q, hq, rfl⟩
      have hf : rest.filter (fun q => decide (q.1 ≠ key)) = rest :=
        List.filter_eq_self.mpr (fun q hq => by simpa using hrest q hq)
      unfold Cache.delete
      rw [List.filter_cons_of_neg (by simp [hk]), hf]
      rfl
    · simp only [hk, if_false] at h
      have ih1 := ih hd.2 h
      unfold Cache.delete at ih1 ⊢
      rw [List.filter_cons_of_pos (by simp [hk])]
      simp only [List.length_cons]
      omega

/-- What the sweep loop leaves for a cache with distinct keys: it keeps, in
order, the entries that are not visited or not expired, and the count grows by
the number of entries deleted. -/
theorem clearExpiredCacheLoop_eq {δ : Type} (now : ℕ) (keys : List String) :
    ∀ (cache : Cache δ) (clearedCount : ℕ), (Cache.keys cache).Nodup →
      (clearExpiredCacheLoop now keys cache clearedCount).1 =
          cache.filter (fun p => !(decide (p.1 ∈ keys) && isExpired p.2 now)) ∧
        (clearExpiredCacheLoop now keys cache clearedCount).2 +
            (clearExpiredCacheLoop now keys cache clearedCount).1.length =
          clearedCount + cache.length := by
  induction keys with
  | nil =>
    intro cache clearedCount _
    simp [clearExpiredCacheLoop]
  | cons key keys ih =>
    intro cache clearedCount hd
    unfold clearExpiredCacheLoop
    cases hf : Cache.find cache key with
    | none =>
      simp only
      obtain ⟨h1, h2⟩ := ih cache clearedCount hd
      refine ⟨?_, h2⟩
      rw [h1]
      apply List.filter_congr
      intro p hp
      have hne := find_eq_none cache key hf p hp
      simp [hne]
    | some entry =>
      simp only
      by_cases he : isExpired entry now = true
      · rw [if_pos he]
        obtain ⟨h1, h2⟩ := ih (Cache.delete cache key) (clearedCount + 1)
          (nodup_keys_delete cache key hd)
        have hl := length_delete cache key entry hd hf
        refine ⟨?_, by omega⟩
        rw [h1]
        unfold Cache.delete
        rw [List.filter_filter]
        apply List.filter_congr
        intro p hp
        by_cases hk : p.1 = key
        · have hp2 : Cache.find cache key = some p.2 :=
            find_of_mem cache key p.2 hd (by rw [← hk]; exact hp)
          rw [hf, Option.some.injEq] at hp2
          simp [hk, ← hp2, he]
        · simp [hk]
      · rw [if_neg he]
        obtain ⟨h1, h2⟩ := ih cache clearedCount hd
        refine ⟨?_, h2⟩
        rw [h1]
        apply List.filter_congr
        intro p hp
        by_cases hk : p.1 = key
        · have hp2 : Cache.find cache key = some p.2 :=
            find_of_mem cache key p.2 hd (by rw [← hk]; exact hp)
          rw [hf, Option.some.injEq] at hp2
          simp [hk, ← hp2, he]
        · simp [hk]

/-- The cache `clearExpiredCache` leaves, and its count, for a cache with
distinct keys. -/
theorem clearExpiredCache_eq {δ : Type} (cache : Cache δ) (now : ℕ)
    (hd : (Cache.keys cache).Nodup) :
    (clearExpiredCache cache now).2 = cache.filter (fun p => !isExpired p.2 now) ∧
      (clearExpiredCache cache now).1 + (clearExpiredCache cache now).2.length = cache.length := by
  obtain ⟨h1, h2⟩ := clearExpiredCacheLoop_eq now (Cache.keys cache) cache 0 hd
  unfold clearExpiredCache
  refine ⟨?_, by simpa using h2⟩
  rw [h1]
  apply List.filter_congr
  intro p hp
  have hk : p.1 ∈ Cache.keys cache := List.mem_map.mpr ⟨p, hp, rfl⟩
  simp [hk]

/-- C22 fails for an entry whose `expiresAt` is 0: at time 1000 both sweeps keep
it, although 0 < 1000, and `clearExpiredCache` returns 0. -/
theorem sweep_keeps_zero_expiry :
    (0 : ℤ) < ((1000 : ℕ) : ℤ) ∧
    (clearExpiredCache zeroExpiryCache 1000).2.map (fun p => (p.1, p.2.expiresAt)) =
      [("poi_19.076_72.8777_2000", some 0)] ∧
    (clearExpiredCache zeroExpiryCache 1000).1 = 0 ∧
    (loadCache (some (some zeroExpiryCache)) 1000).map (fun p => (p.1, p.2.expiresAt)) =
      [("poi_19.076_72.8777_2000", some 0)] := by
  refine ⟨by norm_num, ?_, ?_, ?_⟩ <;>
    simp [clearExpiredCache, loadCache, clearExpiredCacheLoop, Cache.keys, zeroExpiryCache,
      Cache.find, isExpired]

/-- C22 (amended): after a sweep at time `now` of a cache (an object, so with
distinct keys), no entry with a non-zero `expiresAt` below `now` remains; every
entry whose `expiresAt` is at least `now`, is 0 or is missing is retained; the
retained entries are unchanged and in their order; `clearExpiredCache` returns
the number of entries it deleted; and `loadCache` leaves the same cache for a
cache file with that content. -/
theorem sweep_removes_expired {δ : Type} (cache : Cache δ) (now : ℕ)
    (hd : (Cache.keys cache).Nodup) :
    (∀ p ∈ (clearExpiredCache cache now).2, ∀ t, p.2.expiresAt = some t → t ≠ 0 →
      (now : ℤ) ≤ t) ∧
    (∀ p ∈ cache, (∀ t, p.2.expiresAt = some t → t = 0 ∨ (now : ℤ) ≤ t) →
      p ∈ (clearExpiredCache cache now).2) ∧
    List.Sublist (clearExpiredCache cache now).2 cache ∧
    (clearExpiredCache cache now).1 + (clearExpiredCache cache now).2.length = cache.length ∧
    loadCache (some (some cache)) now = (clearExpiredCache cache now).2 := by
  obtain ⟨h1, h2⟩ := clearExpiredCache_eq cache now hd
  refine ⟨fun p hp t ht h0 => ?_, fun p hp hexp => ?_, ?_, h2, rfl⟩
  · rw [h1, List.mem_filter] at hp
    have h3 := hp.2
    simp only [isExpired, ht, Bool.not_eq_true', Bool.and_eq_false_iff, decide_eq_false_iff_not,
      not_not, not_lt] at h3
    rcases h3 with h3 | h3
    · exact absurd h3 h0
    · exact h3
  · rw [h1, List.mem_filter]
    refine ⟨hp, ?_⟩
    cases ht : p.2.expiresAt with
    | none => simp [isExpired, ht]
    | some t =>
      rcases hexp t ht with h0 | h0
      · simp [isExpired, ht, h0]
      · simp [isExpired, ht, not_lt.mpr h0]
  · rw [h1]
    exact List.filter_sublist _

/-- At time 1000 the sweep of `mixedCache` deletes the entry that expired at
500 and keeps the other two. -/
theorem sweep_removes_expired_witness :
    (Cache.keys mixedCache).Nodup ∧
    (clearExpiredCache mixedCache 1000).1 + (clearExpiredCache mixedCache 1000).2.length =
      mixedCache.length ∧
    (clearExpiredCache mixedCache 1000).1 = 1 :=
  have hd : (Cache.keys mixedCache).Nodup := by
    simp [Cache.keys, mixedCache]
  ⟨hd, (sweep_removes_expired mixedCache 1000 hd).2.2.2.1, by
    simp [clearExpiredCache, clearExpiredCacheLoop, Cache.keys, mixedCache, Cache.find, isExpired,
      Cache.delete]⟩

/-! ## The location key (C25) -/

theorem data_toLower (s : String) : s.toLower.data = s.data.map Char.toLower := by
  rw [String.toLower, String.map_eq]

theorem toLower_ne_underscore (c : Char) (h : c ≠ '_') : c.toLower ≠ '_' := by
  unfold Char.toLower
  simp only
  split
  · rename_i hn
    obtain ⟨h1, h2⟩ := hn
    intro hc
    have := congrArg Char.toNat hc
    generalize hg : c.toNat = n at h1 h2 this
    interval_cases n <;> simp_all
  · exact h

theorem underscore_not_mem_toLower (s : String) (h : '_' ∉ s.data) : '_' ∉ s.toLower.data := by
  rw [data_toLower, List.mem_map]
  rintro ⟨c, hc, hl⟩
  by_cases hu : c = '_'
  · exact h (hu ▸ hc)
  · exact toLower_ne_underscore c hu hl

theorem data_locationKey (n : Neighborhood) :
    (locationKey n).data =
      "location_".data ++ (n.name.toLower.data ++ '_' :: n.city.toLower.data) := by
  simp [locationKey, String.data_append]

/-- Two lists that end in an underscore followed by an underscore-free part are
equal only if both parts are. -/
theorem append_underscore_inj (a b c d : List Char) (hb : '_' ∉ b) (hd : '_' ∉ d)
    (h : a ++ '_' :: b = c ++ '_' :: d) : a = c ∧ b = d := by
  induction a generalizing c with
  | nil =>
    cases c with
    | nil => simpa using h
    | cons x r =>
      simp only [List.nil_append, List.cons_append, List.cons.injEq] at h
      exact absurd (h.2 ▸ List.mem_append_right r (List.mem_cons_self _ _)) hb
  | cons y a ih =>
    cases c with
    | nil =>
      simp only [List.nil_append, List.cons_append, List.cons.injEq] at h
      exact absurd (h.2 ▸ List.mem_append_right a (List.mem_cons_self _ _)) hd
    | cons x r =>
      simp only [List.cons_append, List.cons.injEq] at h
      obtain ⟨h1, h2⟩ := ih r h.2
      exact ⟨by rw [h.1, h1], h2⟩

/-- C25 fails: the candidates (East_Side, Town) and (East, Side_Town) differ in
name and in city, also ignoring case, and receive the same location cache key. -/
theorem locationKey_collision :
    eastSideOfTown.name.toLower ≠ eastOfSideTown.name.toLower ∧
    eastSideOfTown.city.toLower ≠ eastOfSideTown.city.toLower ∧
    locationKey eastSideOfTown = locationKey eastOfSideTown ∧
    locationKey eastSideOfTown = "location_east_side_town" := by
  have h1 : "East_Side".toLower = "east_side" := by
    rw [String.toLower, String.map_eq]
    rfl
  have h2 : "Town".toLower = "town" := by
    rw [String.toLower, String.map_eq]
    rfl
  have h3 : "East".toLower = "east" := by
    rw [String.toLower, String.map_eq]
    rfl
  have h4 : "Side_Town".toLower = "side_town" := by
    rw [String.toLower, String.map_eq]
    rfl
  simp only [locationKey, eastSideOfTown, eastOfSideTown, h1, h2, h3, h4]
  decide

/-- C25 (amended): the location cache key is a function of the lower-cased name
and the lower-cased city only; and two candidates whose cities contain no
underscore receive the same key if and only if their names are equal ignoring
case and their cities are equal ignoring case. -/
theorem locationKey_eq_iff (a b : Neighborhood) :
    (a.name.toLower = b.name.toLower → a.city.toLower = b.city.toLower →
      locationKey a = locationKey b) ∧
    ('_' ∉ a.city.data → '_' ∉ b.city.data →
      (locationKey a = locationKey b ↔
        a.name.toLower = b.name.toLower ∧ a.city.toLower = b.city.toLower)) := by
  have hfun : a.name.toLower = b.name.toLower → a.city.toLower = b.city.toLower →
      locationKey a = locationKey b := by
    intro hn hc
    unfold locationKey
    rw [hn, hc]
  refine ⟨hfun, fun ha hb => ⟨fun h => ?_, fun h => hfun h.1 h.2⟩⟩
  have hdata := congrArg String.data h
  rw [data_locationKey, data_locationKey] at hdata
  obtain ⟨hn, hc⟩ := append_underscore_inj _ _ _ _ (underscore_not_mem_toLower _ ha)
    (underscore_not_mem_toLower _ hb) (List.append_cancel_left hdata)
  exact ⟨String.ext hn, String.ext hc⟩

/-- The candidates Kothrud and KOTHRUD of Pune, a city without underscore,
receive the same key. -/
theorem locationKey_eq_iff_witness :
    '_' ∉ osmNeighborhood.city.data ∧
    locationKey osmNeighborhood = locationKey { osmNeighborhood with name := "KOTHRUD" } :=
  have hu : '_' ∉ osmNeighborhood.city.data := by decide
  ⟨hu, ((locationKey_eq_iff osmNeighborhood { osmNeighborhood with name := "KOTHRUD" }).2 hu
    hu).mpr
    ⟨by
      show "Kothrud".toLower = "KOTHRUD".toLower
      rw [String.toLower, String.map_eq, String.toLower, String.map_eq]
      rfl, rfl⟩⟩

/-! ## The coordinates of the POI and weather requests (C26) -/

/-- With an empty cache and every request failing, POI and weather are asked at
`neighborhood.lat || 19.0760` and `neighborhood.lng || 72.8777`; the `lon` of
the candidate is not read. -/
theorem getNeighborhoodDataRequests_offline (now : ℕ) (n : Neighborhood) :
    getNeighborhoodDataRequests [] now Network.allFail n =
      [.location (n.name ++ ", " ++ n.city ++ ", India"),
       .poi (orElse n.lat defaultLat) (orElse n.lng defaultLng) 2000,
       .weather (orElse n.lat defaultLat) (orElse n.lng defaultLng),
       .indiaData] := rfl

/-- C26 fails on the code: for a candidate as `loadAllNeighborhoods` builds it,
with `lat` 18.5074 and `lon` 73.8077, whose location lookup fails,
`getNeighborhoodData` asks POI and weather at (18.5074, 72.8777): the candidate's
own latitude with the default longitude. -/
theorem getNeighborhoodData_default_longitude :
    osmNeighborhood.lat = some (185074 / 10000) ∧
    osmNeighborhood.lon = some (738077 / 10000) ∧
    (getLocationData [] 0 Network.allFail osmNeighborhood).1.source = some "error" ∧
    getNeighborhoodDataRequests [] 0 Network.allFail osmNeighborhood =
      [.location "Kothrud, Pune, India",
       .poi (185074 / 10000) (728777 / 10000) 2000,
       .weather (185074 / 10000) (728777 / 10000),
       .indiaData] := by
  refine ⟨rfl, rfl, rfl, ?_⟩
  rw [getNeighborhoodDataRequests_offline]
  norm_num [osmNeighborhood, orElse, defaultLng, defaultLat]
  rfl

/-! ## POI results of getPOI and the police and footway rules (C27) -/

theorem poiPayload_police (now : ℕ) (data : RawOverpass) :
    (poiPayload now data).police = none ∧ (poiPayload now data).footways = none ∧
      (poiPayload now data).error = none := ⟨rfl, rfl, rfl⟩

/-- C27: when the POI result is one that `getPOI` builds from a network answer
(whatever its `source` tag, `api` when fresh and `cache` when read back), the
police count and the footway count of `updateNeighborhoodData` are 0, so neither
override is applied: walkability is 5, and safety is 7, or 5 when the
precipitation rule fires. -/
theorem getPOI_result_never_overrides (n : Neighborhood) (apiData : ApiData) (now : ℕ)
    (data : RawOverpass) (source : Option String)
    (h : apiData.poi = some { poiPayload now data with source := source }) :
    policeCount apiData = 0 ∧ footwayCount apiData = 0 ∧
    (deriveFromApiData n apiData).features.walkability = 5 ∧
    (deriveFromApiData n apiData).features.safety = (if heavyRain apiData then 5 else 7) := by
  have hu : usable apiData.poi = some { poiPayload now data with source := source } := by
    rw [h]
    simp [usable, truthyStr, poiPayload]
  have hp : policeCount apiData = 0 := by
    unfold policeCount poiCount
    rw [hu]
    simp [poiPayload, orElse]
  have hf : footwayCount apiData = 0 := by
    unfold footwayCount
    rw [hu]
    simp [poiPayload, truthyNum]
  refine ⟨hp, hf, ?_, ?_⟩
  · show walkabilityOf apiData = 5
    unfold walkabilityOf
    rw [hf]
    simp
  · show safetyOf apiData = _
    unfold safetyOf
    rw [hp]
    cases heavyRain apiData <;> norm_num

/-- The POI answer of `Network.sample`, fetched at time 0, with 40 mm of
precipitation: walkability 5 and safety 5. -/
theorem getPOI_result_never_overrides_witness :
    (deriveFromApiData osmNeighborhood
      { location := none,
        poi := some (getPOI [] 0 Network.sample defaultLat defaultLng).1,
        weather := some { precipitation := some 40 }, indiaData := none, dataSources := [],
        lastUpdated := 0 }).features.walkability = 5 ∧
    (deriveFromApiData osmNeighborhood
      { location := none,
        poi := some (getPOI [] 0 Network.sample defaultLat defaultLng).1,
        weather := some { precipitation := some 40 }, indiaData := none, dataSources := [],
        lastUpdated := 0 }).features.safety = 5 :=
  have h := getPOI_result_never_overrides osmNeighborhood
    { location := none,
      poi := some (getPOI [] 0 Network.sample defaultLat defaultLng).1,
      weather := some { precipitation := some 40 }, indiaData := none, dataSources := [],
      lastUpdated := 0 } 0
    { elements := some [{ tags := some { amenity := some "restaurant" } },
                        { tags := some { amenity := some "hospital" } }] }
    (some "api") rfl
  ⟨h.2.2.1, by
    rw [h.2.2.2]
    norm_num [heavyRain, usable, truthyStr, gtNum]⟩

/-! ## The features of cache-to-neighborhoods.js (C28) -/

/-- Where the script and `updateNeighborhoodData` agree: for a POI record and a
weather record without `error` whose police, footway, hospital, restaurant and
park counts are not negative, the script derives the same safety, walkability,
healthcare, restaurants and parksGreenery. -/
theorem extract_agrees_except_publicTransport (n : Neighborhood) (apiData : ApiData)
    (poi weather : ApiObject) (hp : apiData.poi = some poi) (hw : apiData.weather = some weather)
    (hpe : truthyStr poi.error = false) (hwe : truthyStr weather.error = false)
    (h1 : ∀ v, poi.police = some v → 0 ≤ v) (h2 : ∀ v, poi.footways = some v → 0 ≤ v)
    (h3 : ∀ v, poi.hospitals = some v → 0 ≤ v) (h4 : ∀ v, poi.restaurants = some v → 0 ≤ v)
    (h5 : ∀ v, poi.parks = some v → 0 ≤ v) :
    ∀ f, f ≠ .publicTransport → f ≠ .fastInternet → f ≠ .affordability →
      extractNeighborhoodsFromCacheFeatures (some poi) (some weather) f =
        (deriveFromApiData n apiData).features.get f := by
  have hup : usable apiData.poi = some poi := by
    rw [hp]
    simp [usable, hpe]
  have huw : usable apiData.weather = some weather := by
    rw [hw]
    simp [usable, hwe]
  have rule : ∀ (field : Option ℚ) (d : ℚ), (∀ v, field = some v → 0 ≤ v) →
      extractRule field d = if 0 < orElse field 0 then min 10 (5 + orElse field 0) else d := by
    intro field d hnn
    cases hfield : field with
    | none => simp [extractRule, orElse]
    | some v =>
      have hv := hnn v hfield
      by_cases h0 : v = 0
      · simp [extractRule, orElse, h0]
      · have hpos : 0 < v := lt_of_le_of_ne hv (Ne.symm h0)
        simp [extractRule, orElse, h0, hpos]
  intro f hf1 hf2 hf3
  cases f with
  | safety =>
    show extractSafety (some poi) (some weather) = safetyOf apiData
    unfold extractSafety safetyOf policeCount poiCount heavyRain
    rw [hup, huw]
    simp only [Option.some_bind, rule poi.police 7 h1, zero_add, gt_iff_lt]
  | walkability =>
    show extractRule poi.footways 5 = walkabilityOf apiData
    unfold walkabilityOf footwayCount
    rw [hup, rule _ _ h2]
    cases hfw : poi.footways with
    | none => simp [truthyNum, orElse, hfw]
    | some v =>
      by_cases h0 : v = 0
      · simp [truthyNum, orElse, hfw, h0]
      · simp [truthyNum, orElse, hfw, h0]
  | healthcare =>
    show extractRule poi.hospitals 5 = healthcareOf apiData
    unfold healthcareOf hospitalCount poiCount
    rw [hup, rule _ _ h3]
    simp only [zero_add, gt_iff_lt]
  | fastInternet => exact absurd rfl hf2
  | affordability => exact absurd rfl hf3
  | restaurants =>
    show extractRule poi.restaurants 5 = restaurantsOf apiData
    unfold restaurantsOf restaurantCount poiCount
    rw [hup, rule _ _ h4]
    simp only [zero_add]
    split_ifs with hpos
    · rfl
    · have h0 : orElse poi.restaurants 0 = 0 := by
        cases hr : poi.restaurants with
        | none => simp [orElse]
        | some v =>
          have hv := h4 v hr
          by_cases hz : v = 0
          · simp [orElse, hz]
          · exact absurd (by simpa [orElse, hr, hz] using lt_of_le_of_ne hv (Ne.symm hz)) hpos
      rw [h0]
      norm_num
  | publicTransport => exact absurd rfl hf1
  | parksGreenery =>
    show extractRule poi.parks 5 = parksGreeneryOf apiData
    unfold parksGreeneryOf parkCount poiCount
    rw [hup, rule _ _ h5]
    simp only [zero_add]
    split_ifs with hpos
    · rfl
    · have h0 : orElse poi.parks 0 = 0 := by
        cases hr : poi.parks with
        | none => simp [orElse]
        | some v =>
          have hv := h5 v hr
          by_cases hz : v = 0
          · simp [orElse, hz]
          · exact absurd (by simpa [orElse, hr, hz] using lt_of_le_of_ne hv (Ne.symm hz)) hpos
      rw [h0]
      norm_num

/-- C28 fails on the code: for the POI record that `getPOI` writes for an answer
with three bus stops (`transport = 3`), `updateNeighborhoodData` derives
publicTransport 8 while `extractNeighborhoodsFromCache` derives 5, because it
reads `poi.busStops`, a field the record does not have. -/
theorem extract_publicTransport_differs :
    poiPayload 0 { elements := some [{ tags := some { highway := some "bus_stop" } },
                                     { tags := some { highway := some "bus_stop" } },
                                     { tags := some { highway := some "bus_stop" } }] } =
      busStopsPoi ∧
    busStopsApiData.poi = some busStopsPoi ∧
    busStopsApiData.weather = some mildWeather ∧
    extractNeighborhoodsFromCacheFeatures (some busStopsPoi) (some mildWeather)
      .publicTransport = 5 ∧
    (deriveFromApiData osmNeighborhood busStopsApiData).features.publicTransport = 8 := by
  refine ⟨?_, rfl, rfl, rfl, ?_⟩
  · simp [poiPayload, countWhere, busStopsPoi, truthyStr]
  · show publicTransportOf busStopsApiData = 8
    norm_num [publicTransportOf, transportCount, poiCount, usable, busStopsApiData, busStopsPoi,
      truthyStr, orElse]

/-! ## Ranking by the rounded similarity (C29) -/

theorem safetyFirst_lowParks_similarity :
    similarity safetyFirstPrefs (staticFeatures lowParksNeighborhood) =
      { coeff := 1814375 / 12641104, radicand := 12641104 / 390625 } := by
  norm_num [similarity, magnitude, Surd.sqrt, Surd.mul, Surd.div, Surd.ofRat, Surd.truthy,
    dotProduct, sumSquares, weightedUserScores, weightedNeighborhoodScores, weighted, userScores,
    neighborhoodScores, factors, factorWeights, staticFeatures, lowParksNeighborhood,
    safetyFirstPrefs, plainNeighborhood, orElse, Features.get]

theorem safetyFirst_lowParks_rounded :
    (similarity safetyFirstPrefs (staticFeatures lowParksNeighborhood)).toFixed3 = 102 / 125 := by
  rw [safetyFirst_lowParks_similarity,
    toFixed3_eq_of_bounds _ 816 (Or.inr (by norm_num [abs_of_pos])) (by norm_num [abs_of_pos])]
  norm_num

/-- Two exact values with coefficients that are not negative compare as their
squares do. -/
theorem surd_lt_of_sq_lt (c₁ r₁ c₂ r₂ : ℚ) (h₁ : 0 ≤ c₁) (h₂ : 0 ≤ c₂) (hr₁ : 0 ≤ r₁)
    (h : c₁ * c₁ * r₁ < c₂ * c₂ * r₂) :
    (c₁ : ℝ) * Real.sqrt (r₁ : ℝ) < (c₂ : ℝ) * Real.sqrt (r₂ : ℝ) := by
  have e₁ : (c₁ : ℝ) * Real.sqrt (r₁ : ℝ) = Real.sqrt ((c₁ : ℝ) * c₁ * r₁) := by
    rw [Real.sqrt_mul (mul_self_nonneg _), Real.sqrt_mul_self (by exact_mod_cast h₁)]
  have e₂ : (c₂ : ℝ) * Real.sqrt (r₂ : ℝ) = Real.sqrt ((c₂ : ℝ) * c₂ * r₂) := by
    rw [Real.sqrt_mul (mul_self_nonneg _), Real.sqrt_mul_self (by exact_mod_cast h₂)]
  rw [e₁, e₂]
  apply Real.sqrt_lt_sqrt
  · have : (0 : ℚ) ≤ c₁ * c₁ * r₁ := mul_nonneg (mul_self_nonneg _) hr₁
    exact_mod_cast this
  · exact_mod_cast h

/-- C29: `findBestMatches` orders by the rounded similarity. In both modes the
returned list is in non-increasing order of the rounded similarity, and the
returned objects of any one rounded similarity are the first ones of that value
in the (shuffled and capped) input, in input order. The exact cosine does not
break such a tie: for the user (safety 5, others 1) the static candidates Bare
and LowParks have exact similarities 0.81619... < 0.81649..., both rounded to
0.816, and the pool [Bare, LowParks] is returned in that order, the candidate
with the strictly larger exact similarity last. -/
theorem findBestMatches_orders_by_rounded (e : Neighborhood → Enriched) (rnd : ℕ → ℕ)
    (p : UserPreferences) (pool : List Neighborhood) (k : ℕ) (rt : Bool) :
    (findBestMatches e rnd p pool k rt).Pairwise (fun a b => b.similarity ≤ a.similarity) ∧
    (∀ s : ℚ, List.IsPrefix
      ((findBestMatches e rnd p pool k rt).filter (fun r => decide (r.similarity = s)))
      ((((if rt then shuffle rnd pool else pool).take 20).map (fun n =>
          scoreNeighborhood p n (if rt then (e n).features else staticFeatures n))).filter
        (fun r => decide (r.similarity = s)))) ∧
    (similarity safetyFirstPrefs (staticFeatures bareNeighborhood) =
        { coeff := 72775 / 508816, radicand := 508816 / 15625 } ∧
      similarity safetyFirstPrefs (staticFeatures lowParksNeighborhood) =
        { coeff := 1814375 / 12641104, radicand := 12641104 / 390625 } ∧
      ((72775 / 508816 : ℚ) : ℝ) * Real.sqrt ((508816 / 15625 : ℚ) : ℝ) <
        ((1814375 / 12641104 : ℚ) : ℝ) * Real.sqrt ((12641104 / 390625 : ℚ) : ℝ) ∧
      (findBestMatches (offlineEnrich 0) (fun _ => 0) safetyFirstPrefs
          [bareNeighborhood, lowParksNeighborhood] 5 false).map
        (fun r => (r.neighborhood.name, r.similarity)) =
          [("Bare", 816 / 1000), ("LowParks", 816 / 1000)]) := by
  refine ⟨?_, fun s => ?_, safetyFirst_bare_similarity, safetyFirst_lowParks_similarity, ?_, ?_⟩
  · unfold findBestMatches sortBySimilarity
    exact (List.sorted_insertionSort similarityDesc _).sublist (List.take_sublist k _)
  · unfold findBestMatches
    refine ((List.take_prefix k _).filter _).trans ?_
    rw [filter_sortBySimilarity]
  · exact surd_lt_of_sq_lt _ _ _ _ (by norm_num) (by norm_num) (by norm_num) (by norm_num)
  · have hb : (scoreNeighborhood safetyFirstPrefs bareNeighborhood
        (staticFeatures bareNeighborhood)).similarity = 102 / 125 := by
      rw [scoreNeighborhood_similarity, safetyFirst_bare_rounded]
    have hl : (scoreNeighborhood safetyFirstPrefs lowParksNeighborhood
        (staticFeatures lowParksNeighborhood)).similarity = 102 / 125 := by
      rw [scoreNeighborhood_similarity, safetyFirst_lowParks_rounded]
    have hfind : findBestMatches (offlineEnrich 0) (fun _ => 0) safetyFirstPrefs
        [bareNeighborhood, lowParksNeighborhood] 5 false =
        [scoreNeighborhood safetyFirstPrefs bareNeighborhood (staticFeatures bareNeighborhood),
         scoreNeighborhood safetyFirstPrefs lowParksNeighborhood
           (staticFeatures lowParksNeighborhood)] := by
      simp [findBestMatches, sortBySimilarity, List.insertionSort, List.orderedInsert,
        similarityDesc, hb, hl]
    rw [hfind]
    simp only [List.map, hb, hl]
    norm_num [scoreNeighborhood, bareNeighborhood, lowParksNeighborhood, plainNeighborhood]

/-! ## The ratings of the form (C30) -/

/-- The validation of `/match` lets a request pass when each of the eight
ratings is there and lies in [1,5]. -/
theorem postMatch_of_valid (allNeighborhoods staticNeighborhoods : List Neighborhood)
    (e : Neighborhood → Enriched) (rnd : ℕ → ℕ) (req : MatchRequest)
    (h : ∀ f, ∃ v, req.userPrefs f = some v ∧ 1 ≤ v ∧ v ≤ 5) :
    ∃ topMatches totalNeighborhoods dataSource weights enrichmentWarning,
      postMatch allNeighborhoods staticNeighborhoods e rnd req =
        .success topMatches totalNeighborhoods dataSource weights enrichmentWarning := by
  have hm : factors.filter (fun field => (req.userPrefs field).isNone) = [] := by
    rw [List.filter_eq_nil_iff]
    intro f _
    obtain ⟨v, hv, _⟩ := h f
    simp [hv]
  have hi : factors.filter (fun field =>
      match req.userPrefs field with
      | some value => decide (value < 1) || decide (value > 5)
      | none => true) = [] := by
    rw [List.filter_eq_nil_iff]
    intro f _
    obtain ⟨v, hv, h1, h5⟩ := h f
    simp [hv, not_lt.mpr h1, not_lt.mpr h5]
  unfold postMatch
  simp only [hm, hi, List.length_nil, gt_iff_lt, lt_self_iff_false, if_false]
  exact ⟨_, _, _, _, _, rfl⟩

theorem handleSubmit_range (r : Factor → ℚ) (isFamilyOriented isMixedQuietLively : Bool)
    (hr : ∀ f, 1 ≤ r f ∧ r f ≤ 5) (f : Factor) :
    1 ≤ handleSubmit r isFamilyOriented isMixedQuietLively f ∧
      handleSubmit r isFamilyOriented isMixedQuietLively f ≤ 5 := by
  have h := hr f
  cases isFamilyOriented <;> cases isMixedQuietLively <;> cases f <;>
    simp [handleSubmit, Function.update] <;>
    first
      | exact h
      | linarith [h.1, h.2]

/-- C30: for slider ratings in [1,5] (the sliders give whole numbers from 1 to
5) and every combination of the two bonus toggles, every rating that
`handleSubmit` submits lies in [1,5], and `/match` answers the posted request
with the success object, neither with missing nor with invalid fields; the
validation accepts every request whose eight ratings are numbers in [1,5],
fractional ones included. -/
theorem submitted_ratings_valid (allNeighborhoods staticNeighborhoods : List Neighborhood)
    (e : Neighborhood → Enriched) (rnd : ℕ → ℕ) (r : Factor → ℚ)
    (isFamilyOriented isMixedQuietLively useRealTimeData : Bool) (selectedCity : String)
    (hr : ∀ f, 1 ≤ r f ∧ r f ≤ 5) :
    (∀ f, 1 ≤ handleSubmit r isFamilyOriented isMixedQuietLively f ∧
      handleSubmit r isFamilyOriented isMixedQuietLively f ≤ 5) ∧
    (∃ topMatches totalNeighborhoods dataSource weights enrichmentWarning,
      postMatch allNeighborhoods staticNeighborhoods e rnd
          (submittedRequest r isFamilyOriented isMixedQuietLively useRealTimeData selectedCity) =
        .success topMatches totalNeighborhoods dataSource weights enrichmentWarning) ∧
    (∀ req : MatchRequest, (∀ f, ∃ v, req.userPrefs f = some v ∧ 1 ≤ v ∧ v ≤ 5) →
      ∃ topMatches totalNeighborhoods dataSource weights enrichmentWarning,
        postMatch allNeighborhoods staticNeighborhoods e rnd req =
          .success topMatches totalNeighborhoods dataSource weights enrichmentWarning) := by
  refine ⟨handleSubmit_range r _ _ hr, ?_, fun req h => postMatch_of_valid _ _ e rnd req h⟩
  apply postMatch_of_valid
  intro f
  exact ⟨_, rfl, handleSubmit_range r _ _ hr f⟩

/-- Sliders all at 5 with both toggles on: every submitted rating is 5; sliders
all at 1: safety is submitted as 1.5 and walkability as 1.3. -/
theorem submitted_ratings_valid_witness :
    (∀ f, 1 ≤ handleSubmit (fun _ => 5) true true f ∧ handleSubmit (fun _ => 5) true true f ≤ 5) ∧
    handleSubmit (fun _ => 1) true true .safety = 3 / 2 ∧
    handleSubmit (fun _ => 1) true true .walkability = 13 / 10 :=
  ⟨(submitted_ratings_valid [] [] (offlineEnrich 0) (fun _ => 0) (fun _ => 5) true true false
      "Delhi" (fun _ => by norm_num)).1,
    by simp [handleSubmit, Function.update]; norm_num,
    by simp [handleSubmit, Function.update]; norm_num⟩

/-! ## Binary digits and whole square roots -/

theorem bitLengthAux_zero (fuel : ℕ) : bitLengthAux fuel 0 = 0 := by
  cases fuel <;> simp [bitLengthAux]

theorem bitLengthAux_spec (fuel : ℕ) : ∀ n : ℕ, n ≤ fuel → 0 < n →
    0 < bitLengthAux fuel n ∧ 2 ^ (bitLengthAux fuel n - 1) ≤ n ∧ n < 2 ^ bitLengthAux fuel n := by
  induction fuel with
  | zero => intro n h1 h2; omega
  | succ fuel ih =>
    intro n h1 h2
    have hn : n ≠ 0 := by omega
    simp only [bitLengthAux, if_neg hn]
    rcases Nat.eq_zero_or_pos (n / 2) with h0 | hpos
    · rw [h0, bitLengthAux_zero]
      have : n = 1 := by omega
      subst this
      simp
    · obtain ⟨hk, hl, hu⟩ := ih (n / 2) (by omega) hpos
      refine ⟨by omega, ?_, ?_⟩
      · rw [Nat.add_sub_cancel]
        have h2k : 2 ^ bitLengthAux fuel (n / 2) = 2 * 2 ^ (bitLengthAux fuel (n / 2) - 1) := by
          rw [← pow_succ']
          congr 1
          omega
        omega
      · rw [pow_succ]
        omega

theorem bitLength_spec (n : ℕ) (h : 0 < n) :
    0 < bitLength n ∧ 2 ^ (bitLength n - 1) ≤ n ∧ n < 2 ^ bitLength n :=
  bitLengthAux_spec n n le_rfl h

theorem lt_two_pow_bitLength (n : ℕ) : n < 2 ^ bitLength n := by
  rcases Nat.eq_zero_or_pos n with h | h
  · subst h
    simp
  · exact (bitLength_spec n h).2.2

theorem sqrtAux_spec (n : ℕ) : ∀ k r : ℕ, r * r ≤ n → n < (r + 2 ^ k) * (r + 2 ^ k) →
    sqrtAux n k r * sqrtAux n k r ≤ n ∧ n < (sqrtAux n k r + 1) * (sqrtAux n k r + 1) := by
  intro k
  induction k with
  | zero =>
    intro r h1 h2
    simpa [sqrtAux] using And.intro h1 h2
  | succ k ih =>
    intro r h1 h2
    unfold sqrtAux
    split_ifs with h
    · apply ih _ h
      have : r + 2 ^ k + 2 ^ k = r + 2 ^ (k + 1) := by rw [pow_succ]; ring
      rw [this]
      exact h2
    · exact ih _ h1 (not_le.mp h)

theorem isqrt_spec (n : ℕ) : isqrt n * isqrt n ≤ n ∧ n < (isqrt n + 1) * (isqrt n + 1) := by
  apply sqrtAux_spec
  · simp
  · have h := lt_two_pow_bitLength n
    have h1 : 1 ≤ 2 ^ bitLength n := Nat.one_le_two_pow
    calc n < 2 ^ bitLength n := h
      _ = 2 ^ bitLength n * 1 := (mul_one _).symm
      _ ≤ 2 ^ bitLength n * 2 ^ bitLength n := Nat.mul_le_mul_left _ h1
      _ = (0 + 2 ^ bitLength n) * (0 + 2 ^ bitLength n) := by simp

/-! ## The binary exponent of a rational -/

theorem floorLog2_spec (x : ℚ) (hx : x ≠ 0) :
    (2 : ℚ) ^ floorLog2 x ≤ |x| ∧ |x| < (2 : ℚ) ^ (floorLog2 x + 1) := by
  have hnum : 0 < x.num.natAbs := Int.natAbs_pos.mpr (Rat.num_ne_zero.mpr hx)
  have hden : 0 < x.den := x.den_pos
  obtain ⟨ha0, hal, hau⟩ := bitLength_spec _ hnum
  obtain ⟨hb0, hbl, hbu⟩ := bitLength_spec _ hden
  have habs : |x| = (x.num.natAbs : ℚ) / (x.den : ℚ) := by
    conv_lhs => rw [← Rat.num_div_den x]
    rw [abs_div, Nat.abs_cast, Nat.cast_natAbs, Int.cast_abs]
  have hdq : (0 : ℚ) < (x.den : ℚ) := by exact_mod_cast hden
  have two_pos : ∀ k : ℤ, (0 : ℚ) < (2 : ℚ) ^ k := fun k => zpow_pos (by norm_num) k
  -- bounds in ℚ
  have hal' : (2 : ℚ) ^ ((bitLength x.num.natAbs : ℤ) - 1) ≤ (x.num.natAbs : ℚ) := by
    have : ((bitLength x.num.natAbs : ℤ) - 1) = ((bitLength x.num.natAbs - 1 : ℕ) : ℤ) := by omega
    rw [this, zpow_natCast]
    exact_mod_cast hal
  have hau' : (x.num.natAbs : ℚ) < (2 : ℚ) ^ (bitLength x.num.natAbs : ℤ) := by
    rw [zpow_natCast]
    exact_mod_cast hau
  have hbl' : (2 : ℚ) ^ ((bitLength x.den : ℤ) - 1) ≤ (x.den : ℚ) := by
    have : ((bitLength x.den : ℤ) - 1) = ((bitLength x.den - 1 : ℕ) : ℤ) := by omega
    rw [this, zpow_natCast]
    exact_mod_cast hbl
  have hbu' : (x.den : ℚ) < (2 : ℚ) ^ (bitLength x.den : ℤ) := by
    rw [zpow_natCast]
    exact_mod_cast hbu
  have hlow : (2 : ℚ) ^ ((bitLength x.num.natAbs : ℤ) - (bitLength x.den : ℤ) - 1) < |x| := by
    rw [habs, lt_div_iff₀ hdq]
    have h1 : (2 : ℚ) ^ ((bitLength x.num.natAbs : ℤ) - (bitLength x.den : ℤ) - 1) *
        (2 : ℚ) ^ (bitLength x.den : ℤ) = (2 : ℚ) ^ ((bitLength x.num.natAbs : ℤ) - 1) := by
      rw [← zpow_add₀ (by norm_num : (2 : ℚ) ≠ 0)]
      congr 1
      ring
    calc (2 : ℚ) ^ ((bitLength x.num.natAbs : ℤ) - (bitLength x.den : ℤ) - 1) * (x.den : ℚ)
        < (2 : ℚ) ^ ((bitLength x.num.natAbs : ℤ) - (bitLength x.den : ℤ) - 1) *
            (2 : ℚ) ^ (bitLength x.den : ℤ) := mul_lt_mul_of_pos_left hbu' (two_pos _)
      _ = (2 : ℚ) ^ ((bitLength x.num.natAbs : ℤ) - 1) := h1
      _ ≤ _ := hal'
  have hhigh : |x| < (2 : ℚ) ^ ((bitLength x.num.natAbs : ℤ) - (bitLength x.den : ℤ) + 1) := by
    rw [habs, div_lt_iff₀ hdq]
    have h1 : (2 : ℚ) ^ ((bitLength x.num.natAbs : ℤ) - (bitLength x.den : ℤ) + 1) *
        (2 : ℚ) ^ ((bitLength x.den : ℤ) - 1) = (2 : ℚ) ^ (bitLength x.num.natAbs : ℤ) := by
      rw [← zpow_add₀ (by norm_num : (2 : ℚ) ≠ 0)]
      congr 1
      ring
    calc (x.num.natAbs : ℚ) < (2 : ℚ) ^ (bitLength x.num.natAbs : ℤ) := hau'
      _ = (2 : ℚ) ^ ((bitLength x.num.natAbs : ℤ) - (bitLength x.den : ℤ) + 1) *
            (2 : ℚ) ^ ((bitLength x.den : ℤ) - 1) := h1.symm
      _ ≤ _ := mul_le_mul_of_nonneg_left hbl' (two_pos _).le
  unfold floorLog2
  simp only []
  split_ifs with h
  · exact ⟨h, hhigh⟩
  · refine ⟨hlow.le, ?_⟩
    rw [sub_add_cancel]
    exact not_le.mp h

/-! ## Rounding to a whole number -/

theorem abs_roundHalfEven_sub_le (x : ℚ) : |((roundHalfEven x : ℤ) : ℚ) - x| ≤ 1 / 2 := by
  have h1 := Int.floor_le x
  have h2 := Int.lt_floor_add_one x
  unfold roundHalfEven
  simp only []
  split_ifs with ha hb hc
  · rw [abs_le]
    constructor <;> linarith
  · rw [abs_le]
    push_cast
    constructor <;> linarith
  · rw [abs_le]
    constructor <;> linarith
  · rw [abs_le]
    push_cast
    constructor <;> linarith

/-! ## The error of rounding to a double -/

theorem zpow_two_pos (k : ℤ) : (0 : ℚ) < (2 : ℚ) ^ k := zpow_pos (by norm_num) k

theorem zpow_two_le {a b : ℤ} (h : a ≤ b) : (2 : ℚ) ^ a ≤ (2 : ℚ) ^ b :=
  zpow_le_zpow_right₀ (by norm_num) h

theorem zpow_two_lt_imp {a b : ℤ} (h : (2 : ℚ) ^ a < (2 : ℚ) ^ b) : a < b := by
  by_contra hc
  exact absurd (zpow_two_le (not_lt.mp hc)) (not_le.mpr h)

/-- The rounded value before the overflow test: within half a last place of `x`. -/
theorem abs_quantum_sub_le (x : ℚ) (t : ℤ) :
    |(roundHalfEven (x / 2 ^ t) : ℚ) * 2 ^ t - x| ≤ (2 : ℚ) ^ t / 2 := by
  have ht := zpow_two_pos t
  have h := abs_roundHalfEven_sub_le (x / 2 ^ t)
  have e : (roundHalfEven (x / 2 ^ t) : ℚ) * 2 ^ t - x =
      ((roundHalfEven (x / 2 ^ t) : ℚ) - x / 2 ^ t) * 2 ^ t := by
    field_simp
  rw [e, abs_mul, abs_of_pos ht]
  calc |(roundHalfEven (x / 2 ^ t) : ℚ) - x / 2 ^ t| * 2 ^ t ≤ 1 / 2 * 2 ^ t :=
        mul_le_mul_of_nonneg_right h ht.le
    _ = (2 : ℚ) ^ t / 2 := by ring

theorem round_spec (x : ℚ) (hx : |x| ≤ 2 ^ (1023 : ℕ)) :
    ∃ y : ℚ, Double.round x = .finite y ∧
      |y - x| ≤ |x| / 2 ^ (53 : ℕ) + 1 / 2 ^ (1075 : ℕ) ∧
      (1 / 2 ^ (1022 : ℕ) ≤ |x| → |y - x| ≤ |x| / 2 ^ (53 : ℕ)) ∧
      (x = 0 → y = 0) := by
  by_cases h0 : x = 0
  · subst h0
    exact ⟨0, by simp [Double.round], by norm_num, fun _ => by norm_num, fun _ => rfl⟩
  · obtain ⟨hlo, hhi⟩ := floorLog2_spec x h0
    have hq := abs_quantum_sub_le x (quantumExponent x)
    have he : floorLog2 x ≤ 1023 := by
      have : (2 : ℚ) ^ floorLog2 x < (2 : ℚ) ^ ((1023 : ℤ) + 1) := by
        calc (2 : ℚ) ^ floorLog2 x ≤ |x| := hlo
          _ ≤ 2 ^ (1023 : ℕ) := hx
          _ < (2 : ℚ) ^ ((1023 : ℤ) + 1) := by norm_num
      have := zpow_two_lt_imp this
      omega
    have hnormal : -1022 ≤ floorLog2 x → (2 : ℚ) ^ quantumExponent x / 2 ≤ |x| / 2 ^ (53 : ℕ) := by
      intro h
      have ht : quantumExponent x = floorLog2 x - 52 := by
        unfold quantumExponent
        rw [max_eq_left h]
      rw [ht, zpow_sub₀ (by norm_num : (2 : ℚ) ≠ 0)]
      have : (2 : ℚ) ^ floorLog2 x / 2 ^ (52 : ℤ) / 2 = (2 : ℚ) ^ floorLog2 x / 2 ^ (53 : ℕ) := by
        norm_num
        ring
      rw [this]
      exact div_le_div_of_nonneg_right hlo (by positivity)
    have hsub : floorLog2 x < -1022 → (2 : ℚ) ^ quantumExponent x / 2 = 1 / 2 ^ (1075 : ℕ) := by
      intro h
      have ht : quantumExponent x = -1074 := by
        unfold quantumExponent
        rw [max_eq_right h.le]
        norm_num
      rw [ht]
      norm_num
    have hbound : (2 : ℚ) ^ quantumExponent x / 2 ≤ |x| / 2 ^ (53 : ℕ) + 1 / 2 ^ (1075 : ℕ) := by
      rcases le_or_lt (-1022) (floorLog2 x) with h | h
      · have := hnormal h
        have h2 : (0 : ℚ) ≤ 1 / 2 ^ (1075 : ℕ) := by positivity
        linarith
      · rw [hsub h]
        have h2 : (0 : ℚ) ≤ |x| / 2 ^ (53 : ℕ) := div_nonneg (abs_nonneg x) (by norm_num)
        linarith
    have hfin : ¬ ((2 : ℚ) ^ (1024 : ℕ) ≤
        |(roundHalfEven (x / 2 ^ quantumExponent x) : ℚ) * 2 ^ quantumExponent x|) := by
      rw [not_le]
      have h1 : |(roundHalfEven (x / 2 ^ quantumExponent x) : ℚ) * 2 ^ quantumExponent x| ≤
          |x| + (2 : ℚ) ^ quantumExponent x / 2 := by
        have := abs_sub_abs_le_abs_sub
          ((roundHalfEven (x / 2 ^ quantumExponent x) : ℚ) * 2 ^ quantumExponent x) x
        linarith
      have h2 : |x| / 2 ^ (53 : ℕ) ≤ 2 ^ (1023 : ℕ) / 2 ^ (53 : ℕ) :=
        div_le_div_of_nonneg_right hx (by positivity)
      have h3 : (2 : ℚ) ^ (1023 : ℕ) + (2 ^ (1023 : ℕ) / 2 ^ (53 : ℕ) + 1 / 2 ^ (1075 : ℕ)) <
          2 ^ (1024 : ℕ) := by norm_num
      linarith
    refine ⟨(roundHalfEven (x / 2 ^ quantumExponent x) : ℚ) * 2 ^ quantumExponent x, ?_,
      le_trans hq hbound, ?_, fun h => absurd h h0⟩
    · unfold Double.round
      rw [if_neg h0]
      simp only []
      rw [if_neg hfin]
    · intro hn
      apply le_trans hq (hnormal _)
      have : (2 : ℚ) ^ (-1022 : ℤ) < (2 : ℚ) ^ (floorLog2 x + 1) := by
        calc (2 : ℚ) ^ (-1022 : ℤ) = 1 / 2 ^ (1022 : ℕ) := by norm_num
          _ ≤ |x| := hn
          _ < _ := hhi
      have := zpow_two_lt_imp this
      omega

/-! ## The error of Math.sqrt -/

theorem sqrt_zero : Double.sqrt (.finite 0) = .finite 0 := by
  simp [Double.sqrt]

/-- The whole number chosen by `Double.sqrt` is within 1/2 of the real root. -/
theorem abs_nearestSqrt_sub_le (z : ℚ) (hz : 1 ≤ z) :
    0 < nearestSqrt z ∧ |((nearestSqrt z : ℚ) : ℝ) - Real.sqrt (z : ℝ)| ≤ 1 / 2 := by
  unfold nearestSqrt
  simp only []
  set s : ℕ := isqrt ⌊z⌋₊ with hsdef
  set m : ℚ := (s : ℚ) + 1 / 2 with hmdef
  have hz0 : (0 : ℚ) ≤ z := le_trans zero_le_one hz
  obtain ⟨h1, h2⟩ := isqrt_spec ⌊z⌋₊
  have hfl : ((⌊z⌋₊ : ℕ) : ℚ) ≤ z := Nat.floor_le hz0
  have hfu : z < ((⌊z⌋₊ : ℕ) : ℚ) + 1 := Nat.lt_floor_add_one z
  have hs1 : (s : ℚ) * s ≤ z := by
    have : ((s * s : ℕ) : ℚ) ≤ ((⌊z⌋₊ : ℕ) : ℚ) := by exact_mod_cast h1
    push_cast at this
    linarith
  have hs2 : z < ((s : ℚ) + 1) * ((s : ℚ) + 1) := by
    have : ((⌊z⌋₊ + 1 : ℕ) : ℚ) ≤ (((s + 1) * (s + 1) : ℕ) : ℚ) := by exact_mod_cast h2
    push_cast at this
    linarith
  have hspos : 0 < s := by
    rcases Nat.eq_zero_or_pos s with h | h
    · rw [h] at hs2
      norm_num at hs2
      linarith
    · exact h
  have hsR : (0 : ℝ) ≤ (s : ℝ) := by positivity
  have hr0 : 0 ≤ Real.sqrt (z : ℝ) := Real.sqrt_nonneg _
  have hzR : (0 : ℝ) ≤ (z : ℝ) := by exact_mod_cast hz0
  have hrsq : Real.sqrt (z : ℝ) * Real.sqrt (z : ℝ) = (z : ℝ) := Real.mul_self_sqrt hzR
  have hlow : (s : ℝ) ≤ Real.sqrt (z : ℝ) := by
    apply Real.le_sqrt_of_sq_le
    have : ((s : ℚ) : ℝ) * ((s : ℚ) : ℝ) ≤ (z : ℝ) := by exact_mod_cast hs1
    simpa [sq] using this
  have hupp : Real.sqrt (z : ℝ) < (s : ℝ) + 1 := by
    rw [Real.sqrt_lt' (by positivity)]
    have : (z : ℝ) < (((s : ℚ) + 1) * ((s : ℚ) + 1) : ℚ) := by exact_mod_cast hs2
    push_cast at this
    simpa [sq] using this
  have hmR : ((m : ℚ) : ℝ) = (s : ℝ) + 1 / 2 := by
    rw [hmdef]
    push_cast
    ring
  have hcast : (((s + 1 : ℕ) : ℚ) : ℝ) = (s : ℝ) + 1 := by push_cast; ring
  have hcast0 : (((s : ℕ) : ℚ) : ℝ) = (s : ℝ) := by push_cast; ring
  have hbelow : z < m * m → Real.sqrt (z : ℝ) < (s : ℝ) + 1 / 2 := by
    intro h
    rw [Real.sqrt_lt' (by positivity)]
    have : (z : ℝ) < ((m * m : ℚ) : ℝ) := by exact_mod_cast h
    rw [Rat.cast_mul, hmR] at this
    simpa [sq] using this
  have habove : m * m ≤ z → (s : ℝ) + 1 / 2 ≤ Real.sqrt (z : ℝ) := by
    intro h
    apply Real.le_sqrt_of_sq_le
    have : ((m * m : ℚ) : ℝ) ≤ (z : ℝ) := by exact_mod_cast h
    rw [Rat.cast_mul, hmR] at this
    simpa [sq] using this
  have hs_le : z ≤ m * m → |((s : ℚ) : ℝ) - Real.sqrt (z : ℝ)| ≤ 1 / 2 := by
    intro h
    have : Real.sqrt (z : ℝ) ≤ (s : ℝ) + 1 / 2 := by
      apply Real.sqrt_le_iff.mpr
      refine ⟨by positivity, ?_⟩
      have : (z : ℝ) ≤ ((m * m : ℚ) : ℝ) := by exact_mod_cast h
      rw [Rat.cast_mul, hmR] at this
      simpa [sq] using this
    rw [hcast0, abs_le]
    constructor <;> linarith
  have hs1_le : m * m ≤ z → |(((s + 1 : ℕ) : ℚ) : ℝ) - Real.sqrt (z : ℝ)| ≤ 1 / 2 := by
    intro h
    have := habove h
    rw [hcast, abs_le]
    constructor <;> linarith
  split_ifs with ha hb hc
  · exact ⟨hspos, hs_le ha.le⟩
  · exact ⟨Nat.succ_pos _, hs1_le hb.le⟩
  · exact ⟨hspos, hs_le (not_lt.mp hb)⟩
  · exact ⟨Nat.succ_pos _, hs1_le (not_lt.mp ha)⟩

theorem sqrt_spec (x : ℚ) (hx : 0 < x) :
    ∃ y : ℚ, Double.sqrt (.finite x) = .finite y ∧ 0 < y ∧
      |(y : ℝ) - Real.sqrt (x : ℝ)| ≤ Real.sqrt (x : ℝ) / 2 ^ (53 : ℕ) := by
  obtain ⟨hlo, hhi⟩ := floorLog2_spec x hx.ne.symm
  rw [abs_of_pos hx] at hlo hhi
  have hdiv : 2 * (floorLog2 x / 2) ≤ floorLog2 x ∧ floorLog2 x + 1 ≤ 2 * (floorLog2 x / 2) + 2 := by
    omega
  have hpow : ∀ k : ℤ, (2 : ℚ) ^ (2 * k) = (2 : ℚ) ^ k * (2 : ℚ) ^ k := by
    intro k
    rw [two_mul, zpow_add₀ (by norm_num : (2 : ℚ) ≠ 0)]
  have hx1 : (2 : ℚ) ^ (2 * (floorLog2 x / 2)) ≤ x := le_trans (zpow_two_le hdiv.1) hlo
  have htpos := zpow_two_pos (floorLog2 x / 2 - 52)
  have ht2pos := zpow_two_pos (2 * (floorLog2 x / 2 - 52))
  have hz1 : 1 ≤ x / 2 ^ (2 * (floorLog2 x / 2 - 52)) := by
    rw [le_div_iff₀ ht2pos, one_mul]
    exact le_trans (zpow_two_le (by omega)) hx1
  obtain ⟨hnpos, hn⟩ := abs_nearestSqrt_sub_le _ hz1
  refine ⟨(nearestSqrt (x / 2 ^ (2 * (floorLog2 x / 2 - 52))) : ℚ) *
    2 ^ (floorLog2 x / 2 - 52), ?_, ?_, ?_⟩
  · simp only [Double.sqrt]
    rw [if_neg (not_lt.mpr hx.le), if_neg hx.ne.symm]
  · exact mul_pos (by exact_mod_cast hnpos) htpos
  · have hxR : (0 : ℝ) ≤ (x : ℝ) := by exact_mod_cast hx.le
    have htR : (0 : ℝ) < ((2 : ℝ) ^ (floorLog2 x / 2 - 52)) := zpow_pos (by norm_num) _
    have hroot : Real.sqrt (x : ℝ) =
        Real.sqrt ((x / 2 ^ (2 * (floorLog2 x / 2 - 52)) : ℚ) : ℝ) *
          (2 : ℝ) ^ (floorLog2 x / 2 - 52) := by
      have : (x : ℝ) = ((x / 2 ^ (2 * (floorLog2 x / 2 - 52)) : ℚ) : ℝ) *
          ((2 : ℝ) ^ (floorLog2 x / 2 - 52) * (2 : ℝ) ^ (floorLog2 x / 2 - 52)) := by
        have h2 : (x : ℚ) = x / 2 ^ (2 * (floorLog2 x / 2 - 52)) *
            ((2 : ℚ) ^ (floorLog2 x / 2 - 52) * (2 : ℚ) ^ (floorLog2 x / 2 - 52)) := by
          rw [← hpow]
          field_simp
        have h3 := congrArg (fun q : ℚ => (q : ℝ)) h2
        simp only [] at h3
        rw [h3]
        push_cast
        ring
      conv_lhs => rw [this]
      rw [Real.sqrt_mul (by exact_mod_cast (le_trans zero_le_one hz1)), Real.sqrt_mul_self htR.le]
    have hge : (2 : ℝ) ^ (floorLog2 x / 2) ≤ Real.sqrt (x : ℝ) := by
      apply Real.le_sqrt_of_sq_le
      have : (((2 : ℚ) ^ (2 * (floorLog2 x / 2)) : ℚ) : ℝ) ≤ (x : ℝ) := by exact_mod_cast hx1
      rw [hpow] at this
      push_cast at this
      rw [sq]
      exact this
    have hhalf : (2 : ℝ) ^ (floorLog2 x / 2 - 52) / 2 = (2 : ℝ) ^ (floorLog2 x / 2) / 2 ^ (53 : ℕ) := by
      rw [zpow_sub₀ (by norm_num : (2 : ℝ) ≠ 0)]
      norm_num
      ring
    push_cast
    rw [hroot] at hge ⊢
    set r := Real.sqrt ((x / 2 ^ (2 * (floorLog2 x / 2 - 52)) : ℚ) : ℝ) with hr
    set T := (2 : ℝ) ^ (floorLog2 x / 2 - 52) with hT
    have e1 : ∀ a : ℝ, a * T - r * T = (a - r) * T := fun a => by ring
    rw [e1, abs_mul, abs_of_pos htR]
    calc _ ≤ 1 / 2 * T := mul_le_mul_of_nonneg_right hn htR.le
      _ = T / 2 := by ring
      _ = (2 : ℝ) ^ (floorLog2 x / 2) / 2 ^ (53 : ℕ) := hhalf
      _ ≤ r * T / 2 ^ (53 : ℕ) := div_le_div_of_nonneg_right hge (by positivity)


/-! ## Relative errors -/

theorem unitRoundoff_eq : (unitRoundoff : ℝ) = 1 / 2 ^ (53 : ℕ) := by
  unfold unitRoundoff
  push_cast
  rfl

theorem unitRoundoff_pos : (0 : ℝ) < (unitRoundoff : ℝ) := by
  rw [unitRoundoff_eq]
  positivity

/-- A thousand unit roundoffs are far below one. -/
theorem thousand_roundoff {k : ℕ} (hk : k ≤ 1000) : (k : ℝ) * (unitRoundoff : ℝ) ≤ 1 / 2 ^ (43 : ℕ) := by
  rw [unitRoundoff_eq]
  have h : (k : ℝ) ≤ 1000 := by exact_mod_cast hk
  have h2 : (1000 : ℝ) * (1 / 2 ^ (53 : ℕ)) ≤ 1 / 2 ^ (43 : ℕ) := by norm_num
  have h3 : (0 : ℝ) ≤ 1 / 2 ^ (53 : ℕ) := by positivity
  nlinarith

theorem near_refl (x : ℝ) : Near 0 x x := by
  simp [Near]

theorem near_mono {k l : ℕ} {y x : ℝ} (h : Near k y x) (hkl : k ≤ l) : Near l y x := by
  unfold Near at *
  have h1 : (k : ℝ) ≤ (l : ℝ) := by exact_mod_cast hkl
  have h2 := unitRoundoff_pos
  have h3 := abs_nonneg x
  calc |y - x| ≤ (k : ℝ) * (unitRoundoff : ℝ) * |x| := h
    _ ≤ (l : ℝ) * (unitRoundoff : ℝ) * |x| := by
      apply mul_le_mul_of_nonneg_right _ h3
      exact mul_le_mul_of_nonneg_right h1 h2.le

theorem near_eq_zero {k : ℕ} {y : ℝ} (h : Near k y 0) : y = 0 := by
  unfold Near at h
  simpa using h

/-- An approximation is at most twice, and at least half, the exact value. -/
theorem near_abs_le {k : ℕ} {y x : ℝ} (h : Near k y x) (hk : k ≤ 1000) :
    |y| ≤ (1 + (k : ℝ) * (unitRoundoff : ℝ)) * |x| ∧ |x| / 2 ≤ |y| := by
  unfold Near at h
  have h1 := thousand_roundoff hk
  have h2 : (1 : ℝ) / 2 ^ (43 : ℕ) ≤ 1 / 2 := by norm_num
  have h3 := abs_nonneg x
  have h4 := abs_sub_abs_le_abs_sub y x
  have h5 := abs_sub_abs_le_abs_sub x y
  rw [abs_sub_comm x y] at h5
  have h6 : (k : ℝ) * (unitRoundoff : ℝ) * |x| ≤ 1 / 2 * |x| :=
    mul_le_mul_of_nonneg_right (le_trans h1 h2) h3
  constructor
  · linarith
  · linarith

theorem near_sign {k : ℕ} {y x : ℝ} (h : Near k y x) (hk : k ≤ 1000) :
    (0 ≤ x → 0 ≤ y) ∧ (0 < x → 0 < y) ∧ (x ≠ 0 → y ≠ 0) := by
  unfold Near at h
  have h1 := thousand_roundoff hk
  have h2 : (1 : ℝ) / 2 ^ (43 : ℕ) ≤ 1 / 2 := by norm_num
  have h3 := abs_nonneg x
  have h6 : (k : ℝ) * (unitRoundoff : ℝ) * |x| ≤ 1 / 2 * |x| :=
    mul_le_mul_of_nonneg_right (le_trans h1 h2) h3
  have h7 := abs_le.mp (le_trans h h6)
  refine ⟨fun hx => ?_, fun hx => ?_, fun hx => ?_⟩
  · rw [abs_of_nonneg hx] at h7
    linarith [h7.1]
  · rw [abs_of_pos hx] at h7
    linarith [h7.1]
  · rcases lt_or_gt_of_ne hx with hneg | hpos
    · rw [abs_of_neg hneg] at h7
      have : y < 0 := by linarith [h7.2]
      exact this.ne
    · rw [abs_of_pos hpos] at h7
      have : 0 < y := by linarith [h7.1]
      exact this.ne.symm

theorem near_mul {k l : ℕ} {y1 x1 y2 x2 : ℝ} (h1 : Near k y1 x1) (h2 : Near l y2 x2)
    (hk : k ≤ 1000) (hl : l ≤ 1000) : Near (k + l + 1) (y1 * y2) (x1 * x2) := by
  have hb := (near_abs_le h2 hl).1
  unfold Near at *
  have hu := unitRoundoff_pos
  have hku := thousand_roundoff hk
  have hlu := thousand_roundoff hl
  have hk0 : (0 : ℝ) ≤ (k : ℝ) := Nat.cast_nonneg k
  have hl0 : (0 : ℝ) ≤ (l : ℝ) := Nat.cast_nonneg l
  have e : y1 * y2 - x1 * x2 = (y1 - x1) * y2 + x1 * (y2 - x2) := by ring
  have hx1 := abs_nonneg x1
  have hx2 := abs_nonneg x2
  have t1 : |(y1 - x1) * y2| ≤ (k : ℝ) * (unitRoundoff : ℝ) * |x1| *
      ((1 + (l : ℝ) * (unitRoundoff : ℝ)) * |x2|) := by
    rw [abs_mul]
    exact mul_le_mul h1 hb (abs_nonneg _) (by positivity)
  have t2 : |x1 * (y2 - x2)| ≤ |x1| * ((l : ℝ) * (unitRoundoff : ℝ) * |x2|) := by
    rw [abs_mul]
    exact mul_le_mul_of_nonneg_left h2 hx1
  have hkl : (k : ℝ) * ((l : ℝ) * (unitRoundoff : ℝ)) ≤ 1 := by
    have : (k : ℝ) ≤ 1000 := by exact_mod_cast hk
    have h43 : (1000 : ℝ) * (1 / 2 ^ (43 : ℕ)) ≤ 1 := by norm_num
    have hlu0 : (0 : ℝ) ≤ (l : ℝ) * (unitRoundoff : ℝ) := by positivity
    nlinarith
  have hp : (0 : ℝ) ≤ (unitRoundoff : ℝ) * (|x1| * |x2|) := by positivity
  rw [e, abs_mul x1 x2]
  push_cast
  calc |(y1 - x1) * y2 + x1 * (y2 - x2)| ≤ |(y1 - x1) * y2| + |x1 * (y2 - x2)| := abs_add _ _
    _ ≤ (k : ℝ) * (unitRoundoff : ℝ) * |x1| * ((1 + (l : ℝ) * (unitRoundoff : ℝ)) * |x2|) +
          |x1| * ((l : ℝ) * (unitRoundoff : ℝ) * |x2|) := add_le_add t1 t2
    _ = ((k : ℝ) + l + (k : ℝ) * ((l : ℝ) * (unitRoundoff : ℝ))) *
          ((unitRoundoff : ℝ) * (|x1| * |x2|)) := by ring
    _ ≤ ((k : ℝ) + l + 1) * ((unitRoundoff : ℝ) * (|x1| * |x2|)) := by
      apply mul_le_mul_of_nonneg_right _ hp
      linarith
    _ = ((k : ℝ) + l + 1) * (unitRoundoff : ℝ) * (|x1| * |x2|) := by ring

theorem near_add_nonneg {k : ℕ} {y1 x1 y2 x2 : ℝ} (h1 : Near k y1 x1) (h2 : Near k y2 x2)
    (hx1 : 0 ≤ x1) (hx2 : 0 ≤ x2) : Near k (y1 + y2) (x1 + x2) := by
  unfold Near at *
  rw [abs_of_nonneg hx1] at h1
  rw [abs_of_nonneg hx2] at h2
  rw [abs_of_nonneg (add_nonneg hx1 hx2)]
  have e : y1 + y2 - (x1 + x2) = (y1 - x1) + (y2 - x2) := by ring
  rw [e]
  calc |(y1 - x1) + (y2 - x2)| ≤ |y1 - x1| + |y2 - x2| := abs_add _ _
    _ ≤ (k : ℝ) * (unitRoundoff : ℝ) * x1 + (k : ℝ) * (unitRoundoff : ℝ) * x2 := add_le_add h1 h2
    _ = (k : ℝ) * (unitRoundoff : ℝ) * (x1 + x2) := by ring

theorem near_sqrt {k : ℕ} {y x : ℝ} (h : Near k y x) (hx : 0 ≤ x) :
    Near k (Real.sqrt y) (Real.sqrt x) := by
  rcases hx.eq_or_lt with h0 | hpos
  · rw [← h0] at h ⊢
    rw [near_eq_zero h]
    exact near_mono (near_refl _) (Nat.zero_le _)
  · unfold Near at *
    have hs := Real.sqrt_pos.mpr hpos
    have hsy := Real.sqrt_nonneg y
    rw [abs_of_pos hpos] at h
    rw [abs_of_pos hs]
    by_cases hy : 0 ≤ y
    · have e : (Real.sqrt y - Real.sqrt x) * (Real.sqrt y + Real.sqrt x) = y - x := by
        have a1 := Real.mul_self_sqrt hy
        have a2 := Real.mul_self_sqrt hpos.le
        nlinarith
      have hsum : 0 < Real.sqrt y + Real.sqrt x := by linarith
      have habs : |Real.sqrt y - Real.sqrt x| * (Real.sqrt y + Real.sqrt x) = |y - x| := by
        rw [← e, abs_mul, abs_of_pos hsum]
      have hxx : Real.sqrt x * Real.sqrt x = x := Real.mul_self_sqrt hpos.le
      have hku : (0 : ℝ) ≤ (k : ℝ) * (unitRoundoff : ℝ) :=
        mul_nonneg (Nat.cast_nonneg k) unitRoundoff_pos.le
      by_contra hc
      rw [not_le] at hc
      have : (k : ℝ) * (unitRoundoff : ℝ) * Real.sqrt x * (Real.sqrt y + Real.sqrt x) <
          |Real.sqrt y - Real.sqrt x| * (Real.sqrt y + Real.sqrt x) :=
        mul_lt_mul_of_pos_right hc hsum
      rw [habs] at this
      have h5 : (k : ℝ) * (unitRoundoff : ℝ) * Real.sqrt x * (Real.sqrt y + Real.sqrt x) ≥
          (k : ℝ) * (unitRoundoff : ℝ) * x := by
        have : (k : ℝ) * (unitRoundoff : ℝ) * Real.sqrt x * (Real.sqrt y + Real.sqrt x) =
            (k : ℝ) * (unitRoundoff : ℝ) * (Real.sqrt x * Real.sqrt y) +
              (k : ℝ) * (unitRoundoff : ℝ) * (Real.sqrt x * Real.sqrt x) := by
          ring
        rw [this, hxx]
        have : 0 ≤ (k : ℝ) * (unitRoundoff : ℝ) * (Real.sqrt x * Real.sqrt y) := by positivity
        linarith
      linarith
    · rw [not_le] at hy
      rw [Real.sqrt_eq_zero_of_nonpos hy.le, zero_sub, abs_neg, abs_of_pos hs]
      -- y < 0 < x, so x ≤ |y - x| ≤ k u x, hence 1 ≤ k u and √x ≤ k u √x
      have h1 : x ≤ |y - x| := by
        rw [abs_sub_comm, abs_of_pos (by linarith)]
        linarith
      have h2 : 1 ≤ (k : ℝ) * (unitRoundoff : ℝ) := by
        by_contra hc
        rw [not_le] at hc
        have : (k : ℝ) * (unitRoundoff : ℝ) * x < 1 * x := mul_lt_mul_of_pos_right hc hpos
        linarith
      calc Real.sqrt x = 1 * Real.sqrt x := (one_mul _).symm
        _ ≤ (k : ℝ) * (unitRoundoff : ℝ) * Real.sqrt x := mul_le_mul_of_nonneg_right h2 hs.le

/-! ## Magnitudes, and the operations on approximations -/

theorem mag_mono {a b : ℕ} {x : ℝ} (h : Mag a x) (hab : a ≤ b) : Mag b x := by
  rcases h with h | ⟨h1, h2⟩
  · exact Or.inl h
  · have hp : (2 : ℝ) ^ a ≤ (2 : ℝ) ^ b := pow_le_pow_right₀ (by norm_num) hab
    refine Or.inr ⟨le_trans ?_ h1, le_trans h2 hp⟩
    exact one_div_le_one_div_of_le (by positivity) hp

theorem mag_mul {a b : ℕ} {x y : ℝ} (hx : Mag a x) (hy : Mag b y) : Mag (a + b) (x * y) := by
  rcases hx with hx | ⟨hx1, hx2⟩
  · exact Or.inl (by rw [hx, zero_mul])
  · rcases hy with hy | ⟨hy1, hy2⟩
    · exact Or.inl (by rw [hy, mul_zero])
    · refine Or.inr ⟨?_, ?_⟩
      · rw [abs_mul, pow_add]
        have : (1 : ℝ) / (2 ^ a * 2 ^ b) = 1 / 2 ^ a * (1 / 2 ^ b) := by
          field_simp
        rw [this]
        exact mul_le_mul hx1 hy1 (by positivity) (abs_nonneg _)
      · rw [abs_mul, pow_add]
        exact mul_le_mul hx2 hy2 (abs_nonneg _) (by positivity)

theorem mag_add_nonneg {a : ℕ} {x y : ℝ} (hx : Mag a x) (hy : Mag a y) (hx0 : 0 ≤ x)
    (hy0 : 0 ≤ y) : Mag (a + 1) (x + y) := by
  rcases hx with hx | ⟨hx1, hx2⟩
  · rw [hx, zero_add]
    exact mag_mono hy (Nat.le_succ a)
  · rcases hy with hy | ⟨hy1, hy2⟩
    · rw [hy, add_zero]
      exact mag_mono (Or.inr ⟨hx1, hx2⟩) (Nat.le_succ a)
    · rw [abs_of_nonneg hx0] at hx1 hx2
      rw [abs_of_nonneg hy0] at hy1 hy2
      refine Or.inr ⟨?_, ?_⟩
      · rw [abs_of_nonneg (add_nonneg hx0 hy0)]
        have hp : (1 : ℝ) / 2 ^ (a + 1) ≤ 1 / 2 ^ a :=
          one_div_le_one_div_of_le (by positivity) (pow_le_pow_right₀ (by norm_num) (Nat.le_succ a))
        linarith
      · rw [abs_of_nonneg (add_nonneg hx0 hy0), pow_succ]
        linarith

theorem mag_sqrt {a : ℕ} {x : ℝ} (hx : Mag a x) (hx0 : 0 ≤ x) : Mag a (Real.sqrt x) := by
  rcases hx with hx | ⟨hx1, hx2⟩
  · exact Or.inl (by rw [hx, Real.sqrt_zero])
  · rw [abs_of_nonneg hx0] at hx1 hx2
    have hpow1 : (1 : ℝ) ≤ 2 ^ a := one_le_pow₀ (by norm_num)
    have hpos : (0 : ℝ) < 2 ^ a := by positivity
    refine Or.inr ⟨?_, ?_⟩
    · rw [abs_of_nonneg (Real.sqrt_nonneg x)]
      apply Real.le_sqrt_of_sq_le
      have h1 : (1 : ℝ) / 2 ^ a ≤ 1 := by
        rw [div_le_one hpos]
        exact hpow1
      have h0 : (0 : ℝ) ≤ 1 / 2 ^ a := by positivity
      calc (1 / 2 ^ a : ℝ) ^ 2 = (1 / 2 ^ a) * (1 / 2 ^ a) := sq _
        _ ≤ 1 * (1 / 2 ^ a) := mul_le_mul_of_nonneg_right h1 h0
        _ = 1 / 2 ^ a := one_mul _
        _ ≤ x := hx1
    · rw [abs_of_nonneg (Real.sqrt_nonneg x)]
      apply Real.sqrt_le_iff.mpr
      refine ⟨hpos.le, ?_⟩
      calc x ≤ 2 ^ a := hx2
        _ = 1 * 2 ^ a := (one_mul _).symm
        _ ≤ 2 ^ a * 2 ^ a := mul_le_mul_of_nonneg_right hpow1 hpos.le
        _ = ((2 : ℝ) ^ a) ^ 2 := (sq _).symm

/-- Rounding an approximation of a value far from the limits of binary64 costs
at most two more unit roundoffs, and gives a finite double. -/
theorem round_near {k a : ℕ} {y : ℚ} {x : ℝ} (h : Near k (y : ℝ) x) (hm : Mag a x)
    (hk : k ≤ 998) (ha : a ≤ 1000) :
    ∃ y' : ℚ, Double.round y = .finite y' ∧ Near (k + 2) (y' : ℝ) x := by
  rcases hm with hx | ⟨hx1, hx2⟩
  · rw [hx] at h ⊢
    have hy : y = 0 := by exact_mod_cast near_eq_zero h
    refine ⟨0, by simp [hy, Double.round], ?_⟩
    simp [Near]
  · obtain ⟨hup, hlow⟩ := near_abs_le h (le_trans hk (by norm_num))
    have hku := thousand_roundoff (le_trans hk (by norm_num : 998 ≤ 1000))
    have h43 : (1 : ℝ) / 2 ^ (43 : ℕ) ≤ 1 := by norm_num
    have hx0 := abs_nonneg x
    have hpa : (2 : ℝ) ^ a ≤ 2 ^ (1000 : ℕ) := pow_le_pow_right₀ (by norm_num) ha
    have hpa' : (1 : ℝ) / 2 ^ (1000 : ℕ) ≤ 1 / 2 ^ a :=
      one_div_le_one_div_of_le (by positivity) hpa
    have hyR1 : |(y : ℝ)| ≤ 2 ^ (1023 : ℕ) := by
      have : |(y : ℝ)| ≤ 2 * |x| := by
        have : (1 + (k : ℝ) * (unitRoundoff : ℝ)) * |x| ≤ 2 * |x| :=
          mul_le_mul_of_nonneg_right (by linarith) hx0
        linarith
      have h3 : (2 : ℝ) * 2 ^ (1000 : ℕ) ≤ 2 ^ (1023 : ℕ) := by
        calc (2 : ℝ) * 2 ^ (1000 : ℕ) = 2 ^ (1001 : ℕ) := by rw [pow_succ _ 1000]; ring
          _ ≤ 2 ^ (1023 : ℕ) := pow_le_pow_right₀ (by norm_num) (by norm_num)
      linarith
    have hyR2 : (1 : ℝ) / 2 ^ (1022 : ℕ) ≤ |(y : ℝ)| := by
      have h3 : (1 : ℝ) / 2 ^ (1022 : ℕ) ≤ 1 / 2 ^ (1000 : ℕ) / 2 := by
        calc (1 : ℝ) / 2 ^ (1022 : ℕ) ≤ 1 / 2 ^ (1001 : ℕ) :=
              one_div_le_one_div_of_le (by positivity)
                (pow_le_pow_right₀ (by norm_num) (by norm_num))
          _ = 1 / 2 ^ (1000 : ℕ) / 2 := by rw [pow_succ _ 1000]; field_simp
      linarith
    have hyQ1 : |y| ≤ 2 ^ (1023 : ℕ) := by
      have e : ((2 ^ (1023 : ℕ) : ℚ) : ℝ) = (2 : ℝ) ^ (1023 : ℕ) := by
        simp only [Rat.cast_pow, Rat.cast_ofNat]
      have : ((|y| : ℚ) : ℝ) ≤ ((2 ^ (1023 : ℕ) : ℚ) : ℝ) := by
        rw [Rat.cast_abs, e]
        exact hyR1
      exact Rat.cast_le.mp this
    have hyQ2 : 1 / 2 ^ (1022 : ℕ) ≤ |y| := by
      have e : ((1 / 2 ^ (1022 : ℕ) : ℚ) : ℝ) = 1 / (2 : ℝ) ^ (1022 : ℕ) := by
        simp only [Rat.cast_div, Rat.cast_one, Rat.cast_pow, Rat.cast_ofNat]
      have : ((1 / 2 ^ (1022 : ℕ) : ℚ) : ℝ) ≤ ((|y| : ℚ) : ℝ) := by
        rw [Rat.cast_abs, e]
        exact hyR2
      exact Rat.cast_le.mp this
    obtain ⟨y', hy', -, hrel, -⟩ := round_spec y hyQ1
    have hrelQ := hrel hyQ2
    have hrelR : |(y' : ℝ) - (y : ℝ)| ≤ |(y : ℝ)| * (unitRoundoff : ℝ) := by
      have : |(y' : ℝ) - (y : ℝ)| ≤ |(y : ℝ)| / 2 ^ (53 : ℕ) := by exact_mod_cast hrelQ
      rw [unitRoundoff_eq]
      calc |(y' : ℝ) - (y : ℝ)| ≤ |(y : ℝ)| / 2 ^ (53 : ℕ) := this
        _ = |(y : ℝ)| * (1 / 2 ^ (53 : ℕ)) := by ring
    refine ⟨y', hy', ?_⟩
    have hu := unitRoundoff_pos
    have hNear : |(y : ℝ) - x| ≤ (k : ℝ) * (unitRoundoff : ℝ) * |x| := h
    show |(y' : ℝ) - x| ≤ ((k + 2 : ℕ) : ℝ) * (unitRoundoff : ℝ) * |x|
    push_cast
    have e : (y' : ℝ) - x = ((y' : ℝ) - (y : ℝ)) + ((y : ℝ) - x) := by ring
    have hy2 : |(y : ℝ)| * (unitRoundoff : ℝ) ≤ 2 * |x| * (unitRoundoff : ℝ) := by
      apply mul_le_mul_of_nonneg_right _ hu.le
      have : (1 + (k : ℝ) * (unitRoundoff : ℝ)) * |x| ≤ 2 * |x| :=
        mul_le_mul_of_nonneg_right (by linarith) hx0
      linarith
    rw [e]
    calc |((y' : ℝ) - (y : ℝ)) + ((y : ℝ) - x)| ≤ |(y' : ℝ) - (y : ℝ)| + |(y : ℝ) - x| :=
          abs_add _ _
      _ ≤ 2 * |x| * (unitRoundoff : ℝ) + (k : ℝ) * (unitRoundoff : ℝ) * |x| := by linarith
      _ = ((k : ℝ) + 2) * (unitRoundoff : ℝ) * |x| := by ring

theorem mul_near {k l a b : ℕ} {y1 y2 : ℚ} {x1 x2 : ℝ} (h1 : Near k (y1 : ℝ) x1)
    (h2 : Near l (y2 : ℝ) x2) (m1 : Mag a x1) (m2 : Mag b x2) (hk : k ≤ 400) (hl : l ≤ 400)
    (hab : a + b ≤ 1000) :
    ∃ y : ℚ, (Double.finite y1).mul (.finite y2) = .finite y ∧
      Near (k + l + 3) (y : ℝ) (x1 * x2) := by
  have h := near_mul h1 h2 (le_trans hk (by norm_num)) (le_trans hl (by norm_num))
  have hc : ((y1 * y2 : ℚ) : ℝ) = (y1 : ℝ) * (y2 : ℝ) := by push_cast; ring
  rw [← hc] at h
  obtain ⟨y, hy, hn⟩ := round_near h (mag_mul m1 m2) (by omega) hab
  exact ⟨y, hy, hn⟩

theorem add_near_nonneg {k a : ℕ} {y1 y2 : ℚ} {x1 x2 : ℝ} (h1 : Near k (y1 : ℝ) x1)
    (h2 : Near k (y2 : ℝ) x2) (m1 : Mag a x1) (m2 : Mag a x2) (hx1 : 0 ≤ x1) (hx2 : 0 ≤ x2)
    (hk : k ≤ 998) (ha : a + 1 ≤ 1000) :
    ∃ y : ℚ, (Double.finite y1).add (.finite y2) = .finite y ∧ Near (k + 2) (y : ℝ) (x1 + x2) := by
  have h := near_add_nonneg h1 h2 hx1 hx2
  have hc : ((y1 + y2 : ℚ) : ℝ) = (y1 : ℝ) + (y2 : ℝ) := by push_cast; ring
  rw [← hc] at h
  obtain ⟨y, hy, hn⟩ := round_near h (mag_add_nonneg m1 m2 hx1 hx2) hk ha
  exact ⟨y, hy, hn⟩

theorem sqrt_near {k : ℕ} {y : ℚ} {x : ℝ} (h : Near k (y : ℝ) x) (hx : 0 ≤ x) (hk : k ≤ 998) :
    ∃ y' : ℚ, (Double.finite y).sqrt = .finite y' ∧ Near (k + 2) (y' : ℝ) (Real.sqrt x) := by
  have hk' : k ≤ 1000 := le_trans hk (by norm_num)
  rcases hx.eq_or_lt with h0 | hpos
  · rw [← h0] at h
    have hy : y = 0 := by exact_mod_cast near_eq_zero h
    refine ⟨0, by rw [hy]; exact sqrt_zero, ?_⟩
    rw [← h0]
    simp [Near]
  · have hyposR := (near_sign h hk').2.1 hpos
    have hypos : 0 < y := by exact_mod_cast hyposR
    obtain ⟨y', hy', -, herr⟩ := sqrt_spec y hypos
    refine ⟨y', hy', ?_⟩
    have hs := near_sqrt h hx
    have hup := (near_abs_le hs hk').1
    have hsx := Real.sqrt_nonneg x
    have hsy := Real.sqrt_nonneg (y : ℝ)
    rw [abs_of_nonneg hsy, abs_of_nonneg hsx] at hup
    have hku := thousand_roundoff hk'
    have h43 : (1 : ℝ) / 2 ^ (43 : ℕ) ≤ 1 := by norm_num
    have hu := unitRoundoff_pos
    have hsy2 : Real.sqrt (y : ℝ) ≤ 2 * Real.sqrt x := by
      have : (1 + (k : ℝ) * (unitRoundoff : ℝ)) * Real.sqrt x ≤ 2 * Real.sqrt x :=
        mul_le_mul_of_nonneg_right (by linarith) hsx
      linarith
    have herr' : |(y' : ℝ) - Real.sqrt (y : ℝ)| ≤ 2 * Real.sqrt x * (unitRoundoff : ℝ) := by
      rw [unitRoundoff_eq]
      calc |(y' : ℝ) - Real.sqrt (y : ℝ)| ≤ Real.sqrt (y : ℝ) / 2 ^ (53 : ℕ) := herr
        _ = Real.sqrt (y : ℝ) * (1 / 2 ^ (53 : ℕ)) := by ring
        _ ≤ 2 * Real.sqrt x * (1 / 2 ^ (53 : ℕ)) :=
          mul_le_mul_of_nonneg_right hsy2 (by positivity)
    have hs' : |Real.sqrt (y : ℝ) - Real.sqrt x| ≤ (k : ℝ) * (unitRoundoff : ℝ) * |Real.sqrt x| := hs
    rw [abs_of_nonneg hsx] at hs'
    show |(y' : ℝ) - Real.sqrt x| ≤ ((k + 2 : ℕ) : ℝ) * (unitRoundoff : ℝ) * |Real.sqrt x|
    rw [abs_of_nonneg hsx]
    push_cast
    have e : (y' : ℝ) - Real.sqrt x =
        ((y' : ℝ) - Real.sqrt (y : ℝ)) + (Real.sqrt (y : ℝ) - Real.sqrt x) := by ring
    rw [e]
    calc _ ≤ |(y' : ℝ) - Real.sqrt (y : ℝ)| + |Real.sqrt (y : ℝ) - Real.sqrt x| := abs_add _ _
      _ ≤ 2 * Real.sqrt x * (unitRoundoff : ℝ) + (k : ℝ) * (unitRoundoff : ℝ) * Real.sqrt x := by
        linarith
      _ = ((k : ℝ) + 2) * (unitRoundoff : ℝ) * Real.sqrt x := by ring

/-! ## The weighted vectors in double arithmetic -/

theorem mag_ofRat {a : ℕ} {v : ℚ} (h : v = 0 ∨ (1 / 2 ^ a ≤ |v| ∧ |v| ≤ 2 ^ a)) :
    Mag a (v : ℝ) := by
  rcases h with h | ⟨h1, h2⟩
  · exact Or.inl (by rw [h]; norm_num)
  · refine Or.inr ⟨?_, ?_⟩
    · have : ((1 / 2 ^ a : ℚ) : ℝ) ≤ ((|v| : ℚ) : ℝ) := Rat.cast_le.mpr h1
      rw [Rat.cast_abs] at this
      simpa using this
    · have : ((|v| : ℚ) : ℝ) ≤ ((2 ^ a : ℚ) : ℝ) := Rat.cast_le.mpr h2
      rw [Rat.cast_abs] at this
      simpa using this

theorem round_of_inRange {a : ℕ} {v : ℚ} (h : Mag a (v : ℝ)) (ha : a ≤ 1000) :
    ∃ y : ℚ, Double.round v = .finite y ∧ Near 2 (y : ℝ) (v : ℝ) :=
  round_near (near_refl _) h (by norm_num) ha

theorem factorWeights_mag (f : Factor) : Mag 5 ((factorWeights f : ℚ) : ℝ) := by
  apply mag_ofRat
  right
  cases f <;> norm_num [factorWeights, abs_of_pos]

theorem round_factorWeights (f : Factor) :
    ∃ w : ℚ, Double.round (factorWeights f) = .finite w ∧
      Near 2 (w : ℝ) ((factorWeights f : ℚ) : ℝ) :=
  round_of_inRange (factorWeights_mag f) (by norm_num)

theorem orElse_inRange {x : Option ℚ} (h : ∀ v, x = some v → InDoubleRange v) :
    Mag 100 ((orElse x 3 : ℚ) : ℝ) ∧ orElse x 3 ≠ 0 := by
  unfold orElse
  have h3 : Mag 100 (((3 : ℚ) : ℚ) : ℝ) := by
    apply mag_ofRat
    right
    norm_num [abs_of_pos]
  cases x with
  | none => exact ⟨h3, by norm_num⟩
  | some v =>
    simp only []
    split_ifs with hv
    · exact ⟨h3, by norm_num⟩
    · exact ⟨mag_ofRat (h v rfl), hv⟩

theorem orElseDouble_near {x : Option ℚ} (h : ∀ v, x = some v → InDoubleRange v) :
    ∃ y : ℚ, orElseDouble x (.finite 3) = .finite y ∧ Near 2 (y : ℝ) ((orElse x 3 : ℚ) : ℝ) := by
  have h3 : Near 2 (((3 : ℚ) : ℚ) : ℝ) (((3 : ℚ) : ℚ) : ℝ) := near_mono (near_refl _) (by norm_num)
  cases x with
  | none => exact ⟨3, rfl, h3⟩
  | some v =>
    obtain ⟨y, hy, hn⟩ := round_of_inRange (mag_ofRat (h v rfl)) (by norm_num : 100 ≤ 1000)
    by_cases hv : v = 0
    · subst hv
      refine ⟨3, ?_, ?_⟩
      · simp [orElseDouble, Double.round, Double.truthy]
      · simpa [orElse] using h3
    · have hvR : (v : ℝ) ≠ 0 := by exact_mod_cast hv
      have hyR := (near_sign hn (by norm_num)).2.2 hvR
      have hy0 : y ≠ 0 := by exact_mod_cast hyR
      refine ⟨y, ?_, ?_⟩
      · simp [orElseDouble, hy, Double.truthy, hy0]
      · simpa [orElse, hv] using hn

/-- The entry of `weightedUserScores` at a factor, in double arithmetic. -/
theorem userWeighted_near (p : UserPreferences) (hp : ∀ f v, p f = some v → InDoubleRange v)
    (f : Factor) :
    ∃ y : ℚ, ((orElseDouble (p f) (.finite 3)).mul (.finite 2)).mul
        (Double.round (factorWeights f)) = .finite y ∧
      Near 10 (y : ℝ) ((userWeighted p f : ℚ) : ℝ) ∧ Mag 106 ((userWeighted p f : ℚ) : ℝ) ∧
      userWeighted p f ≠ 0 := by
  obtain ⟨r, hr, hrn⟩ := orElseDouble_near (hp f)
  obtain ⟨hrm, hr0⟩ := orElse_inRange (hp f)
  obtain ⟨w, hw, hwn⟩ := round_factorWeights f
  have h2n : Near 0 (((2 : ℚ) : ℚ) : ℝ) (2 : ℝ) := by
    have := near_refl (2 : ℝ)
    simpa using this
  have h2m : Mag 1 (2 : ℝ) := Or.inr (by norm_num [abs_of_pos])
  obtain ⟨s, hs, hsn⟩ := mul_near hrn h2n hrm h2m (by norm_num) (by norm_num) (by norm_num)
  obtain ⟨y, hy, hyn⟩ := mul_near hsn hwn (mag_mul hrm h2m) (factorWeights_mag f)
    (by norm_num) (by norm_num) (by norm_num)
  have hcast : ((userWeighted p f : ℚ) : ℝ) =
      ((orElse (p f) 3 : ℚ) : ℝ) * 2 * ((factorWeights f : ℚ) : ℝ) := by
    unfold userWeighted
    push_cast
    ring
  refine ⟨y, by rw [hr, hs, hw, hy], ?_, ?_, ?_⟩
  · rw [hcast]
    exact hyn
  · rw [hcast]
    exact mag_mul (mag_mul hrm h2m) (factorWeights_mag f)
  · unfold userWeighted
    exact mul_ne_zero (mul_ne_zero hr0 (by norm_num)) (factorWeights_pos f).ne.symm

/-- The entry of `weightedNeighborhoodScores` at a factor, in double arithmetic. -/
theorem neighborhoodWeighted_near (ft : Features) (hft : ∀ f, InDoubleRange (ft.get f))
    (f : Factor) :
    ∃ y : ℚ, (Double.round (ft.get f)).mul (Double.round (factorWeights f)) = .finite y ∧
      Near 10 (y : ℝ) ((neighborhoodWeighted ft f : ℚ) : ℝ) ∧
      Mag 106 ((neighborhoodWeighted ft f : ℚ) : ℝ) := by
  have hm := mag_ofRat (hft f)
  obtain ⟨r, hr, hrn⟩ := round_of_inRange hm (by norm_num : 100 ≤ 1000)
  obtain ⟨w, hw, hwn⟩ := round_factorWeights f
  obtain ⟨y, hy, hyn⟩ := mul_near hrn hwn hm (factorWeights_mag f)
    (by norm_num) (by norm_num) (by norm_num)
  have hcast : ((neighborhoodWeighted ft f : ℚ) : ℝ) =
      ((ft.get f : ℚ) : ℝ) * ((factorWeights f : ℚ) : ℝ) := by
    unfold neighborhoodWeighted
    push_cast
    ring
  refine ⟨y, by rw [hr, hw, hy], ?_, ?_⟩
  · rw [hcast]
    exact near_mono hyn (by norm_num)
  · rw [hcast]
    exact mag_mono (mag_mul hm (factorWeights_mag f)) (by norm_num)

theorem weightedDouble_userScoresDouble (p : UserPreferences) :
    weightedDouble (userScoresDouble p) =
      factors.map (fun f => ((orElseDouble (p f) (.finite 3)).mul (.finite 2)).mul
        (Double.round (factorWeights f))) := rfl

theorem weightedDouble_neighborhoodScoresDouble (ft : Features) :
    weightedDouble (neighborhoodScoresDouble ft) =
      factors.map (fun f => (Double.round (ft.get f)).mul (Double.round (factorWeights f))) := rfl

/-! ## The sums of squares and the magnitudes in double arithmetic -/

theorem foldl_sumSquares_near (D : Factor → Double) (Y : Factor → ℚ) (X : Factor → ℝ)
    (hD : ∀ f, D f = .finite (Y f) ∧ Near 10 (Y f : ℝ) (X f) ∧ Mag 106 (X f)) :
    ∀ (l : List Factor) (S : ℚ) (T : ℝ) (c a : ℕ), Near c (S : ℝ) T → 0 ≤ T → Mag a T →
      23 ≤ c → c + 2 * l.length ≤ 900 → 212 ≤ a → a + l.length ≤ 1000 →
      ∃ S' : ℚ,
        (l.map D).foldl (fun (sum val : Double) => sum.add (val.mul val)) (Double.finite S) =
          Double.finite S' ∧
        Near (c + 2 * l.length) (S' : ℝ) (T + (l.map (fun f => X f * X f)).sum) := by
  intro l
  induction l with
  | nil =>
    intro S T c a hS _ _ _ _ _ _
    exact ⟨S, rfl, by simpa using hS⟩
  | cons f l ih =>
    intro S T c a hS hT hmT hc hcl ha hal
    obtain ⟨hDf, hn, hm⟩ := hD f
    simp only [List.length_cons] at hcl hal
    obtain ⟨A, hA, hAn⟩ := mul_near hn hn hm hm (by norm_num) (by norm_num) (by norm_num)
    have hxx : 0 ≤ X f * X f := mul_self_nonneg _
    obtain ⟨S1, hS1, hS1n⟩ := add_near_nonneg hS (near_mono hAn (by omega)) hmT
      (mag_mono (mag_mul hm hm) (by omega)) hT hxx (by omega) (by omega)
    obtain ⟨S', hS', hS'n⟩ := ih S1 (T + X f * X f) (c + 2) (a + 1) hS1n (add_nonneg hT hxx)
      (mag_add_nonneg hmT (mag_mono (mag_mul hm hm) (by omega)) hT hxx) (by omega) (by omega)
      (by omega) (by omega)
    refine ⟨S', ?_, ?_⟩
    · simp only [List.map_cons, List.foldl_cons, hDf, hA, hS1]
      exact hS'
    · have e1 : c + 2 + 2 * l.length = c + 2 * (l.length + 1) := by ring
      have e2 : T + X f * X f + (l.map (fun f => X f * X f)).sum =
          T + ((f :: l).map (fun f => X f * X f)).sum := by
        simp only [List.map_cons, List.sum_cons]
        ring
      rw [e1, e2] at hS'n
      simpa using hS'n

/-- `Math.sqrt` of the reduced sum of squares is within 41 unit roundoffs of the
exact magnitude. -/
theorem magnitude_near (D : Factor → Double) (Y : Factor → ℚ) (X : Factor → ℝ)
    (hD : ∀ f, D f = .finite (Y f) ∧ Near 10 (Y f : ℝ) (X f) ∧ Mag 106 (X f)) :
    ∃ m : ℚ, magnitudeDouble (factors.map D) = .finite m ∧
      Near 41 (m : ℝ) (Real.sqrt ((factors.map (fun f => X f * X f)).sum)) := by
  have h0 : Near 23 (((0 : ℚ) : ℚ) : ℝ) (0 : ℝ) := by simp [Near]
  obtain ⟨S, hS, hSn⟩ := foldl_sumSquares_near D Y X hD factors 0 0 23 212 h0 le_rfl
    (Or.inl rfl) le_rfl (by simp [factors]) le_rfl (by simp [factors])
  have hlen : 23 + 2 * factors.length = 39 := by simp [factors]
  rw [hlen, zero_add] at hSn
  have hsum : 0 ≤ (factors.map (fun f => X f * X f)).sum :=
    List.sum_nonneg (by
      intro x hx
      obtain ⟨f, -, rfl⟩ := List.mem_map.mp hx
      exact mul_self_nonneg _)
  obtain ⟨m, hm, hmn⟩ := sqrt_near hSn hsum (by norm_num)
  exact ⟨m, by unfold magnitudeDouble sumSquaresDouble; rw [hS, hm], hmn⟩

theorem sumSquares_cast (a : Factor → ℚ) :
    ((sumSquares (factors.map a) : ℚ) : ℝ) =
      (factors.map (fun f => ((a f : ℚ) : ℝ) * ((a f : ℚ) : ℝ))).sum := by
  simp only [sumSquares, factors, List.map, List.foldl, List.sum_cons, List.sum_nil]
  push_cast
  ring

theorem dotProduct_cast (a b : Factor → ℚ) :
    ((dotProduct (factors.map a) (factors.map b) : ℚ) : ℝ) =
      (factors.map (fun f => ((a f : ℚ) : ℝ) * ((b f : ℚ) : ℝ))).sum := by
  simp only [dotProduct, factors, List.map, List.zipWith, List.foldl, List.sum_cons, List.sum_nil]
  push_cast
  ring

/-! ## The dot product in double arithmetic -/

theorem tinyError_eq : (tinyError : ℝ) = 1 / 2 ^ (1075 : ℕ) := by
  unfold tinyError
  simp only [Rat.cast_div, Rat.cast_one, Rat.cast_pow, Rat.cast_ofNat]

theorem tinyError_pos : (0 : ℝ) < (tinyError : ℝ) := by
  rw [tinyError_eq]
  positivity

theorem tinyError_le : (1000 : ℝ) * (tinyError : ℝ) ≤ 1 := by
  rw [tinyError_eq]
  norm_num

/-- Rounding a rational below `2 ^ 1023` in magnitude gives a finite double
within one unit roundoff, relatively, plus `2 ^ (-1075)`. -/
theorem round_abs_error (q : ℚ) (hq : |(q : ℝ)| ≤ 2 ^ (1023 : ℕ)) :
    ∃ y : ℚ, Double.round q = .finite y ∧
      |(y : ℝ) - (q : ℝ)| ≤ (unitRoundoff : ℝ) * |(q : ℝ)| + (tinyError : ℝ) := by
  have hqQ : |q| ≤ 2 ^ (1023 : ℕ) := by
    have e : ((2 ^ (1023 : ℕ) : ℚ) : ℝ) = (2 : ℝ) ^ (1023 : ℕ) := by
      simp only [Rat.cast_pow, Rat.cast_ofNat]
    have : ((|q| : ℚ) : ℝ) ≤ ((2 ^ (1023 : ℕ) : ℚ) : ℝ) := by
      rw [Rat.cast_abs, e]
      exact hq
    exact Rat.cast_le.mp this
  obtain ⟨y, hy, habs, -, -⟩ := round_spec q hqQ
  refine ⟨y, hy, ?_⟩
  have h1 : ((|y - q| : ℚ) : ℝ) ≤ ((|q| / 2 ^ (53 : ℕ) + 1 / 2 ^ (1075 : ℕ) : ℚ) : ℝ) :=
    Rat.cast_le.mpr habs
  rw [Rat.cast_abs, Rat.cast_sub, Rat.cast_add, Rat.cast_div, Rat.cast_abs] at h1
  have e1 : (((2 : ℚ) ^ (53 : ℕ) : ℚ) : ℝ) = (2 : ℝ) ^ (53 : ℕ) := by
    simp only [Rat.cast_pow, Rat.cast_ofNat]
  have e2 : ((1 / 2 ^ (1075 : ℕ) : ℚ) : ℝ) = (tinyError : ℝ) := rfl
  rw [e1, e2] at h1
  rw [unitRoundoff_eq]
  calc |(y : ℝ) - (q : ℝ)| ≤ |(q : ℝ)| / 2 ^ (53 : ℕ) + (tinyError : ℝ) := h1
    _ = 1 / 2 ^ (53 : ℕ) * |(q : ℝ)| + (tinyError : ℝ) := by ring

/-- One step of the reduce of the dot product: the running sum `S` stays within
`c` unit roundoffs of the sum `B` of the absolute values, plus `m` tiny errors. -/
theorem add_near_abs {c m n : ℕ} {S Q : ℚ} {T B Z : ℝ}
    (hS : |(S : ℝ) - T| ≤ (c : ℝ) * (unitRoundoff : ℝ) * B + (m : ℝ) * (tinyError : ℝ))
    (hT : |T| ≤ B) (hB : B ≤ (n : ℝ) * 2 ^ (212 : ℕ)) (hQ : Near 23 (Q : ℝ) Z)
    (hZ : |Z| ≤ 2 ^ (212 : ℕ)) (hc : 23 ≤ c) (hc' : c ≤ 900) (hm : m ≤ 900) (hn : n ≤ 1000) :
    ∃ S1 : ℚ, (Double.finite S).add (.finite Q) = .finite S1 ∧
      |(S1 : ℝ) - (T + Z)| ≤ ((c + 2 : ℕ) : ℝ) * (unitRoundoff : ℝ) * (B + |Z|) +
        ((m + 2 : ℕ) : ℝ) * (tinyError : ℝ) := by
  have hu := unitRoundoff_pos
  have he := tinyError_pos
  have he1 := tinyError_le
  have hB0 : 0 ≤ B := le_trans (abs_nonneg T) hT
  have hZ0 := abs_nonneg Z
  have hcu := thousand_roundoff (le_trans hc' (by norm_num : 900 ≤ 1000))
  have h23u := thousand_roundoff (by norm_num : 23 ≤ 1000)
  have h43 : (1 : ℝ) / 2 ^ (43 : ℕ) ≤ 1 := by norm_num
  have hcR : (23 : ℝ) ≤ (c : ℝ) := by exact_mod_cast hc
  have hmR : (m : ℝ) ≤ 900 := by exact_mod_cast hm
  have hm0 : (0 : ℝ) ≤ (m : ℝ) := Nat.cast_nonneg m
  have hnR : (n : ℝ) ≤ 1000 := by exact_mod_cast hn
  have hQ' : |(Q : ℝ) - Z| ≤ (23 : ℝ) * (unitRoundoff : ℝ) * |Z| := by
    have := hQ
    unfold Near at this
    simpa using this
  -- products bounded by their factors
  have p1 : (c : ℝ) * (unitRoundoff : ℝ) * B ≤ B := by
    have := mul_le_mul_of_nonneg_right (le_trans hcu h43) hB0
    linarith
  have p2 : (23 : ℝ) * (unitRoundoff : ℝ) * |Z| ≤ |Z| := by
    have h23' : (23 : ℝ) * (unitRoundoff : ℝ) ≤ 1 := by
      have := h23u
      push_cast at this
      linarith
    have := mul_le_mul_of_nonneg_right h23' hZ0
    linarith
  have hme : (m : ℝ) * (tinyError : ℝ) ≤ 1 := by
    have : (m : ℝ) * (tinyError : ℝ) ≤ 1000 * (tinyError : ℝ) :=
      mul_le_mul_of_nonneg_right (by linarith) he.le
    linarith
  -- the magnitude of the exact sum
  have hq1 : |(S : ℝ) + (Q : ℝ)| ≤ 2 * (B + |Z|) + (m : ℝ) * (tinyError : ℝ) := by
    have e : (S : ℝ) + (Q : ℝ) = (T + Z) + ((S : ℝ) - T) + ((Q : ℝ) - Z) := by ring
    rw [e]
    have t1 := abs_add ((T + Z) + ((S : ℝ) - T)) ((Q : ℝ) - Z)
    have t2 := abs_add (T + Z) ((S : ℝ) - T)
    have t3 := abs_add T Z
    linarith
  have hq2 : |(((S + Q : ℚ) : ℚ) : ℝ)| ≤ 2 ^ (1023 : ℕ) := by
    rw [Rat.cast_add]
    have hb : 2 * (B + |Z|) + (m : ℝ) * (tinyError : ℝ) ≤
        2 * (1000 * 2 ^ (212 : ℕ) + 2 ^ (212 : ℕ)) + 1 := by
      have : (n : ℝ) * 2 ^ (212 : ℕ) ≤ 1000 * 2 ^ (212 : ℕ) :=
        mul_le_mul_of_nonneg_right hnR (by positivity)
      linarith
    have hnum : (2 : ℝ) * (1000 * 2 ^ (212 : ℕ) + 2 ^ (212 : ℕ)) + 1 ≤ 2 ^ (1023 : ℕ) := by
      norm_num
    linarith
  obtain ⟨S1, hS1, herr⟩ := round_abs_error (S + Q) hq2
  rw [Rat.cast_add] at herr
  refine ⟨S1, hS1, ?_⟩
  have hu1 : (unitRoundoff : ℝ) * |(S : ℝ) + (Q : ℝ)| ≤
      2 * (unitRoundoff : ℝ) * (B + |Z|) + (tinyError : ℝ) := by
    have a1 : (unitRoundoff : ℝ) * |(S : ℝ) + (Q : ℝ)| ≤
        (unitRoundoff : ℝ) * (2 * (B + |Z|) + (m : ℝ) * (tinyError : ℝ)) :=
      mul_le_mul_of_nonneg_left hq1 hu.le
    have a2 : (unitRoundoff : ℝ) * ((m : ℝ) * (tinyError : ℝ)) ≤ (tinyError : ℝ) := by
      have hum : (unitRoundoff : ℝ) * (m : ℝ) ≤ 1 := by
        have := thousand_roundoff (le_trans hm (by norm_num : 900 ≤ 1000))
        linarith
      have := mul_le_mul_of_nonneg_right hum he.le
      linarith
    linarith
  have e : (S1 : ℝ) - (T + Z) =
      ((S1 : ℝ) - ((S : ℝ) + (Q : ℝ))) + ((S : ℝ) - T) + ((Q : ℝ) - Z) := by ring
  have t1 := abs_add (((S1 : ℝ) - ((S : ℝ) + (Q : ℝ))) + ((S : ℝ) - T)) ((Q : ℝ) - Z)
  have t2 := abs_add ((S1 : ℝ) - ((S : ℝ) + (Q : ℝ))) ((S : ℝ) - T)
  have g1 : (c : ℝ) * (unitRoundoff : ℝ) * B ≤ (c : ℝ) * (unitRoundoff : ℝ) * (B + |Z|) := by
    apply mul_le_mul_of_nonneg_left (by linarith)
    positivity
  have g2 : (23 : ℝ) * (unitRoundoff : ℝ) * |Z| ≤ (c : ℝ) * (unitRoundoff : ℝ) * |Z| := by
    apply mul_le_mul_of_nonneg_right _ hZ0
    exact mul_le_mul_of_nonneg_right hcR hu.le
  rw [e]
  push_cast
  have expand : ((c : ℝ) + 2) * (unitRoundoff : ℝ) * (B + |Z|) + ((m : ℝ) + 2) * (tinyError : ℝ) =
      (c : ℝ) * (unitRoundoff : ℝ) * B + (c : ℝ) * (unitRoundoff : ℝ) * |Z| +
        2 * (unitRoundoff : ℝ) * (B + |Z|) + (m : ℝ) * (tinyError : ℝ) + 2 * (tinyError : ℝ) := by
    ring
  rw [expand]
  linarith

theorem mag_abs_le {a : ℕ} {x : ℝ} (h : Mag a x) : |x| ≤ 2 ^ a := by
  rcases h with h | ⟨-, h⟩
  · rw [h, abs_zero]
    positivity
  · exact h

theorem foldl_dot_near (P : Factor → Double) (Q : Factor → ℚ) (Z : Factor → ℝ)
    (hP : ∀ f, P f = .finite (Q f) ∧ Near 23 (Q f : ℝ) (Z f) ∧ Mag 212 (Z f)) :
    ∀ (l : List Factor) (S : ℚ) (T B : ℝ) (c m n : ℕ),
      |(S : ℝ) - T| ≤ (c : ℝ) * (unitRoundoff : ℝ) * B + (m : ℝ) * (tinyError : ℝ) →
      |T| ≤ B → B ≤ (n : ℝ) * 2 ^ (212 : ℕ) → 23 ≤ c → c + 2 * l.length ≤ 900 →
      m + 2 * l.length ≤ 900 → n + l.length ≤ 1000 →
      ∃ S' : ℚ,
        (l.map P).foldl (fun (sum p : Double) => sum.add p) (Double.finite S) =
          Double.finite S' ∧
        |(S' : ℝ) - (T + (l.map Z).sum)| ≤
          ((c + 2 * l.length : ℕ) : ℝ) * (unitRoundoff : ℝ) *
              (B + (l.map (fun f => |Z f|)).sum) +
            ((m + 2 * l.length : ℕ) : ℝ) * (tinyError : ℝ) := by
  intro l
  induction l with
  | nil =>
    intro S T B c m n hS _ _ _ _ _ _
    exact ⟨S, rfl, by simpa using hS⟩
  | cons f l ih =>
    intro S T B c m n hS hT hB hc hcl hml hnl
    obtain ⟨hPf, hn, hm⟩ := hP f
    simp only [List.length_cons] at hcl hml hnl
    have hZ := mag_abs_le hm
    obtain ⟨S1, hS1, hS1e⟩ := add_near_abs hS hT hB hn hZ hc (by omega) (by omega) (by omega)
    have hT1 : |T + Z f| ≤ B + |Z f| := le_trans (abs_add _ _) (by linarith)
    have hB1 : B + |Z f| ≤ ((n + 1 : ℕ) : ℝ) * 2 ^ (212 : ℕ) := by
      push_cast
      linarith
    obtain ⟨S', hS', hS'e⟩ := ih S1 (T + Z f) (B + |Z f|) (c + 2) (m + 2) (n + 1) hS1e hT1 hB1
      (by omega) (by omega) (by omega) (by omega)
    refine ⟨S', ?_, ?_⟩
    · simp only [List.map_cons, List.foldl_cons, hPf, hS1]
      exact hS'
    · have e1 : c + 2 + 2 * l.length = c + 2 * (l.length + 1) := by ring
      have e2 : m + 2 + 2 * l.length = m + 2 * (l.length + 1) := by ring
      have e3 : T + Z f + (l.map Z).sum = T + ((f :: l).map Z).sum := by
        simp only [List.map_cons, List.sum_cons]
        ring
      have e4 : B + |Z f| + (l.map (fun f => |Z f|)).sum =
          B + ((f :: l).map (fun f => |Z f|)).sum := by
        simp only [List.map_cons, List.sum_cons]
        ring
      rw [e1, e2, e3, e4] at hS'e
      simpa using hS'e

/-! ## The quotient in double arithmetic -/

theorem tinyError_le_roundoff :
    (32 : ℝ) * (tinyError : ℝ) ≤ (unitRoundoff : ℝ) * (1 / 2 ^ (440 : ℕ)) := by
  rw [tinyError_eq, unitRoundoff_eq]
  norm_num

/-- The quotient of an approximate dot product by an approximate product of the
magnitudes: within 249 unit roundoffs of the exact cosine. -/
theorem quotient_near {N D n d B : ℝ} (hdl : 1 / 2 ^ (440 : ℕ) ≤ d)
    (hN : |N - n| ≤ (39 : ℝ) * (unitRoundoff : ℝ) * B + (16 : ℝ) * (tinyError : ℝ))
    (hB : B ≤ d) (hn : |n| ≤ d) (hD : Near 85 D d) :
    0 < D ∧ |N / D - n / d| ≤ (249 : ℝ) * (unitRoundoff : ℝ) := by
  have hu := unitRoundoff_pos
  have he := tinyError_pos
  have hd : 0 < d := lt_of_lt_of_le (by positivity) hdl
  have h85 : (85 : ℝ) * (unitRoundoff : ℝ) ≤ 1 / 2 ^ (43 : ℕ) := by
    have := thousand_roundoff (by norm_num : 85 ≤ 1000)
    simpa using this
  have h43 : (1 : ℝ) / 2 ^ (43 : ℕ) ≤ 1 / 4 := by norm_num
  have hD' : |D - d| ≤ (85 : ℝ) * (unitRoundoff : ℝ) * d := by
    have := hD
    unfold Near at this
    rw [abs_of_pos hd] at this
    simpa using this
  have hDlow : d - (85 : ℝ) * (unitRoundoff : ℝ) * d ≤ D := by
    have := (abs_le.mp hD').1
    linarith
  have h85d : (85 : ℝ) * (unitRoundoff : ℝ) * d ≤ 1 / 4 * d :=
    mul_le_mul_of_nonneg_right (le_trans h85 h43) hd.le
  have hDpos : 0 < D := by linarith
  refine ⟨hDpos, ?_⟩
  have hDd : 0 < D * d := mul_pos hDpos hd
  have e : N / D - n / d = ((N - n) * d + n * (d - D)) / (D * d) := by
    field_simp
    ring
  rw [e, abs_div, abs_of_pos hDd, div_le_iff₀ hDd]
  -- the numerator
  have t1 : |(N - n) * d| ≤ ((39 : ℝ) * (unitRoundoff : ℝ) * d + (16 : ℝ) * (tinyError : ℝ)) * d := by
    rw [abs_mul, abs_of_pos hd]
    apply mul_le_mul_of_nonneg_right _ hd.le
    have : (39 : ℝ) * (unitRoundoff : ℝ) * B ≤ (39 : ℝ) * (unitRoundoff : ℝ) * d :=
      mul_le_mul_of_nonneg_left hB (by positivity)
    linarith
  have t2 : |n * (d - D)| ≤ d * ((85 : ℝ) * (unitRoundoff : ℝ) * d) := by
    rw [abs_mul, abs_sub_comm d D]
    exact mul_le_mul hn hD' (abs_nonneg _) hd.le
  have t3 := abs_add ((N - n) * d) (n * (d - D))
  -- the tiny error against the magnitude
  have t4 : (16 : ℝ) * (tinyError : ℝ) ≤ (unitRoundoff : ℝ) * d := by
    have h1 := tinyError_le_roundoff
    have h2 : (unitRoundoff : ℝ) * (1 / 2 ^ (440 : ℕ)) ≤ (unitRoundoff : ℝ) * d :=
      mul_le_mul_of_nonneg_left hdl hu.le
    linarith
  -- the divisor from below
  have t5 : (249 : ℝ) * (unitRoundoff : ℝ) * (D * d) ≥
      (249 : ℝ) * (unitRoundoff : ℝ) * ((d - (85 : ℝ) * (unitRoundoff : ℝ) * d) * d) := by
    apply mul_le_mul_of_nonneg_left _ (by positivity)
    exact mul_le_mul_of_nonneg_right hDlow hd.le
  have t6 : (d - (85 : ℝ) * (unitRoundoff : ℝ) * d) * d ≥ 3 / 4 * d * d := by
    have : d - (85 : ℝ) * (unitRoundoff : ℝ) * d ≥ 3 / 4 * d := by linarith
    exact mul_le_mul_of_nonneg_right this hd.le
  have t7 : (249 : ℝ) * (unitRoundoff : ℝ) * ((d - (85 : ℝ) * (unitRoundoff : ℝ) * d) * d) ≥
      (249 : ℝ) * (unitRoundoff : ℝ) * (3 / 4 * d * d) :=
    mul_le_mul_of_nonneg_left t6 (by positivity)
  have t8 : (16 : ℝ) * (tinyError : ℝ) * d ≤ (unitRoundoff : ℝ) * d * d :=
    mul_le_mul_of_nonneg_right t4 hd.le
  have hudd : 0 ≤ (unitRoundoff : ℝ) * d * d := by positivity
  have expand1 : ((39 : ℝ) * (unitRoundoff : ℝ) * d + (16 : ℝ) * (tinyError : ℝ)) * d =
      39 * ((unitRoundoff : ℝ) * d * d) + (16 : ℝ) * (tinyError : ℝ) * d := by ring
  have expand2 : d * ((85 : ℝ) * (unitRoundoff : ℝ) * d) = 85 * ((unitRoundoff : ℝ) * d * d) := by
    ring
  have expand3 : (249 : ℝ) * (unitRoundoff : ℝ) * (3 / 4 * d * d) =
      (747 / 4) * ((unitRoundoff : ℝ) * d * d) := by ring
  rw [expand1] at t1
  rw [expand2] at t2
  rw [expand3] at t7
  linarith

/-! ## The double similarity against the exact cosine -/

theorem mag_sum_sq (X : Factor → ℝ) (hX : ∀ f, Mag 106 (X f)) :
    ∀ l : List Factor, Mag (212 + l.length) ((l.map (fun f => X f * X f)).sum) ∧
      0 ≤ (l.map (fun f => X f * X f)).sum := by
  intro l
  induction l with
  | nil => exact ⟨Or.inl (by simp), by simp⟩
  | cons f l ih =>
    have hxx : 0 ≤ X f * X f := mul_self_nonneg _
    have hm : Mag (212 + l.length) (X f * X f) := mag_mono (mag_mul (hX f) (hX f)) (by omega)
    refine ⟨?_, ?_⟩
    · simp only [List.map_cons, List.sum_cons, List.length_cons]
      exact mag_add_nonneg hm ih.1 hxx ih.2
    · simp only [List.map_cons, List.sum_cons]
      exact add_nonneg hxx ih.2

theorem sum_sq_pos (X : Factor → ℝ) (h : ∃ f, X f ≠ 0) :
    0 < (factors.map (fun f => X f * X f)).sum := by
  obtain ⟨f, hf⟩ := h
  have hmem : f ∈ factors := by cases f <;> simp [factors]
  have hpos : 0 < X f * X f := mul_self_pos.mpr hf
  have hle : X f * X f ≤ (factors.map (fun f => X f * X f)).sum := by
    apply List.single_le_sum
    · intro x hx
      obtain ⟨g, -, rfl⟩ := List.mem_map.mp hx
      exact mul_self_nonneg _
    · exact List.mem_map.mpr ⟨f, hmem, rfl⟩
  linarith

theorem sum_sq_eq_zero (X : Factor → ℝ) (h : ∀ f, X f = 0) :
    (factors.map (fun f => X f * X f)).sum = 0 := by
  simp [h]

theorem dotProductDouble_map (a b : Factor → Double) :
    dotProductDouble (factors.map a) (factors.map b) =
      (factors.map (fun f => (a f).mul (b f))).foldl (fun (sum p : Double) => sum.add p)
        (Double.finite 0) := rfl

/-- Cauchy–Schwarz for the absolute values of the products. -/
theorem sum_abs_mul_le (a b : Factor → ℚ) :
    (factors.map (fun f => |((a f : ℚ) : ℝ) * ((b f : ℚ) : ℝ)|)).sum ≤
      Real.sqrt ((factors.map (fun f => ((a f : ℚ) : ℝ) * ((a f : ℚ) : ℝ))).sum) *
        Real.sqrt ((factors.map (fun f => ((b f : ℚ) : ℝ) * ((b f : ℚ) : ℝ))).sum) := by
  have h := abs_dotProduct_le (fun f => |a f|) (fun f => |b f|)
  rw [dotProduct_cast, sumSquares_cast, sumSquares_cast] at h
  simp only [Rat.cast_abs, abs_mul_abs_self] at h
  have e : (factors.map (fun f => |((a f : ℚ) : ℝ)| * |((b f : ℚ) : ℝ)|)) =
      (factors.map (fun f => |((a f : ℚ) : ℝ) * ((b f : ℚ) : ℝ)|)) := by
    apply List.map_congr_left
    intro f _
    rw [abs_mul]
  rw [e] at h
  exact le_trans (le_abs_self _) h

theorem abs_sum_mul_le (a b : Factor → ℚ) :
    |(factors.map (fun f => ((a f : ℚ) : ℝ) * ((b f : ℚ) : ℝ))).sum| ≤
      Real.sqrt ((factors.map (fun f => ((a f : ℚ) : ℝ) * ((a f : ℚ) : ℝ))).sum) *
        Real.sqrt ((factors.map (fun f => ((b f : ℚ) : ℝ) * ((b f : ℚ) : ℝ))).sum) := by
  have h := abs_dotProduct_le a b
  rw [dotProduct_cast, sumSquares_cast, sumSquares_cast] at h
  exact h

/-- The similarity in double arithmetic, when every rating and every feature is
0 or of a magnitude between `2 ^ (-100)` and `2 ^ 100`: the two magnitudes are
finite doubles, that of the user is not 0, that of the candidate is 0 exactly
when the exact one is, their product is a non-zero double when both are
non-zero, and the similarity is a finite double within `2 ^ (-45)` of the exact
value. -/
theorem similarityDouble_near (p : UserPreferences) (ft : Features)
    (hp : ∀ f v, p f = some v → InDoubleRange v) (hft : ∀ f, InDoubleRange (ft.get f)) :
    ∃ mu mv y : ℚ,
      magnitudeDouble (weightedDouble (userScoresDouble p)) = .finite mu ∧
      magnitudeDouble (weightedDouble (neighborhoodScoresDouble ft)) = .finite mv ∧
      mu ≠ 0 ∧
      (mv ≠ 0 ↔ 0 < sumSquares (factors.map (neighborhoodWeighted ft))) ∧
      (mv ≠ 0 → ∃ D : ℚ, (Double.finite mu).mul (.finite mv) = .finite D ∧ D ≠ 0) ∧
      similarityDouble p ft = .finite y ∧
      (mv = 0 → y = 0) ∧
      |(y : ℝ) - ((similarity p ft).coeff : ℝ) * Real.sqrt ((similarity p ft).radicand : ℝ)| ≤
        1 / 2 ^ (45 : ℕ) := by
  choose YU hYU using fun f => userWeighted_near p hp f
  choose YV hYV using fun f => neighborhoodWeighted_near ft hft f
  have hDU : ∀ f, ((orElseDouble (p f) (.finite 3)).mul (.finite 2)).mul
        (Double.round (factorWeights f)) = .finite (YU f) ∧
      Near 10 (YU f : ℝ) ((userWeighted p f : ℚ) : ℝ) ∧ Mag 106 ((userWeighted p f : ℚ) : ℝ) :=
    fun f => ⟨(hYU f).1, (hYU f).2.1, (hYU f).2.2.1⟩
  obtain ⟨mu, hmu, hmun⟩ := magnitude_near _ YU _ hDU
  obtain ⟨mv, hmv, hmvn⟩ := magnitude_near _ YV _ hYV
  rw [← weightedDouble_userScoresDouble] at hmu
  rw [← weightedDouble_neighborhoodScoresDouble] at hmv
  have hsim : similarityDouble p ft =
      if ((Double.finite mu).truthy && (Double.finite mv).truthy) = true then
        (dotProductDouble (weightedDouble (userScoresDouble p))
          (weightedDouble (neighborhoodScoresDouble ft))).div
          ((Double.finite mu).mul (.finite mv))
      else .finite 0 := by
    unfold similarityDouble
    simp only [hmu, hmv]
  -- the exact sums
  have hapos : 0 < (factors.map (fun f => ((userWeighted p f : ℚ) : ℝ) *
      ((userWeighted p f : ℚ) : ℝ))).sum :=
    sum_sq_pos _ ⟨Factor.safety, by exact_mod_cast (hYU Factor.safety).2.2.2⟩
  have hsa := Real.sqrt_pos.mpr hapos
  have hmu0 : mu ≠ 0 := by
    have := (near_sign hmun (by norm_num)).2.2 hsa.ne.symm
    exact_mod_cast this
  have hden := similarity_denotes p ft
  unfold Surd.Denotes at hden
  have hssu : (0 < sumSquares (factors.map (userWeighted p))) := by
    have : (0 : ℝ) < ((sumSquares (factors.map (userWeighted p)) : ℚ) : ℝ) := by
      rw [sumSquares_cast]
      exact hapos
    exact_mod_cast this
  by_cases hb : 0 < sumSquares (factors.map (neighborhoodWeighted ft))
  · -- both magnitudes are non-zero
    rw [if_pos ⟨hssu, hb⟩] at hden
    rw [← hden, sumSquares_cast, sumSquares_cast, dotProduct_cast]
    have hbpos : 0 < (factors.map (fun f => ((neighborhoodWeighted ft f : ℚ) : ℝ) *
        ((neighborhoodWeighted ft f : ℚ) : ℝ))).sum := by
      rw [← sumSquares_cast]
      exact_mod_cast hb
    have hsb := Real.sqrt_pos.mpr hbpos
    have hmv0 : mv ≠ 0 := by
      have := (near_sign hmvn (by norm_num)).2.2 hsb.ne.symm
      exact_mod_cast this
    have htruthy : ((Double.finite mu).truthy && (Double.finite mv).truthy) = true := by
      simp [Double.truthy, hmu0, hmv0]
    rw [if_pos htruthy] at hsim
    -- the products and the dot product
    have hP : ∀ f, ∃ q : ℚ, (Double.finite (YU f)).mul (.finite (YV f)) = .finite q ∧
        Near 23 (q : ℝ) (((userWeighted p f : ℚ) : ℝ) * ((neighborhoodWeighted ft f : ℚ) : ℝ)) :=
      fun f => mul_near (hYU f).2.1 (hYV f).2.1 (hYU f).2.2.1 (hYV f).2.2 (by norm_num)
        (by norm_num) (by norm_num)
    choose Q hQ using hP
    have hP' : ∀ f, (((orElseDouble (p f) (.finite 3)).mul (.finite 2)).mul
          (Double.round (factorWeights f))).mul
          ((Double.round (ft.get f)).mul (Double.round (factorWeights f))) = .finite (Q f) ∧
        Near 23 (Q f : ℝ)
          (((userWeighted p f : ℚ) : ℝ) * ((neighborhoodWeighted ft f : ℚ) : ℝ)) ∧
        Mag 212 (((userWeighted p f : ℚ) : ℝ) * ((neighborhoodWeighted ft f : ℚ) : ℝ)) :=
      fun f => ⟨by rw [(hYU f).1, (hYV f).1, (hQ f).1], (hQ f).2,
        mag_mul (hYU f).2.2.1 (hYV f).2.2⟩
    obtain ⟨N, hN, hNe⟩ := foldl_dot_near _ Q _ hP' factors 0 0 0 23 0 0 (by simp) (by simp)
      (by simp) le_rfl (by simp [factors]) (by simp [factors]) (by simp [factors])
    rw [← dotProductDouble_map, ← weightedDouble_userScoresDouble,
      ← weightedDouble_neighborhoodScoresDouble] at hN
    rw [hN] at hsim
    have hlen : factors.length = 8 := rfl
    simp only [hlen, zero_add, Rat.cast_zero, sub_zero] at hNe
    -- the divisor
    have hmagU := mag_sqrt (mag_sum_sq _ (fun f => (hYU f).2.2.1) factors).1 hapos.le
    have hmagV := mag_sqrt (mag_sum_sq _ (fun f => (hYV f).2.2) factors).1 hbpos.le
    rw [hlen] at hmagU hmagV
    obtain ⟨D, hD, hDn⟩ := mul_near hmun hmvn hmagU hmagV (by norm_num) (by norm_num)
      (by norm_num)
    rw [hD] at hsim
    have hlowU : 1 / 2 ^ (220 : ℕ) ≤ Real.sqrt ((factors.map (fun f =>
        ((userWeighted p f : ℚ) : ℝ) * ((userWeighted p f : ℚ) : ℝ))).sum) := by
      rcases hmagU with h | ⟨h, -⟩
      · exact absurd h hsa.ne.symm
      · rwa [abs_of_pos hsa] at h
    have hlowV : 1 / 2 ^ (220 : ℕ) ≤ Real.sqrt ((factors.map (fun f =>
        ((neighborhoodWeighted ft f : ℚ) : ℝ) * ((neighborhoodWeighted ft f : ℚ) : ℝ))).sum) := by
      rcases hmagV with h | ⟨h, -⟩
      · exact absurd h hsb.ne.symm
      · rwa [abs_of_pos hsb] at h
    have hdl : (1 : ℝ) / 2 ^ (440 : ℕ) ≤
        Real.sqrt ((factors.map (fun f =>
          ((userWeighted p f : ℚ) : ℝ) * ((userWeighted p f : ℚ) : ℝ))).sum) *
        Real.sqrt ((factors.map (fun f =>
          ((neighborhoodWeighted ft f : ℚ) : ℝ) * ((neighborhoodWeighted ft f : ℚ) : ℝ))).sum) := by
      have e : (1 : ℝ) / 2 ^ (440 : ℕ) = 1 / 2 ^ (220 : ℕ) * (1 / 2 ^ (220 : ℕ)) := by
        rw [div_mul_div_comm, ← pow_add, one_mul]
      rw [e]
      exact mul_le_mul hlowU hlowV (by positivity) hsa.le
    have hNe' : |(N : ℝ) - (factors.map (fun f => ((userWeighted p f : ℚ) : ℝ) *
          ((neighborhoodWeighted ft f : ℚ) : ℝ))).sum| ≤
        (39 : ℝ) * (unitRoundoff : ℝ) *
          (factors.map (fun f => |((userWeighted p f : ℚ) : ℝ) *
            ((neighborhoodWeighted ft f : ℚ) : ℝ)|)).sum + (16 : ℝ) * (tinyError : ℝ) := by
      have := hNe
      norm_num at this ⊢
      exact this
    obtain ⟨hDpos, hquot⟩ := quotient_near hdl hNe' (sum_abs_mul_le _ _) (abs_sum_mul_le _ _) hDn
    have hD0 : D ≠ 0 := by
      have : (D : ℝ) ≠ 0 := hDpos.ne.symm
      exact_mod_cast this
    simp only [Double.div, hD0, if_false] at hsim
    -- the exact cosine is at most 1 in magnitude
    set cosine := (factors.map (fun f => ((userWeighted p f : ℚ) : ℝ) *
          ((neighborhoodWeighted ft f : ℚ) : ℝ))).sum /
        (Real.sqrt ((factors.map (fun f =>
          ((userWeighted p f : ℚ) : ℝ) * ((userWeighted p f : ℚ) : ℝ))).sum) *
        Real.sqrt ((factors.map (fun f =>
          ((neighborhoodWeighted ft f : ℚ) : ℝ) * ((neighborhoodWeighted ft f : ℚ) : ℝ))).sum))
      with hcos
    have hcos1 : |cosine| ≤ 1 := by
      rw [hcos, abs_div, abs_of_pos (mul_pos hsa hsb), div_le_one (mul_pos hsa hsb)]
      exact abs_sum_mul_le _ _
    have hu := unitRoundoff_pos
    have h249 : (249 : ℝ) * (unitRoundoff : ℝ) ≤ 1 / 2 ^ (43 : ℕ) := by
      have := thousand_roundoff (by norm_num : 249 ≤ 1000)
      simpa using this
    have hq1 : |(N : ℝ) / (D : ℝ)| ≤ 2 := by
      have t := abs_sub_abs_le_abs_sub ((N : ℝ) / (D : ℝ)) cosine
      have h43 : (1 : ℝ) / 2 ^ (43 : ℕ) ≤ 1 := by norm_num
      linarith
    have hq2 : |(((N / D : ℚ) : ℚ) : ℝ)| ≤ 2 ^ (1023 : ℕ) := by
      rw [Rat.cast_div]
      have : (2 : ℝ) ≤ 2 ^ (1023 : ℕ) := by norm_num
      linarith
    obtain ⟨y, hy, hye⟩ := round_abs_error (N / D) hq2
    rw [Rat.cast_div] at hye
    rw [hy] at hsim
    refine ⟨mu, mv, y, hmu, hmv, hmu0, ⟨fun _ => hb, fun _ => hmv0⟩,
      fun _ => ⟨D, hD, hD0⟩, hsim, fun h0 => absurd h0 hmv0, ?_⟩
    have e : (y : ℝ) - cosine = ((y : ℝ) - (N : ℝ) / (D : ℝ)) + ((N : ℝ) / (D : ℝ) - cosine) := by
      ring
    have t1 := abs_add ((y : ℝ) - (N : ℝ) / (D : ℝ)) ((N : ℝ) / (D : ℝ) - cosine)
    have t2 : (unitRoundoff : ℝ) * |(N : ℝ) / (D : ℝ)| ≤ (unitRoundoff : ℝ) * 2 :=
      mul_le_mul_of_nonneg_left hq1 hu.le
    have t3 : (251 : ℝ) * (unitRoundoff : ℝ) + (tinyError : ℝ) ≤ 1 / 2 ^ (45 : ℕ) := by
      rw [unitRoundoff_eq, tinyError_eq]
      norm_num
    rw [e]
    linarith
  · -- the candidate vector is zero
    rw [if_neg (fun h => hb h.2)] at hden
    rw [← hden]
    have hzero : (factors.map (fun f => ((neighborhoodWeighted ft f : ℚ) : ℝ) *
        ((neighborhoodWeighted ft f : ℚ) : ℝ))).sum = 0 := by
      rw [← sumSquares_cast]
      have := le_antisymm (not_lt.mp hb) (sumSquares_map_nonneg (neighborhoodWeighted ft))
      rw [this]
      norm_num
    rw [hzero, Real.sqrt_zero] at hmvn
    have hmv0 : mv = 0 := by exact_mod_cast near_eq_zero hmvn
    have hfalsy : ¬ (((Double.finite mu).truthy && (Double.finite mv).truthy) = true) := by
      simp [Double.truthy, hmv0]
    rw [if_neg hfalsy] at hsim
    exact ⟨mu, mv, 0, hmu, hmv, hmu0, ⟨fun h => absurd hmv0 h, fun h => absurd h hb⟩,
      fun h => absurd hmv0 h, hsim, fun _ => rfl, by norm_num⟩

/-! ## toFixed(3) of a double -/

theorem round_one : Double.round 1 = .finite 1 := by decide!

theorem round_neg_one : Double.round (-1) = .finite (-1) := by decide!

theorem round_zero : Double.round 0 = .finite 0 := by simp [Double.round]

/-- The thousandths `toFixed(3)` writes for a double of small magnitude. -/
theorem toFixed3_spec (y : ℚ) (hy : |y| ≤ 2) :
    ∃ n : ℤ, (Double.finite y).toFixed3 = Double.round ((n : ℚ) / 1000) ∧
      |(n : ℚ) / 1000 - y| ≤ 1 / 2000 ∧
      (0 ≤ y → n = ⌊y * 1000 + 1 / 2⌋) ∧ (y < 0 → n = -⌊-y * 1000 + 1 / 2⌋) := by
  have hbig : ¬ ((10 : ℚ) ^ (21 : ℕ) ≤ |y|) := by
    rw [not_le]
    have : (2 : ℚ) < (10 : ℚ) ^ (21 : ℕ) := by norm_num
    linarith
  have h1 := Int.floor_le (|y| * 1000 + 1 / 2)
  have h2 := Int.lt_floor_add_one (|y| * 1000 + 1 / 2)
  by_cases hneg : y < 0
  · have habs : |y| = -y := abs_of_neg hneg
    rw [habs] at h1 h2
    refine ⟨-⌊-y * 1000 + 1 / 2⌋, ?_, ?_, fun h => absurd hneg (not_lt.mpr h), fun _ => rfl⟩
    · have e : (((-⌊-y * 1000 + 1 / 2⌋ : ℤ) : ℚ) / 1000) =
          -(((⌊-y * 1000 + 1 / 2⌋ : ℤ) : ℚ) / 1000) := by
        push_cast
        ring
      rw [e]
      simp only [Double.toFixed3]
      rw [if_neg hbig, if_pos hneg, habs]
    · rw [abs_le]
      push_cast
      constructor <;> linarith
  · have hy0 : 0 ≤ y := not_lt.mp hneg
    have habs : |y| = y := abs_of_nonneg hy0
    rw [habs] at h1 h2
    refine ⟨⌊y * 1000 + 1 / 2⌋, ?_, ?_, fun _ => rfl, fun h => absurd h hneg⟩
    · simp only [Double.toFixed3]
      rw [if_neg hbig, if_neg hneg, habs]
    · rw [abs_le]
      constructor <;> linarith

/-- The double nearest to a whole number of thousandths between -1 and 1 lies
between -1 and 1, on the side of 0 of the thousandths. -/
theorem round_thousandths (n : ℤ) (hn : |n| ≤ 1000) :
    ∃ z : ℚ, Double.round ((n : ℚ) / 1000) = .finite z ∧ -1 ≤ z ∧ z ≤ 1 ∧ (0 ≤ n → 0 ≤ z) := by
  obtain ⟨hlo, hhi⟩ := abs_le.mp hn
  rcases eq_or_lt_of_le hhi with h1000 | hlt
  · refine ⟨1, ?_, by norm_num, le_rfl, fun _ => by norm_num⟩
    rw [h1000]
    norm_num
    exact round_one
  rcases eq_or_lt_of_le hlo with hm1000 | hgt
  · refine ⟨-1, ?_, le_rfl, by norm_num, fun h => ?_⟩
    · rw [← hm1000]
      norm_num
      exact round_neg_one
    · omega
  have hq : |(n : ℚ) / 1000| ≤ 999 / 1000 := by
    rw [abs_div, abs_of_pos (by norm_num : (0 : ℚ) < 1000), div_le_div_iff_of_pos_right (by norm_num)]
    have : |n| ≤ 999 := abs_le.mpr ⟨by omega, by omega⟩
    exact_mod_cast this
  have hmag : Mag 10 (((n : ℚ) / 1000 : ℚ) : ℝ) := by
    apply mag_ofRat
    by_cases h0 : n = 0
    · left
      rw [h0]
      norm_num
    · right
      have h1 : (1 : ℤ) ≤ |n| := Int.one_le_abs h0
      have h1' : (1 : ℚ) ≤ |(n : ℚ)| := by exact_mod_cast h1
      constructor
      · rw [abs_div, abs_of_pos (by norm_num : (0 : ℚ) < 1000)]
        have : (1 : ℚ) / 2 ^ 10 ≤ 1 / 1000 := by norm_num
        have h3 : (1 : ℚ) / 1000 ≤ |(n : ℚ)| / 1000 := div_le_div_of_nonneg_right h1' (by norm_num)
        linarith
      · have : (999 : ℚ) / 1000 ≤ 2 ^ 10 := by norm_num
        linarith
  obtain ⟨z, hz, hzn⟩ := round_of_inRange hmag (by norm_num)
  have hup := (near_abs_le hzn (by norm_num)).1
  have hu2 := thousand_roundoff (by norm_num : 2 ≤ 1000)
  have hqR : |(((n : ℚ) / 1000 : ℚ) : ℝ)| ≤ 999 / 1000 := by
    have : ((|(n : ℚ) / 1000| : ℚ) : ℝ) ≤ ((999 / 1000 : ℚ) : ℝ) := Rat.cast_le.mpr hq
    rw [Rat.cast_abs] at this
    simpa using this
  have hzR : |(z : ℝ)| ≤ 1 := by
    have h43 : (1 : ℝ) / 2 ^ (43 : ℕ) ≤ 1 / 1000 := by norm_num
    have hnn := abs_nonneg (((n : ℚ) / 1000 : ℚ) : ℝ)
    have : (1 + ((2 : ℕ) : ℝ) * (unitRoundoff : ℝ)) * |(((n : ℚ) / 1000 : ℚ) : ℝ)| ≤
        (1 + 1 / 1000) * (999 / 1000) :=
      mul_le_mul (by linarith) hqR hnn (by norm_num)
    have h5 : (1 + 1 / 1000 : ℝ) * (999 / 1000) ≤ 1 := by norm_num
    linarith
  have hzQ : |z| ≤ 1 := by
    have : ((|z| : ℚ) : ℝ) ≤ ((1 : ℚ) : ℝ) := by
      rw [Rat.cast_abs]
      simpa using hzR
    exact Rat.cast_le.mp this
  obtain ⟨hz1, hz2⟩ := abs_le.mp hzQ
  refine ⟨z, hz, hz1, hz2, fun h => ?_⟩
  have hnR : (0 : ℝ) ≤ (((n : ℚ) / 1000 : ℚ) : ℝ) := by
    have : (0 : ℚ) ≤ (n : ℚ) / 1000 := div_nonneg (by exact_mod_cast h) (by norm_num)
    exact_mod_cast this
  have := (near_sign hzn (by norm_num)).1 hnR
  exact_mod_cast this

/-! ## The rounded similarity against the rounding of the exact value -/

/-- Away from the midpoints between two thousandths, a value within `2 ^ (-45)`
has the same rounding. -/
theorem floor_stable {a b : ℝ} (hab : |b - a| ≤ 1 / 2 ^ (45 : ℕ))
    (hties : ∀ k : ℤ, 1 / 2 ^ (45 : ℕ) < |a - (2 * (k : ℝ) + 1) / 2000|) :
    ⌊b * 1000 + 1 / 2⌋ = ⌊a * 1000 + 1 / 2⌋ := by
  obtain ⟨hab1, hab2⟩ := abs_le.mp hab
  have h1 := Int.floor_le (a * 1000 + 1 / 2)
  have h2 := Int.lt_floor_add_one (a * 1000 + 1 / 2)
  rw [Int.floor_eq_iff]
  constructor
  · have ht := hties (⌊a * 1000 + 1 / 2⌋ - 1)
    push_cast at ht
    rw [abs_of_nonneg (by linarith)] at ht
    linarith
  · have ht := hties ⌊a * 1000 + 1 / 2⌋
    rw [abs_of_neg (by linarith)] at ht
    linarith

/-- A value below `2 ^ (-45)` rounds to 0 thousandths. -/
theorem floor_small {a : ℝ} (h0 : 0 ≤ a) (ha : a ≤ 1 / 2 ^ (45 : ℕ)) :
    ⌊a * 1000 + 1 / 2⌋ = 0 := by
  rw [Int.floor_eq_iff]
  have : (1 : ℝ) / 2 ^ (45 : ℕ) * 1000 < 1 / 2 := by norm_num
  constructor
  · push_cast
    linarith
  · push_cast
    linarith

theorem floor_rat_real (y : ℚ) : ⌊y * 1000 + 1 / 2⌋ = ⌊(y : ℝ) * 1000 + 1 / 2⌋ := by
  rw [← Rat.floor_cast (α := ℝ)]
  push_cast
  rfl

/-- From the double similarity to the `similarity` field: a double within
`2 ^ (-45)` of an exact value `x` of magnitude at most 1 is written by
`toFixed(3)` as a whole number `n` of thousandths, at most 1000 in magnitude,
within `0.0005 + 2 ^ (-45)` of `x`; `n` is not negative when `x` is not, it is
1000 when `x = 1`, and `n / 1000` is `x` rounded to three decimals unless `x` is
within `2 ^ (-45)` of a midpoint between two thousandths. -/
theorem rounded_of_near (p : UserPreferences) (ft : Features) {y : ℚ} {x : ℝ}
    (hy : similarityDouble p ft = .finite y) (hye : |(y : ℝ) - x| ≤ 1 / 2 ^ (45 : ℕ))
    (hx : |x| ≤ 1) :
    ∃ n : ℤ, roundedSimilarityDouble p ft = Double.round ((n : ℚ) / 1000) ∧ |n| ≤ 1000 ∧
      |(((n : ℚ) / 1000 : ℚ) : ℝ) - x| ≤ 1 / 2000 + 1 / 2 ^ (45 : ℕ) ∧
      (0 ≤ x → 0 ≤ n) ∧ (x = 1 → n = 1000) ∧
      ((∀ k : ℤ, 1 / 2 ^ (45 : ℕ) < |x - (2 * (k : ℝ) + 1) / 2000|) →
        RoundsTo x ((n : ℚ) / 1000)) := by
  obtain ⟨hye1, hye2⟩ := abs_le.mp hye
  obtain ⟨hx1, hx2⟩ := abs_le.mp hx
  have h45 : (1 : ℝ) / 2 ^ (45 : ℕ) ≤ 1 / 10000 := by norm_num
  have hy2 : |y| ≤ 2 := by
    have : |(y : ℝ)| ≤ 2 := abs_le.mpr ⟨by linarith, by linarith⟩
    have h : ((|y| : ℚ) : ℝ) ≤ ((2 : ℚ) : ℝ) := by
      rw [Rat.cast_abs]
      simpa using this
    exact Rat.cast_le.mp h
  obtain ⟨n, hn, hne, hpos, hneg⟩ := toFixed3_spec y hy2
  have hneR : |(((n : ℚ) / 1000 : ℚ) : ℝ) - (y : ℝ)| ≤ 1 / 2000 := by
    have : ((|(n : ℚ) / 1000 - y| : ℚ) : ℝ) ≤ ((1 / 2000 : ℚ) : ℝ) := Rat.cast_le.mpr hne
    rw [Rat.cast_abs] at this
    simpa using this
  obtain ⟨hne1, hne2⟩ := abs_le.mp hneR
  have hcast : (((n : ℚ) / 1000 : ℚ) : ℝ) = (n : ℝ) / 1000 := by push_cast; ring
  rw [hcast] at hne1 hne2
  -- the value of n, as a floor over the reals
  have hposR : 0 ≤ (y : ℝ) → n = ⌊(y : ℝ) * 1000 + 1 / 2⌋ := by
    intro h
    rw [← floor_rat_real]
    exact hpos (by exact_mod_cast h)
  have hnegR : (y : ℝ) < 0 → n = -⌊-(y : ℝ) * 1000 + 1 / 2⌋ := by
    intro h
    have := hneg (by exact_mod_cast h)
    rw [this, floor_rat_real]
    push_cast
    rfl
  refine ⟨n, ?_, ?_, ?_, ?_, ?_, ?_⟩
  · unfold roundedSimilarityDouble
    rw [hy, hn]
  · rw [abs_le]
    have h1 : (n : ℝ) < 1001 := by linarith
    have h2 : (-1001 : ℝ) < (n : ℝ) := by linarith
    have h1' : n < 1001 := by exact_mod_cast h1
    have h2' : -1001 < n := by exact_mod_cast h2
    constructor <;> omega
  · rw [hcast, abs_le]
    constructor <;> linarith
  · intro hx0
    by_cases hy0 : 0 ≤ (y : ℝ)
    · rw [hposR hy0]
      exact Int.floor_nonneg.mpr (by linarith)
    · rw [not_le] at hy0
      rw [hnegR hy0, floor_small (by linarith) (by linarith)]
      norm_num
  · intro hx1'
    have hy0 : 0 ≤ (y : ℝ) := by linarith
    rw [hposR hy0, Int.floor_eq_iff]
    push_cast
    constructor <;> linarith
  · intro hties
    have hq : (((n : ℚ) / 1000 : ℚ) : ℝ) = (n : ℝ) / 1000 := hcast
    unfold RoundsTo
    rw [hq]
    constructor
    · intro hx0
      rw [natCast_floor_eq_intCast_floor (by linarith)]
      congr 2
      by_cases hy0 : 0 ≤ (y : ℝ)
      · rw [hposR hy0]
        exact floor_stable hye hties
      · rw [not_le] at hy0
        rw [hnegR hy0, floor_small (by linarith) (by linarith),
          floor_small hx0 (by linarith)]
        norm_num
    · intro hx0
      rw [natCast_floor_eq_intCast_floor (by linarith)]
      have hties' : ∀ k : ℤ, 1 / 2 ^ (45 : ℕ) < |(-x) - (2 * (k : ℝ) + 1) / 2000| := by
        intro k
        have := hties (-k - 1)
        push_cast at this
        rw [← abs_neg]
        have e : -(-x - (2 * (k : ℝ) + 1) / 2000) = x - (2 * (-(k : ℝ) - 1) + 1) / 2000 := by
          ring
        rw [e]
        exact this
      by_cases hy0 : (y : ℝ) < 0
      · rw [hnegR hy0]
        have hab : |(-(y : ℝ)) - (-x)| ≤ 1 / 2 ^ (45 : ℕ) := by
          rw [abs_le]
          constructor <;> linarith
        rw [floor_stable hab hties']
        push_cast
        ring
      · rw [not_lt] at hy0
        rw [hposR hy0, floor_small hy0 (by linarith),
          floor_small (a := -x) (by linarith) (by linarith)]
        norm_num

/-! ## The inputs of the examples are far from the limits of binary64 -/

theorem toFixed3_zero : (Double.finite 0).toFixed3 = .finite 0 := by decide!

theorem inDoubleRange_of_bounds {v : ℚ} (h1 : 1 / 1000 ≤ |v|) (h2 : |v| ≤ 1000) :
    InDoubleRange v := by
  right
  have a1 : (1 : ℚ) / 2 ^ (100 : ℕ) ≤ 1 / 1000 := by norm_num
  have a2 : (1000 : ℚ) ≤ 2 ^ (100 : ℕ) := by norm_num
  exact ⟨le_trans a1 h1, le_trans h2 a2⟩

theorem safetyFirstPrefs_inRange (f : Factor) (v : ℚ) (h : safetyFirstPrefs f = some v) :
    InDoubleRange v ∧ 0 ≤ v := by
  cases f <;> simp only [safetyFirstPrefs, Option.some.injEq] at h <;> subst h <;>
    exact ⟨inDoubleRange_of_bounds (by norm_num [abs_of_pos]) (by norm_num [abs_of_pos]),
      by norm_num⟩

theorem thriftyPrefs_inRange (f : Factor) (v : ℚ) (h : thriftyPrefs f = some v) :
    InDoubleRange v := by
  cases f <;> simp only [thriftyPrefs, Option.some.injEq] at h <;> subst h <;>
    exact inDoubleRange_of_bounds (by norm_num [abs_of_pos]) (by norm_num [abs_of_pos])

theorem scenarioFeatures_inRange (f : Factor) :
    InDoubleRange ((staticFeatures scenarioNeighborhood).get f) ∧
      0 ≤ (staticFeatures scenarioNeighborhood).get f := by
  cases f <;>
    exact ⟨inDoubleRange_of_bounds
        (by norm_num [staticFeatures, scenarioNeighborhood, plainNeighborhood, orElse,
          Features.get, abs_of_pos])
        (by norm_num [staticFeatures, scenarioNeighborhood, plainNeighborhood, orElse,
          Features.get, abs_of_pos]),
      by norm_num [staticFeatures, scenarioNeighborhood, plainNeighborhood, orElse,
        Features.get]⟩

theorem debtFeatures_inRange (f : Factor) :
    InDoubleRange ((staticFeatures debtNeighborhood).get f) := by
  cases f <;>
    exact inDoubleRange_of_bounds
      (by norm_num [staticFeatures, debtNeighborhood, plainNeighborhood, orElse,
        Features.get, abs_of_pos, abs_of_neg])
      (by norm_num [staticFeatures, debtNeighborhood, plainNeighborhood, orElse,
        Features.get, abs_of_pos, abs_of_neg])

/-! ## C1: the range of the similarity -/

/-- C1 (amended): for every user preference vector and every candidate feature
vector in which each rating and each feature value is 0 or of a magnitude
between `2 ^ (-100)` and `2 ^ 100`, the similarity that `findBestMatches`
computes for the candidate, in double arithmetic, is a finite number in [-1,1];
it lies in [0,1] when no rating and no feature value is negative. -/
theorem similarity_range_in_doubles (p : UserPreferences) (ft : Features)
    (hp : ∀ f v, p f = some v → InDoubleRange v) (hft : ∀ f, InDoubleRange (ft.get f)) :
    ∃ z : ℚ, roundedSimilarityDouble p ft = .finite z ∧ -1 ≤ z ∧ z ≤ 1 ∧
      ((∀ f v, p f = some v → 0 ≤ v) → (∀ f, 0 ≤ ft.get f) → 0 ≤ z) := by
  obtain ⟨mu, mv, y, -, -, -, -, -, hy, -, hye⟩ := similarityDouble_near p ft hp hft
  have hx := abs_similarity_le_one p ft (Surd.denotes_self _)
  obtain ⟨n, hn, hn1000, -, hnn, -, -⟩ := rounded_of_near p ft hy hye hx
  obtain ⟨z, hz, hz1, hz2, hz0⟩ := round_thousandths n hn1000
  refine ⟨z, by rw [hn, hz], hz1, hz2, fun hpn hfn => hz0 (hnn ?_)⟩
  apply similarity_nonneg_of_dot p ft (Surd.denotes_self _)
  apply dotProduct_nonneg_of_nonneg _ _ _ hfn
  intro f
  unfold orElse
  cases hpf : p f with
  | none => norm_num
  | some v =>
    have := hpn f v hpf
    simp only []
    split_ifs <;> linarith

/-- C1 (amended), at the spec's scenario: the user (safety 5, others 1) and the
candidate (safety 10, others 2). -/
theorem similarity_range_in_doubles_witness :
    ∃ z : ℚ, roundedSimilarityDouble safetyFirstPrefs (staticFeatures scenarioNeighborhood) =
        .finite z ∧ -1 ≤ z ∧ z ≤ 1 ∧ 0 ≤ z :=
  (similarity_range_in_doubles safetyFirstPrefs (staticFeatures scenarioNeighborhood)
    (fun f v h => (safetyFirstPrefs_inRange f v h).1)
    (fun f => (scenarioFeatures_inRange f).1)).imp
    (fun _ h => ⟨h.1, h.2.1, h.2.2.1,
      h.2.2.2 (fun f v h => (safetyFirstPrefs_inRange f v h).2)
        (fun f => (scenarioFeatures_inRange f).2)⟩)

/-! ## C2: proportional vectors -/

/-- C2 (amended): a candidate whose feature vector is `c` times the scaled user
vector (`feature = c * 2 * rating` for all eight factors, every rating non-zero,
`c > 0`), with every rating and every feature value of a magnitude between
`2 ^ (-100)` and `2 ^ 100`, gets similarity exactly 1 in double arithmetic. -/
theorem proportional_similarity_one_in_doubles (p : UserPreferences) (ft : Features)
    (r : Factor → ℚ) (c : ℚ) (hp : ∀ f, p f = some (r f)) (hr : ∀ f, r f ≠ 0) (hc : 0 < c)
    (hft : ∀ f, ft.get f = c * (2 * r f))
    (hrange : ∀ f, InDoubleRange (r f) ∧ InDoubleRange (c * (2 * r f))) :
    roundedSimilarityDouble p ft = .finite 1 := by
  have hp' : ∀ f v, p f = some v → InDoubleRange v := by
    intro f v hv
    rw [hp f] at hv
    rw [← Option.some.inj hv]
    exact (hrange f).1
  have hft' : ∀ f, InDoubleRange (ft.get f) := by
    intro f
    rw [hft f]
    exact (hrange f).2
  obtain ⟨mu, mv, y, -, -, -, -, -, hy, -, hye⟩ := similarityDouble_near p ft hp' hft'
  have hone : (1 : ℝ) =
      ((similarity p ft).coeff : ℝ) * Real.sqrt ((similarity p ft).radicand : ℝ) :=
    similarity_proportional p ft r c hp hr hc hft
  rw [← hone] at hye
  obtain ⟨n, hn, -, -, -, hn1, -⟩ := rounded_of_near p ft hy hye (by norm_num)
  rw [hn, hn1 rfl]
  norm_num
  exact round_one

/-- C2 (amended) at the spec's scenario: user (safety 5, others 1) against the
candidate (safety 10, others 2) gives similarity 1. -/
theorem proportional_similarity_one_in_doubles_witness :
    roundedSimilarityDouble safetyFirstPrefs (staticFeatures scenarioNeighborhood) = .finite 1 :=
  proportional_similarity_one_in_doubles safetyFirstPrefs (staticFeatures scenarioNeighborhood)
    safetyFirstRatings 1
    (by intro f; cases f <;> rfl)
    (by intro f; cases f <;> norm_num [safetyFirstRatings])
    (by norm_num)
    (by
      intro f
      cases f <;>
        norm_num [staticFeatures, scenarioNeighborhood, plainNeighborhood, orElse, Features.get,
          safetyFirstRatings])
    (by
      intro f
      cases f <;>
        exact ⟨inDoubleRange_of_bounds (by norm_num [safetyFirstRatings, abs_of_pos])
            (by norm_num [safetyFirstRatings, abs_of_pos]),
          inDoubleRange_of_bounds (by norm_num [safetyFirstRatings, abs_of_pos])
            (by norm_num [safetyFirstRatings, abs_of_pos])⟩)

/-! ## C3: the formula of the similarity -/

/-- C3 (amended): for every candidate in which each rating and each feature
value is 0 or of a magnitude between `2 ^ (-100)` and `2 ^ 100`, with `u` the
weighted user vector and `v` the weighted candidate vector: the two magnitudes
computed in double arithmetic are finite; when both exact magnitudes are
non-zero, so are the computed ones and their product, the divisor, is a non-zero
double, and the similarity is the double nearest to a whole number `n` of
thousandths with `n / 1000` within `0.0005 + 2 ^ (-45)` of `dot / (|u| * |v|)`,
which is that quotient rounded to three decimals unless the quotient lies within
`2 ^ (-45)` of a midpoint between two thousandths; when either magnitude is 0,
so is a computed one, no quotient is taken and the similarity is 0. -/
theorem similarity_formula_in_doubles (p : UserPreferences) (ft : Features)
    (hp : ∀ f v, p f = some v → InDoubleRange v) (hft : ∀ f, InDoubleRange (ft.get f)) :
    let u : Factor → ℝ := fun f => ((userWeighted p f : ℚ) : ℝ)
    let v : Factor → ℝ := fun f => ((neighborhoodWeighted ft f : ℚ) : ℝ)
    let dot : ℝ := ∑ f : Factor, u f * v f
    let um : ℝ := Real.sqrt (∑ f : Factor, u f ^ 2)
    let vm : ℝ := Real.sqrt (∑ f : Factor, v f ^ 2)
    ∃ mu mv : ℚ,
      magnitudeDouble (weightedDouble (userScoresDouble p)) = .finite mu ∧
      magnitudeDouble (weightedDouble (neighborhoodScoresDouble ft)) = .finite mv ∧
      (um ≠ 0 ∧ vm ≠ 0 →
        mu ≠ 0 ∧ mv ≠ 0 ∧
        (∃ D : ℚ, (Double.finite mu).mul (.finite mv) = .finite D ∧ D ≠ 0) ∧
        ∃ n : ℤ, roundedSimilarityDouble p ft = Double.round ((n : ℚ) / 1000) ∧
          |(((n : ℚ) / 1000 : ℚ) : ℝ) - dot / (um * vm)| ≤ 1 / 2000 + 1 / 2 ^ (45 : ℕ) ∧
          ((∀ k : ℤ, 1 / 2 ^ (45 : ℕ) < |dot / (um * vm) - (2 * (k : ℝ) + 1) / 2000|) →
            RoundsTo (dot / (um * vm)) ((n : ℚ) / 1000))) ∧
      (um = 0 ∨ vm = 0 →
        (mu = 0 ∨ mv = 0) ∧ roundedSimilarityDouble p ft = .finite 0) := by
  intro u v dot um vm
  obtain ⟨mu, mv, y, hmu, hmv, hmu0, hmviff, hD, hy, hy0, hye⟩ :=
    similarityDouble_near p ft hp hft
  have hden := similarity_denotes p ft
  unfold Surd.Denotes at hden
  rw [dotProduct_map_real, sumSquares_map_real, sumSquares_map_real] at hden
  have hu : um ≠ 0 ↔ 0 < sumSquares (factors.map (userWeighted p)) := by
    rw [Real.sqrt_ne_zero', ← sumSquares_map_real]
    exact_mod_cast Iff.rfl
  have hv : vm ≠ 0 ↔ 0 < sumSquares (factors.map (neighborhoodWeighted ft)) := by
    rw [Real.sqrt_ne_zero', ← sumSquares_map_real]
    exact_mod_cast Iff.rfl
  have hx := abs_similarity_le_one p ft (Surd.denotes_self _)
  obtain ⟨n, hn, -, hne, -, -, hties⟩ := rounded_of_near p ft hy hye hx
  refine ⟨mu, mv, hmu, hmv, fun h => ?_, fun h => ?_⟩
  · have hmv0 := hmviff.mpr (hv.mp h.2)
    rw [if_pos ⟨hu.mp h.1, hv.mp h.2⟩] at hden
    rw [← hden] at hne hties
    exact ⟨hmu0, hmv0, hD hmv0, n, hn, hne, hties⟩
  · have hmv0 : mv = 0 := by
      by_contra hne0
      have hpos := hmviff.mp hne0
      rcases h with h | h
      · have h1 : um ≠ 0 := by
          rw [hu]
          by_contra hc
          have hzero : sumSquares (factors.map (userWeighted p)) = 0 :=
            le_antisymm (not_lt.mp hc) (sumSquares_map_nonneg _)
          have hall := (orElse_inRange (hp Factor.safety)).2
          rw [sumSquares_map] at hzero
          have hterm := (Finset.sum_eq_zero_iff_of_nonneg
            (fun f _ => mul_self_nonneg (userWeighted p f))).mp hzero Factor.safety
            (Finset.mem_univ _)
          have : userWeighted p Factor.safety ≠ 0 := by
            unfold userWeighted
            exact mul_ne_zero (mul_ne_zero hall (by norm_num))
              (factorWeights_pos Factor.safety).ne.symm
          exact this (mul_self_eq_zero.mp hterm)
        exact h1 h
      · exact (hv.mpr hpos) h
    refine ⟨Or.inr hmv0, ?_⟩
    unfold roundedSimilarityDouble
    rw [hy, hy0 hmv0]
    exact toFixed3_zero

/-- C3 (amended) at the candidate with `affordability = -20`: both magnitudes are
non-zero, and the similarity is the double nearest to a whole number of
thousandths within `0.0005 + 2 ^ (-45)` of the quotient. -/
theorem similarity_formula_in_doubles_witness :
    ∃ n : ℤ, roundedSimilarityDouble thriftyPrefs (staticFeatures debtNeighborhood) =
        Double.round ((n : ℚ) / 1000) ∧
      |(((n : ℚ) / 1000 : ℚ) : ℝ) -
        (∑ f : Factor, ((userWeighted thriftyPrefs f : ℚ) : ℝ) *
            ((neighborhoodWeighted (staticFeatures debtNeighborhood) f : ℚ) : ℝ)) /
          (Real.sqrt (∑ f : Factor, ((userWeighted thriftyPrefs f : ℚ) : ℝ) ^ 2) *
            Real.sqrt (∑ f : Factor,
              ((neighborhoodWeighted (staticFeatures debtNeighborhood) f : ℚ) : ℝ) ^ 2))| ≤
        1 / 2000 + 1 / 2 ^ (45 : ℕ) := by
  have hu : Real.sqrt (∑ f : Factor, ((userWeighted thriftyPrefs f : ℚ) : ℝ) ^ 2) ≠ 0 := by
    rw [Real.sqrt_ne_zero', ← sumSquares_map_real, sumSquares_map, sum_factor]
    norm_num [userWeighted, factorWeights, thriftyPrefs, orElse]
  have hv : Real.sqrt (∑ f : Factor,
      ((neighborhoodWeighted (staticFeatures debtNeighborhood) f : ℚ) : ℝ) ^ 2) ≠ 0 := by
    rw [Real.sqrt_ne_zero', ← sumSquares_map_real, sumSquares_map, sum_factor]
    norm_num [neighborhoodWeighted, factorWeights, staticFeatures, debtNeighborhood,
      plainNeighborhood, orElse, Features.get]
  obtain ⟨mu, mv, -, -, h, -⟩ := similarity_formula_in_doubles thriftyPrefs
    (staticFeatures debtNeighborhood) thriftyPrefs_inRange debtFeatures_inRange
  obtain ⟨-, -, -, n, hn, hne, -⟩ := h ⟨hu, hv⟩
  exact ⟨n, hn, hne⟩

/-! ## C1, C2, C3: inputs on which double arithmetic decides -/

theorem thrifty_debt_double :
    (magnitudeDouble (weightedDouble (userScoresDouble thriftyPrefs))).truthy = true ∧
    (magnitudeDouble (weightedDouble
      (neighborhoodScoresDouble (staticFeatures debtNeighborhood)))).truthy = true ∧
    roundedSimilarityDouble thriftyPrefs (staticFeatures debtNeighborhood) =
      Double.round (-(223 / 1000)) ∧
    Double.round (-(223 / 1000)) = .finite (-(8034421735228965 / 36028797018963968)) :=
  ⟨by decide!, by decide!, by decide!, by decide!⟩

theorem uniform_huge_double :
    (magnitudeDouble (weightedDouble (userScoresDouble (uniformPrefs 5)))).truthy = true ∧
    (magnitudeDouble (weightedDouble
      (neighborhoodScoresDouble (staticFeatures hugeNeighborhood)))).truthy = true ∧
    roundedSimilarityDouble (uniformPrefs 5) (staticFeatures hugeNeighborhood) = .nan :=
  ⟨by decide!, by decide!, by decide!⟩

theorem safetyFirst_minute_double :
    (magnitudeDouble (weightedDouble (userScoresDouble safetyFirstPrefs))).truthy = true ∧
    (magnitudeDouble (weightedDouble
      (neighborhoodScoresDouble (staticFeatures minuteNeighborhood)))).truthy = true ∧
    roundedSimilarityDouble safetyFirstPrefs (staticFeatures minuteNeighborhood) =
      Double.round (1136 / 1000) ∧
    Double.round (1136 / 1000) = .finite (5116089176692883 / 4503599627370496) :=
  ⟨by decide!, by decide!, by decide!, by decide!⟩

theorem uniform_faint_double :
    magnitudeDouble (weightedDouble
      (neighborhoodScoresDouble (staticFeatures faintNeighborhood))) = .finite 0 ∧
    roundedSimilarityDouble (uniformPrefs 1) (staticFeatures faintNeighborhood) = .finite 0 :=
  ⟨by decide!, by decide!⟩

theorem uniform_tie_double :
    (magnitudeDouble (weightedDouble (userScoresDouble (uniformPrefs 3)))).truthy = true ∧
    (magnitudeDouble (weightedDouble
      (neighborhoodScoresDouble (staticFeatures tieNeighborhood)))).truthy = true ∧
    similarityDouble (uniformPrefs 3) (staticFeatures tieNeighborhood) =
      .finite (7768709357214105 / 9007199254740992) ∧
    roundedSimilarityDouble (uniformPrefs 3) (staticFeatures tieNeighborhood) =
      Double.round (862 / 1000) ∧
    Double.round (862 / 1000) ≠ Double.round (863 / 1000) :=
  ⟨by decide!, by decide!, by decide!, by decide!, by decide!⟩

/-- C1 fails, in three ways. A user with valid ratings (affordability 5, the rest
1) and a static candidate whose only attribute is `affordability = -20` get the
similarity -0.223. A user who rates every factor 5 and a static candidate whose
every attribute is `1.7e308` get `NaN`: the dot product and the magnitude of the
candidate overflow to `Infinity`. The user of the spec's scenario and a static
candidate with `safety = 1.2e-161` and every other attribute `1e-170` get 1.136:
the squares underflow. In each case both magnitudes computed are non-zero. -/
theorem similarity_outside_unit_interval :
    ((magnitudeDouble (weightedDouble (userScoresDouble thriftyPrefs))).truthy = true ∧
      (magnitudeDouble (weightedDouble
        (neighborhoodScoresDouble (staticFeatures debtNeighborhood)))).truthy = true ∧
      roundedSimilarityDouble thriftyPrefs (staticFeatures debtNeighborhood) =
        Double.round (-(223 / 1000)) ∧
      Double.round (-(223 / 1000)) = .finite (-(8034421735228965 / 36028797018963968))) ∧
    ((magnitudeDouble (weightedDouble (userScoresDouble (uniformPrefs 5)))).truthy = true ∧
      (magnitudeDouble (weightedDouble
        (neighborhoodScoresDouble (staticFeatures hugeNeighborhood)))).truthy = true ∧
      roundedSimilarityDouble (uniformPrefs 5) (staticFeatures hugeNeighborhood) = .nan) ∧
    ((magnitudeDouble (weightedDouble (userScoresDouble safetyFirstPrefs))).truthy = true ∧
      (magnitudeDouble (weightedDouble
        (neighborhoodScoresDouble (staticFeatures minuteNeighborhood)))).truthy = true ∧
      roundedSimilarityDouble safetyFirstPrefs (staticFeatures minuteNeighborhood) =
        Double.round (1136 / 1000) ∧
      Double.round (1136 / 1000) = .finite (5116089176692883 / 4503599627370496) ∧
      (1 : ℚ) < 5116089176692883 / 4503599627370496) := by
  exact ⟨thrifty_debt_double, uniform_huge_double,
    ⟨safetyFirst_minute_double.1, safetyFirst_minute_double.2.1, safetyFirst_minute_double.2.2.1,
      safetyFirst_minute_double.2.2.2, by norm_num⟩⟩

/-- C2 fails for a small scalar: with every rating 1 and `c = 1e-180`, the
candidate whose every attribute is `c * 2 * 1 = 2e-180` gets similarity 0, not 1:
the squares of its weighted values underflow to 0, so its magnitude is 0 and the
guard returns 0. -/
theorem proportional_underflows_to_zero :
    (∀ f, uniformPrefs 1 f = some 1) ∧ (0 : ℚ) < 1 / 10 ^ 180 ∧
    (∀ f, (staticFeatures faintNeighborhood).get f = 1 / 10 ^ 180 * (2 * 1)) ∧
    magnitudeDouble (weightedDouble
      (neighborhoodScoresDouble (staticFeatures faintNeighborhood))) = .finite 0 ∧
    roundedSimilarityDouble (uniformPrefs 1) (staticFeatures faintNeighborhood) = .finite 0 ∧
    roundedSimilarityDouble (uniformPrefs 1) (staticFeatures faintNeighborhood) ≠ .finite 1 := by
  have h := uniform_faint_double.2
  refine ⟨fun _ => rfl, by norm_num, ?_, uniform_faint_double.1, h, ?_⟩
  · intro f
    cases f <;>
      norm_num [staticFeatures, faintNeighborhood, plainNeighborhood, orElse, Features.get]
  · rw [h]
    decide

theorem uniform_tie_similarity :
    similarity (uniformPrefs 3) (staticFeatures tieNeighborhood) =
      { coeff := 575 / 1536, radicand := 82944 / 15625 } := by
  norm_num [similarity, magnitude, Surd.sqrt, Surd.mul, Surd.div, Surd.ofRat, Surd.truthy,
    dotProduct, sumSquares, weightedUserScores, weightedNeighborhoodScores, weighted, userScores,
    neighborhoodScores, factors, factorWeights, staticFeatures, tieNeighborhood, uniformPrefs,
    plainNeighborhood, orElse, Features.get]

/-- C3 fails at a tie: for a user who rates every factor 3 and the static
candidate with the attributes 1, 1, 3, 3, 3, 3, 7, 7 both magnitudes are
non-zero and `dot / (|u| * |v|)` is exactly 0.8625, which rounded to three
decimals is 0.863; the quotient computed in double arithmetic lies just below
0.8625, and the similarity returned is 0.862. -/
theorem similarity_tie_rounds_down :
    (magnitudeDouble (weightedDouble (userScoresDouble (uniformPrefs 3)))).truthy = true ∧
    (magnitudeDouble (weightedDouble
      (neighborhoodScoresDouble (staticFeatures tieNeighborhood)))).truthy = true ∧
    (∑ f : Factor, ((userWeighted (uniformPrefs 3) f : ℚ) : ℝ) *
        ((neighborhoodWeighted (staticFeatures tieNeighborhood) f : ℚ) : ℝ)) /
      (Real.sqrt (∑ f : Factor, ((userWeighted (uniformPrefs 3) f : ℚ) : ℝ) ^ 2) *
        Real.sqrt (∑ f : Factor,
          ((neighborhoodWeighted (staticFeatures tieNeighborhood) f : ℚ) : ℝ) ^ 2)) =
      69 / 80 ∧
    RoundsTo (69 / 80) (863 / 1000) ∧
    similarityDouble (uniformPrefs 3) (staticFeatures tieNeighborhood) =
      .finite (7768709357214105 / 9007199254740992) ∧
    (7768709357214105 / 9007199254740992 : ℚ) < 69 / 80 ∧
    roundedSimilarityDouble (uniformPrefs 3) (staticFeatures tieNeighborhood) =
      Double.round (862 / 1000) ∧
    Double.round (862 / 1000) ≠ Double.round (863 / 1000) := by
  refine ⟨uniform_tie_double.1, uniform_tie_double.2.1, ?_, ?_, uniform_tie_double.2.2.1,
    by norm_num, uniform_tie_double.2.2.2.1, uniform_tie_double.2.2.2.2⟩
  · have hden := similarity_denotes (uniformPrefs 3) (staticFeatures tieNeighborhood)
    unfold Surd.Denotes at hden
    rw [dotProduct_map_real, sumSquares_map_real, sumSquares_map_real, uniform_tie_similarity,
      if_pos] at hden
    · rw [hden]
      have hs : Real.sqrt (((82944 / 15625 : ℚ) : ℚ) : ℝ) = 288 / 125 := by
        have : (((82944 / 15625 : ℚ) : ℚ) : ℝ) = (288 / 125 : ℝ) * (288 / 125) := by norm_num
        rw [this, Real.sqrt_mul_self (by norm_num)]
      simp only [hs]
      norm_num
    · constructor
      · rw [sumSquares_map, sum_factor]
        norm_num [userWeighted, factorWeights, uniformPrefs, orElse]
      · rw [sumSquares_map, sum_factor]
        norm_num [neighborhoodWeighted, factorWeights, staticFeatures, tieNeighborhood,
          plainNeighborhood, orElse, Features.get]
  · unfold RoundsTo
    constructor
    · intro _
      have : ⌊(69 / 80 : ℝ) * 1000 + 1 / 2⌋₊ = 863 := by
        rw [Nat.floor_eq_iff (by norm_num)]
        norm_num
      rw [this]
      norm_num
    · intro h
      norm_num at h


end NeighborFit
